import Mathlib

/-!
# CPU scheduling simulator: embedding of `src/main.cpp`

The simulator of `src/main.cpp` is embedded as pure functions on an explicit state.

* `Process*` pointers are indices into the process table (`Simulator::processes`, whose
  addresses `allProcPtrs` lists in load order).
* `int` is `Int`: signed overflow is undefined behaviour in C++ and is outside the model.
  `size_t pc` is `Nat`; `queueLevel`, which the source only uses as an index into `mlfq`
  and as a shift count, is `Nat`.
* `std::map<string,int> allocation` is an association list keyed by pid; the source never
  iterates over it, so the position of an entry is immaterial.
* `std::map<int,Resource> resources` is the list of resources in key order (the order
  `releaseAllResourcesOfProcess` walks them), `std::map<int,deque<Process*>> waitingQueues`
  an association list read with default `[]`.
* `cout` is the `trace` field: the list of events printed so far.
* `Scheduler::algorithm` is one of the three strings `main` lets through.
-/

namespace CpuSched

inductive ProcessState where
  | NEW | READY | RUNNING | BLOCKED | TERMINATED
  deriving DecidableEq

/-- The `enum InstructionType`; its member `IO` is spelled `Io` here. -/
inductive InstructionType where
  | CPU | Io | REQ | REL
  deriving DecidableEq

inductive BlockReason where
  | NONE | WAITING_IO | WAITING_RESOURCE
  deriving DecidableEq

structure Instruction where
  type : InstructionType
  val : Int
  count : Int
  deriving DecidableEq

structure Process where
  pid : String
  arrivalTime : Int
  priority : Int
  instructions : List Instruction
  pc : Nat := 0
  remainingTimeCurrentOp : Int := 0
  state : ProcessState := ProcessState.NEW
  blockReason : BlockReason := BlockReason.NONE
  blockedForResourceId : Int := -1
  startTime : Int := -1
  finishTime : Int := 0
  totalCpuTime : Int := 0
  totalIoTime : Int := 0
  lastReadyTime : Int := 0
  queueLevel : Nat := 0
  deriving DecidableEq

structure Resource where
  id : Int
  capacity : Int
  available : Int
  allocation : List (String × Int)
  deriving DecidableEq

structure ResourceManager where
  resources : List Resource := []
  waitingQueues : List (Int × List Nat) := []
  deriving DecidableEq

inductive Algorithm where
  | rr | prio | mlfq
  deriving DecidableEq

structure Scheduler where
  algorithm : Algorithm
  quantum : Int
  currentTime : Int := 0
  readyQueue : List Nat := []
  mlfq : List (List Nat) := [[], [], []]
  deriving DecidableEq

/-- One line written to `cout`. -/
inductive Event where
  | running (time : Int) (pid : String)
  | blockIO (time : Int) (pid : String)
  | request (time : Int) (pid : String) (rId count : Int)
  | blockedResource (time : Int) (pid : String) (rId : Int)
  | release (time : Int) (pid : String) (rId count : Int)
  | idle (time : Int)
  | unblock (pid : String) (rId : Int)
  | recovery (count rId : Int) (pid : String)
  | boost (time : Int)
  | deadlockDetected (time : Int)
  | deadlockRecovery (pid : String)
  deriving DecidableEq

/-- The members of `Simulator` together with the locals of `Simulator::run`. -/
structure Sim where
  processes : List Process
  rm : ResourceManager
  sched : Scheduler
  time : Int := 0
  completedCount : Nat := 0
  runningProcess : Option Nat := none
  currentBurstExecuted : Int := 0
  trace : List Event := []
  deriving DecidableEq

/-! ## Process table and maps -/

/-- Write through a pointer: apply `f` to entry `i` of a list. -/
def updateAt {α : Type} : List α → Nat → (α → α) → List α
  | [], _, _ => []
  | x :: xs, 0, f => f x :: xs
  | x :: xs, i + 1, f => x :: updateAt xs i f

/-- The `p->pid` of a process pointer. -/
def pidOf (procs : List Process) (p : Nat) : String :=
  match procs[p]? with
  | some x => x.pid
  | none => ""

/-- The `allocation.count(pid)` of the source, as a Boolean. -/
def allocHas : List (String × Int) → String → Bool
  | [], _ => false
  | (k, _) :: rest, pid => if k = pid then true else allocHas rest pid

/-- The value `allocation[pid]` reads: the stored count, `0` for an absent key. -/
def allocGet : List (String × Int) → String → Int
  | [], _ => 0
  | (k, v) :: rest, pid => if k = pid then v else allocGet rest pid

/-- The assignment `allocation[pid] = v`. -/
def allocSet : List (String × Int) → String → Int → List (String × Int)
  | [], pid, v => [(pid, v)]
  | (k, w) :: rest, pid, v => if k = pid then (k, v) :: rest else (k, w) :: allocSet rest pid v

/-- The call `allocation.erase(pid)`. -/
def allocErase : List (String × Int) → String → List (String × Int)
  | [], _ => []
  | (k, w) :: rest, pid => if k = pid then rest else (k, w) :: allocErase rest pid

/-- The sum of the held counts of one resource. -/
def allocSum (a : List (String × Int)) : Int :=
  (a.map Prod.snd).sum

/-- The lookup `resources.find(rId)`. -/
def findRes : List Resource → Int → Option Resource
  | [], _ => none
  | r :: rest, rId => if r.id = rId then some r else findRes rest rId

/-- Write `resources[rId] = r'` for an existing key. -/
def setRes : List Resource → Int → Resource → List Resource
  | [], _, _ => []
  | r :: rest, rId, r' => if r.id = rId then r' :: rest else r :: setRes rest rId r'

/-- The deque `waitingQueues[rId]` (empty when the key is absent). -/
def getQ : List (Int × List Nat) → Int → List Nat
  | [], _ => []
  | (k, q) :: rest, rId => if k = rId then q else getQ rest rId

/-- Write `waitingQueues[rId] = q`. -/
def setQ : List (Int × List Nat) → Int → List Nat → List (Int × List Nat)
  | [], rId, q => [(rId, q)]
  | (k, old) :: rest, rId, q => if k = rId then (k, q) :: rest else (k, old) :: setQ rest rId q

/-! ## ResourceManager -/

/-- `ResourceManager::init`: resource `i + 1` gets capacity and availability `caps[i]`. -/
def initResources : Nat → List Int → List Resource
  | _, [] => []
  | i, c :: cs => { id := (i : Int) + 1, capacity := c, available := c, allocation := [] }
      :: initResources (i + 1) cs

/-- `ResourceManager::init(m, caps)`, for the `m = caps.size()` that `loadInput` passes. -/
def ResourceManager.init (caps : List Int) : ResourceManager :=
  { resources := initResources 0 caps, waitingQueues := [] }

/-- `ResourceManager::request(p, rId, count)`; the Boolean is the return value. -/
def request (s : Sim) (p : Nat) (rId count : Int) : Sim × Bool :=
  match findRes s.rm.resources rId with
  | none => (s, false)
  | some r =>
    if r.available ≥ count then
      let pid := pidOf s.processes p
      let r1 : Resource := { r with available := r.available - count }
      let r2 : Resource := { r1 with allocation := allocSet r1.allocation pid (allocGet r1.allocation pid + count) }
      ({ s with rm := { s.rm with resources := setRes s.rm.resources rId r2 } }, true)
    else
      ({ s with rm := { s.rm with
          waitingQueues := setQ s.rm.waitingQueues rId (getQ s.rm.waitingQueues rId ++ [p]) } },
        false)

/-- The count `waiter->instructions[waiter->pc].count`, when the pointer and `pc` are in range. -/
def pendingCount (procs : List Process) (w : Nat) : Option Int :=
  match procs[w]? with
  | none => none
  | some x =>
    match x.instructions[x.pc]? with
    | none => none
    | some i => some i.count

/-- The writes of lines 101-104 to a granted waiter. -/
def wake (x : Process) : Process :=
  { x with state := ProcessState.READY, blockReason := BlockReason.NONE,
           blockedForResourceId := -1, pc := x.pc + 1 }

/-- The locals the `while` loop of `release` works on. -/
structure Drain where
  res : Resource
  procs : List Process
  queue : List Nat
  ready : List Nat
  out : List Event
  deriving DecidableEq

/-- The `while (!q.empty())` loop of `ResourceManager::release` (lines 92-112). An
out-of-range `instructions[pc]` (undefined behaviour in the source) stops the loop. -/
def drainWaiters (rId : Int) (res : Resource) (procs : List Process) (ready : List Nat)
    (out : List Event) : List Nat → Drain
  | [] => { res := res, procs := procs, queue := [], ready := ready, out := out }
  | w :: q =>
    match pendingCount procs w with
    | none => { res := res, procs := procs, queue := w :: q, ready := ready, out := out }
    | some needed =>
      if res.available ≥ needed then
        let pid := pidOf procs w
        let r1 : Resource := { res with available := res.available - needed }
        let r2 : Resource := { r1 with allocation := allocSet r1.allocation pid (allocGet r1.allocation pid + needed) }
        drainWaiters rId r2 (updateAt procs w wake) (ready ++ [w])
          (out ++ [Event.unblock pid rId]) q
      else
        { res := res, procs := procs, queue := w :: q, ready := ready, out := out }

/-- The first half of `release` (lines 83-89) on the resource record. -/
def giveBack (r : Resource) (pid : String) (count : Int) : Resource :=
  let r1 : Resource := { r with available := r.available + count }
  let r2 : Resource := { r1 with allocation := allocSet r1.allocation pid (allocGet r1.allocation pid - count) }
  if allocGet r2.allocation pid ≤ 0 then { r2 with allocation := allocErase r2.allocation pid } else r2

/-- `ResourceManager::release(p, rId, count, readyQueue)` for a non-null `p`; `readyQueue` is
`sched->readyQueue`, the argument of both call sites. -/
def release (s : Sim) (p : Nat) (rId count : Int) : Sim :=
  match findRes s.rm.resources rId with
  | none => s
  | some r =>
    let d := drainWaiters rId (giveBack r (pidOf s.processes p) count) s.processes
      s.sched.readyQueue s.trace (getQ s.rm.waitingQueues rId)
    { s with
      processes := d.procs
      rm := { resources := setRes s.rm.resources rId d.res
              waitingQueues := setQ s.rm.waitingQueues rId d.queue }
      sched := { s.sched with readyQueue := d.ready }
      trace := d.out }

/-- The body of the loop of `releaseAllResourcesOfProcess` for one key. -/
def releaseAllStep (p : Nat) (s : Sim) (rId : Int) : Sim :=
  match findRes s.rm.resources rId with
  | none => s
  | some r =>
    let pid := pidOf s.processes p
    if allocHas r.allocation pid then
      let count := allocGet r.allocation pid
      if count > 0 then
        release { s with trace := s.trace ++ [Event.recovery count rId pid] } p rId count
      else s
    else s

/-- `ResourceManager::releaseAllResourcesOfProcess(p, readyQueue)`. -/
def releaseAllResourcesOfProcess (s : Sim) (p : Nat) : Sim :=
  (s.rm.resources.map Resource.id).foldl (releaseAllStep p) s

/-! ## Scheduler -/

/-- Apply `f` to the record a process pointer designates. -/
def Sim.modifyProc (s : Sim) (p : Nat) (f : Process → Process) : Sim :=
  { s with processes := updateAt s.processes p f }

/-- The comparator of the `sort` in `addProcess` (lines 151-154); a pointer out of range
compares as not-less. -/
def prioLess (procs : List Process) (a b : Nat) : Bool :=
  match procs[a]?, procs[b]? with
  | some x, some y =>
    if x.priority = y.priority then decide (x.arrivalTime < y.arrivalTime)
    else decide (x.priority < y.priority)
  | _, _ => false

/-- The comparator of the `sort` in `applyAging` (lines 211-213). -/
def agingLess (procs : List Process) (a b : Nat) : Bool :=
  match procs[a]?, procs[b]? with
  | some x, some y => decide (x.priority < y.priority)
  | _, _ => false

/-- Insert `x` into a sorted list, in front of the first element that is not less than it. -/
def insertSorted (lt : Nat → Nat → Bool) (x : Nat) : List Nat → List Nat
  | [] => [x]
  | y :: ys => if lt y x then y :: insertSorted lt x ys else x :: y :: ys

/-- The call `sort(begin, end, lt)`. `std::sort` leaves the order of equivalent elements
unspecified; this model keeps them in their previous order. The theorems use it only up to
permutation, or on sequences of at most two entries, which every implementation leaves in
this order. -/
def stdSort (lt : Nat → Nat → Bool) : List Nat → List Nat
  | [] => []
  | x :: xs => insertSorted lt x (stdSort lt xs)

/-- `Scheduler::addProcess`. -/
def addProcess (s : Sim) (p : Nat) : Sim :=
  let s1 := s.modifyProc p (fun x =>
    { x with state := ProcessState.READY, lastReadyTime := s.sched.currentTime })
  match s1.sched.algorithm with
  | Algorithm.mlfq =>
    let lvl := match s1.processes[p]? with
      | some x => x.queueLevel
      | none => 0
    { s1 with sched := { s1.sched with mlfq := updateAt s1.sched.mlfq lvl (fun q => q ++ [p]) } }
  | Algorithm.prio =>
    { s1 with sched := { s1.sched with
        readyQueue := stdSort (prioLess s1.processes) (s1.sched.readyQueue ++ [p]) } }
  | Algorithm.rr =>
    { s1 with sched := { s1.sched with readyQueue := s1.sched.readyQueue ++ [p] } }

/-- `Scheduler::getNextProcess`: the pointer returned and the scheduler afterwards. -/
def getNextProcess (sc : Scheduler) : Option Nat × Scheduler :=
  match sc.algorithm with
  | Algorithm.mlfq =>
    match sc.mlfq with
    | (p :: q0) :: rest => (some p, { sc with mlfq := q0 :: rest })
    | [] :: (p :: q1) :: rest => (some p, { sc with mlfq := [] :: q1 :: rest })
    | [] :: [] :: (p :: q2) :: rest => (some p, { sc with mlfq := [] :: [] :: q2 :: rest })
    | _ => (none, sc)
  | _ =>
    match sc.readyQueue with
    | [] => (none, sc)
    | p :: q => (some p, { sc with readyQueue := q })

/-- The value a 32-bit `int` holds after a multiplication whose exact result is `x`: the
two's-complement residue of `x` in `[-2^31, 2^31)`. -/
def int32 (x : Int) : Int :=
  (x + 2147483648) % 4294967296 - 2147483648

/-- `Scheduler::checkQuantum(p, executed)`; the Boolean is the return value. The MLFQ limit
`quantum * (1 << p->queueLevel)` of line 183 is formed in `int`, so it is the 32-bit residue of
the product (the queue level is at most 2 in every run). -/
def checkQuantum (s : Sim) (p : Nat) (executed : Int) : Sim × Bool :=
  match s.sched.algorithm with
  | Algorithm.prio => (s, false)
  | Algorithm.rr => (s, decide (executed ≥ s.sched.quantum))
  | Algorithm.mlfq =>
    let lvl := match s.processes[p]? with
      | some x => x.queueLevel
      | none => 0
    if executed ≥ int32 (s.sched.quantum * 2 ^ lvl) then
      (s.modifyProc p (fun x => if x.queueLevel < 2 then { x with queueLevel := x.queueLevel + 1 } else x),
        true)
    else (s, false)

/-- The body of the `for (auto p : readyQueue)` loop of `applyAging`; the Boolean is `changed`. -/
def agingVisit (now : Int) (acc : List Process × Bool) (p : Nat) : List Process × Bool :=
  match acc.1[p]? with
  | none => acc
  | some x =>
    if now - x.lastReadyTime > 50 then
      if x.priority > 0 then
        (updateAt acc.1 p (fun y => { y with priority := y.priority - 1, lastReadyTime := now }), true)
      else acc
    else acc

/-- The inner `while (!mlfq[i].empty())` loop of the boost for one level `i ≥ 1`. -/
def boostLevel (procs : List Process) (q0 : List Nat) : List Nat → List Process × List Nat
  | [] => (procs, q0)
  | p :: q => boostLevel (updateAt procs p (fun x => { x with queueLevel := 0 })) (q0 ++ [p]) q

/-- `Scheduler::applyAging`. -/
def applyAging (s : Sim) : Sim :=
  match s.sched.algorithm with
  | Algorithm.prio =>
    let r := s.sched.readyQueue.foldl (agingVisit s.sched.currentTime) (s.processes, false)
    if r.2 then
      { s with processes := r.1,
               sched := { s.sched with readyQueue := stdSort (agingLess r.1) s.sched.readyQueue } }
    else { s with processes := r.1 }
  | Algorithm.mlfq =>
    if s.sched.currentTime > 0 ∧ s.sched.currentTime % 200 = 0 then
      let q0 := s.sched.mlfq.getD 0 []
      let q1 := s.sched.mlfq.getD 1 []
      let q2 := s.sched.mlfq.getD 2 []
      let b1 := boostLevel s.processes q0 q1
      let b2 := boostLevel b1.1 b1.2 q2
      let boosted := decide (q1 ≠ [] ∨ q2 ≠ [])
      { s with processes := b2.1,
               sched := { s.sched with mlfq := [b2.2, [], []] },
               trace := if boosted then s.trace ++ [Event.boost s.sched.currentTime] else s.trace }
    else s
  | Algorithm.rr => s

/-! ## Simulator -/

/-- The test `p->state == BLOCKED && p->blockReason == WAITING_RESOURCE` of line 312. -/
def isWaitingResource (x : Process) : Bool :=
  decide (x.state = ProcessState.BLOCKED ∧ x.blockReason = BlockReason.WAITING_RESOURCE)

/-- The test `p->state == BLOCKED && p->blockReason == WAITING_IO` of line 318. -/
def isWaitingIO (x : Process) : Bool :=
  decide (x.state = ProcessState.BLOCKED ∧ x.blockReason = BlockReason.WAITING_IO)

/-- The vector `blockedOnResource` of `checkAndResolveDeadlock`: pointers in load order. -/
def blockedOnResource (procs : List Process) : List Nat :=
  (List.range procs.length).filter (fun i =>
    match procs[i]? with
    | some x => isWaitingResource x
    | none => false)

/-- The guard under which `checkAndResolveDeadlock` aborts a process (lines 303-320). -/
def deadlockCond (s : Sim) : Bool :=
  let isAnyRunning := s.runningProcess.isSome
  let isAnyReady := decide (s.sched.readyQueue ≠ []) || s.sched.mlfq.any (fun q => decide (q ≠ []))
  !isAnyRunning && !isAnyReady && decide (blockedOnResource s.processes ≠ [])
    && !(s.processes.any isWaitingIO)

/-- `Simulator::checkAndResolveDeadlock`. -/
def checkAndResolveDeadlock (s : Sim) : Sim :=
  if deadlockCond s then
    match blockedOnResource s.processes with
    | [] => s
    | victim :: _ =>
      let s1 := { s with trace := s.trace ++
        [Event.deadlockDetected s.time, Event.deadlockRecovery (pidOf s.processes victim)] }
      let s2 := releaseAllResourcesOfProcess s1 victim
      s2.modifyProc victim (fun x =>
        { x with state := ProcessState.TERMINATED, finishTime := s2.time })
  else s

/-- The body of the arrival loop (lines 342-346) for one pointer. -/
def arrivalVisit (s : Sim) (p : Nat) : Sim :=
  match s.processes[p]? with
  | none => s
  | some x =>
    if x.state = ProcessState.NEW ∧ x.arrivalTime = s.time then addProcess s p else s

/-- The body of the I/O loop (lines 348-359) for one pointer. -/
def ioVisit (s : Sim) (p : Nat) : Sim :=
  match s.processes[p]? with
  | none => s
  | some x =>
    if x.state = ProcessState.BLOCKED ∧ x.blockReason = BlockReason.WAITING_IO then
      let s1 := s.modifyProc p (fun y =>
        { y with remainingTimeCurrentOp := y.remainingTimeCurrentOp - 1,
                 totalIoTime := y.totalIoTime + 1 })
      if x.remainingTimeCurrentOp - 1 ≤ 0 then
        addProcess (s1.modifyProc p (fun y =>
          { y with state := ProcessState.READY, blockReason := BlockReason.NONE, pc := y.pc + 1 })) p
      else s1
    else s

/-- The writes of lines 369-377 to a freshly dispatched process. -/
def onDispatch (now : Int) (x : Process) : Process :=
  let x1 : Process := { x with state := ProcessState.RUNNING }
  let x2 : Process := if x1.startTime = -1 then { x1 with startTime := now } else x1
  match x2.instructions[x2.pc]? with
  | none => x2
  | some inst =>
    if inst.type = InstructionType.CPU ∧ x2.remainingTimeCurrentOp ≤ 0 then
      { x2 with remainingTimeCurrentOp := inst.val }
    else x2

/-- The dispatch stage (lines 364-379). -/
def dispatch (s : Sim) : Sim :=
  match s.runningProcess with
  | some _ => s
  | none =>
    let r := getNextProcess s.sched
    let s1 := { s with sched := r.2, runningProcess := r.1, currentBurstExecuted := 0 }
    match r.1 with
    | none => s1
    | some p => s1.modifyProc p (onDispatch s1.time)

/-- Lines 383-386. -/
def reapRunning (s : Sim) : Sim :=
  match s.runningProcess with
  | none => s
  | some p =>
    match s.processes[p]? with
    | none => s
    | some x =>
      if x.state = ProcessState.TERMINATED then
        { s with runningProcess := none, completedCount := s.completedCount + 1 }
      else s

/-- The `CPU` branch of the execute stage (lines 399-425). -/
def execCPU (s : Sim) (p : Nat) (x : Process) : Sim :=
  let s1 := { s with trace := s.trace ++ [Event.running s.time x.pid],
                     currentBurstExecuted := s.currentBurstExecuted + 1 }
  let s2 := s1.modifyProc p (fun y =>
    { y with remainingTimeCurrentOp := y.remainingTimeCurrentOp - 1,
             totalCpuTime := y.totalCpuTime + 1 })
  if x.remainingTimeCurrentOp - 1 ≤ 0 then
    if x.pc + 1 ≥ x.instructions.length then
      { s2.modifyProc p (fun y =>
          { y with pc := y.pc + 1, state := ProcessState.TERMINATED, finishTime := s.time + 1 }) with
        completedCount := s2.completedCount + 1, runningProcess := none }
    else
      { addProcess (s2.modifyProc p (fun y =>
          { y with pc := y.pc + 1, state := ProcessState.READY })) p with runningProcess := none }
  else
    let r := checkQuantum s2 p s2.currentBurstExecuted
    if r.2 then { addProcess r.1 p with runningProcess := none } else r.1

/-- The `IO` branch (lines 426-432). -/
def execIO (s : Sim) (p : Nat) (x : Process) (inst : Instruction) : Sim :=
  { s.modifyProc p (fun y =>
      { y with state := ProcessState.BLOCKED, blockReason := BlockReason.WAITING_IO,
               remainingTimeCurrentOp := inst.val }) with
    trace := s.trace ++ [ Event.blockIO s.time x.pid], runningProcess := none }

/-- The `REQ` branch (lines 433-446). -/
def execREQ (s : Sim) (p : Nat) (x : Process) (inst : Instruction) : Sim :=
  let s1 := { s with trace := s.trace ++ [Event.request s.time x.pid inst.val inst.count] }
  let r := request s1 p inst.val inst.count
  if r.2 then
    { addProcess (r.1.modifyProc p (fun y => { y with pc := y.pc + 1 })) p with
      runningProcess := none }
  else
    { r.1.modifyProc p (fun y =>
        { y with state := ProcessState.BLOCKED, blockReason := BlockReason.WAITING_RESOURCE,
                 blockedForResourceId := inst.val }) with
      trace := r.1.trace ++ [Event.blockedResource s.time x.pid inst.val], runningProcess := none }

/-- The `REL` branch (lines 447-453). -/
def execREL (s : Sim) (p : Nat) (x : Process) (inst : Instruction) : Sim :=
  let s1 := { s with trace := s.trace ++ [Event.release s.time x.pid inst.val inst.count] }
  let s2 := release s1 p inst.val inst.count
  { addProcess (s2.modifyProc p (fun y => { y with pc := y.pc + 1 })) p with
    runningProcess := none }

/-- The execute stage and the clock (lines 388-459). The `continue` of line 394 leaves
`time` as it is; every other path ends in `time++`. -/
def execute (s : Sim) : Sim :=
  match s.runningProcess with
  | none => { s with trace := s.trace ++ [Event.idle s.time], time := s.time + 1 }
  | some p =>
    match s.processes[p]? with
    | none => s
    | some x =>
      match x.instructions[x.pc]? with
      | none =>
        { s.modifyProc p (fun y =>
            { y with state := ProcessState.TERMINATED, finishTime := s.time }) with
          runningProcess := none, completedCount := s.completedCount + 1 }
      | some inst =>
        let s1 := match inst.type with
          | InstructionType.CPU => execCPU s p x
          | InstructionType.Io => execIO s p x inst
          | InstructionType.REQ => execREQ s p x inst
          | InstructionType.REL => execREL s p x inst
        { s1 with time := s1.time + 1 }

/-- The arrival stage. -/
def arrivals (s : Sim) : Sim :=
  (List.range s.processes.length).foldl arrivalVisit s

/-- The I/O-advance stage. -/
def ioAdvance (s : Sim) : Sim :=
  (List.range s.processes.length).foldl ioVisit s

/-- The call `sched->setTime(time)`. -/
def setTime (s : Sim) : Sim :=
  { s with sched := { s.sched with currentTime := s.time } }

/-- One pass through the body of the `while` loop of `Simulator::run`. -/
def step (s : Sim) : Sim :=
  execute (reapRunning (checkAndResolveDeadlock (dispatch (applyAging (setTime (ioAdvance (arrivals s)))))))

/-- The loop condition `completedCount < processes.size()`. -/
def loopCond (s : Sim) : Bool :=
  decide (s.completedCount < s.processes.length)

/-- The `while` loop of `Simulator::run`, cut off after `fuel` passes: `some` of the state
in which the loop exits, `none` when it is still running. -/
def run : Nat → Sim → Option Sim
  | 0, s => if loopCond s then none else some s
  | fuel + 1, s => if loopCond s then run fuel (step s) else some s

/-- The state after `n` passes through the loop body, the loop condition permitting. -/
def passes : Nat → Sim → Sim
  | 0, s => s
  | n + 1, s => if loopCond s then passes n (step s) else s

/-- The simulator as `main` constructs it and `loadInput` fills it. -/
def Sim.load (alg : Algorithm) (q : Int) (caps : List Int) (procs : List Process) : Sim :=
  { processes := procs, rm := ResourceManager.init caps,
    sched := { algorithm := alg, quantum := q } }

/-- A process record as `loadInput` leaves it. -/
def mkProcess (pid : String) (arrival priority : Int) (prog : List Instruction) : Process :=
  { pid := pid, arrivalTime := arrival, priority := priority, instructions := prog }

/-- The (time, pid) pairs of the `RUNNING` lines of a trace, in order. -/
def cpuTicks : List Event → List (Int × String)
  | [] => []
  | Event.running t pid :: rest => (t, pid) :: cpuTicks rest
  | _ :: rest => cpuTicks rest

/-! ## Specification predicates and scenarios -/

/-- The resource invariant of the specification: `0 ≤ available ≤ capacity`, every held count
is positive, and `available + Σ allocation = capacity`. -/
def ResourceOk (r : Resource) : Prop :=
  0 ≤ r.available ∧ r.available ≤ r.capacity ∧ (∀ e ∈ r.allocation, 0 < e.2) ∧
    r.available + allocSum r.allocation = r.capacity

/-- Resource conservation: every resource of the manager satisfies `ResourceOk`. -/
def Conserved (rm : ResourceManager) : Prop :=
  ∀ r ∈ rm.resources, ResourceOk r

/-- All entries of all wait queues, queue after queue. -/
def allWaiters : List (Int × List Nat) → List Nat
  | [] => []
  | (_, q) :: rest => q ++ allWaiters rest

/-- The waiter's pending request, the instruction at its `pc`, has a positive count. -/
def PendingPositive (procs : List Process) (w : Nat) : Prop :=
  ∃ c, pendingCount procs w = some c ∧ 0 < c

/-- The length of the longest prefix of a wait queue, given as the list of pending counts of
its waiters, in which each count fits in what the counts before it leave of `a`. A waiter
without a pending count ends the prefix. -/
def fitCount : Int → List (Option Int) → Nat
  | _, [] => 0
  | _, none :: _ => 0
  | a, some c :: cs => if a ≥ c then fitCount (a - c) cs + 1 else 0

/-- The process table after the grants of lines 101-104 to the waiters `ws`, in order. -/
def wakeAll (procs : List Process) (ws : List Nat) : List Process :=
  ws.foldl (fun ps w => updateAt ps w wake) procs

/-- No process is queued twice, in the same or in two wait queues, and every queued waiter has a
positive pending count. -/
def WaitersOk (procs : List Process) (wq : List (Int × List Nat)) : Prop :=
  (allWaiters wq).Nodup ∧ ∀ w ∈ allWaiters wq, PendingPositive procs w

/-- The sum of the first `i` pending counts of a wait queue. -/
def needSum (cs : List (Option Int)) (i : Nat) : Int :=
  ((cs.take i).map (fun c => c.getD 0)).sum

/-- A state in which process 0 holds the single unit of resource 1 and process 1 waits for it. -/
def heldState : Sim :=
  { processes :=
      [{ pid := "A", arrivalTime := 0, priority := 0,
         instructions := [⟨InstructionType.REQ, 1, 1⟩, ⟨InstructionType.REL, 1, 1⟩],
         pc := 1, state := ProcessState.RUNNING, startTime := 0 },
       { pid := "B", arrivalTime := 0, priority := 0,
         instructions := [⟨InstructionType.REQ, 1, 1⟩, ⟨InstructionType.REL, 1, 1⟩],
         pc := 0, state := ProcessState.BLOCKED, blockReason := BlockReason.WAITING_RESOURCE,
         blockedForResourceId := 1, startTime := 1 }],
    rm := { resources := [⟨1, 1, 0, [("A", 1)]⟩], waitingQueues := [(1, [1])] },
    sched := { algorithm := Algorithm.rr, quantum := 10, currentTime := 2 },
    time := 2, runningProcess := some 0 }

/-- A state in which process 0 holds both units of resource 1 and three processes queue for
it, asking for 1, 1 and 2 units. -/
def queueState : Sim :=
  { processes :=
      [{ pid := "A", arrivalTime := 0, priority := 0,
         instructions := [⟨InstructionType.REQ, 1, 2⟩, ⟨InstructionType.REL, 1, 2⟩],
         pc := 1, state := ProcessState.RUNNING, startTime := 0 },
       { pid := "B", arrivalTime := 0, priority := 0,
         instructions := [⟨InstructionType.REQ, 1, 1⟩],
         state := ProcessState.BLOCKED, blockReason := BlockReason.WAITING_RESOURCE,
         blockedForResourceId := 1, startTime := 1 },
       { pid := "C", arrivalTime := 0, priority := 0,
         instructions := [⟨InstructionType.REQ, 1, 1⟩],
         state := ProcessState.BLOCKED, blockReason := BlockReason.WAITING_RESOURCE,
         blockedForResourceId := 1, startTime := 2 },
       { pid := "D", arrivalTime := 0, priority := 0,
         instructions := [⟨InstructionType.REQ, 1, 2⟩],
         state := ProcessState.BLOCKED, blockReason := BlockReason.WAITING_RESOURCE,
         blockedForResourceId := 1, startTime := 3 }],
    rm := { resources := [⟨1, 2, 0, [("A", 2)]⟩], waitingQueues := [(1, [1, 2, 3])] },
    sched := { algorithm := Algorithm.rr, quantum := 10, currentTime := 4 },
    time := 4, runningProcess := some 0 }

/-- The state in which `run` calls `checkAndResolveDeadlock` during a pass that starts in `s`. -/
def beforeDeadlockCheck (s : Sim) : Sim :=
  dispatch (applyAging (setTime (ioAdvance (arrivals s))))

/-- Two resources of capacity 1; `A: REQ1 1; REQ2 1; REL2 1; REL1 1` and
`B: REQ2 1; REQ1 1; REL1 1; REL2 1`, both arriving at 0, under RR with quantum 10. -/
def crossWorkload : Sim :=
  Sim.load Algorithm.rr 10 [1, 1]
    [mkProcess "A" 0 0 [⟨InstructionType.REQ, 1, 1⟩, ⟨InstructionType.REQ, 2, 1⟩,
                        ⟨InstructionType.REL, 2, 1⟩, ⟨InstructionType.REL, 1, 1⟩],
     mkProcess "B" 0 0 [⟨InstructionType.REQ, 2, 1⟩, ⟨InstructionType.REQ, 1, 1⟩,
                        ⟨InstructionType.REL, 1, 1⟩, ⟨InstructionType.REL, 2, 1⟩]]

/-- One resource of capacity 2 and the single process `V: REQ1 1; REQ1 2`, under RR with
quantum 10. -/
def selfWaitWorkload : Sim :=
  Sim.load Algorithm.rr 10 [2]
    [mkProcess "V" 0 0 [⟨InstructionType.REQ, 1, 1⟩, ⟨InstructionType.REQ, 1, 2⟩]]

/-- One resource of capacity 1; `A: IO 4` and `B: REQ1 1; REL1 1`, both arriving at 0, under RR
with quantum 10. -/
def ioWorkload : Sim :=
  Sim.load Algorithm.rr 10 [1]
    [mkProcess "A" 0 0 [⟨InstructionType.Io, 4, 0⟩],
     mkProcess "B" 0 0 [⟨InstructionType.REQ, 1, 1⟩, ⟨InstructionType.REL, 1, 1⟩]]

/-- What every resource-manager call leaves alone: the clock, the size of the process table
and the lines already printed. -/
def Keeps (s s' : Sim) : Prop :=
  s'.time = s.time ∧ s'.processes.length = s.processes.length ∧ s.trace <+: s'.trace

/-- Scenario 2 of the specification: `A` (arrival 0, `CPU 5`) loaded before `B` (arrival 0,
`CPU 3`), under RR with quantum 2. The priorities, the resource capacities and the unused
`count` fields of the two instructions are arbitrary. -/
def rrWorkload (caps : List Int) (pa pb ca cb : Int) : Sim :=
  Sim.load Algorithm.rr 2 caps
    [mkProcess "A" 0 pa [⟨InstructionType.CPU, 5, ca⟩],
     mkProcess "B" 0 pb [⟨InstructionType.CPU, 3, cb⟩]]

/-- A machine state with a single process. -/
def st1 (alg : Algorithm) (q : Int) (rm : ResourceManager) (x : Process) (ct : Int)
    (rq : List Nat) (m : List (List Nat)) (t : Int) (cc : Nat) (r : Option Nat) (b : Int)
    (tr : List Event) : Sim :=
  { processes := [x], rm := rm,
    sched := { algorithm := alg, quantum := q, currentTime := ct, readyQueue := rq, mlfq := m },
    time := t, completedCount := cc, runningProcess := r, currentBurstExecuted := b, trace := tr }

/-- The record of a process with program `[CPU d]` that was first dispatched at its arrival
time `a` and has executed `j` units since. -/
def cpuProc (pid : String) (a prio d c j : Int) (st : ProcessState) (lrt : Int) (lvl : Nat) :
    Process :=
  { pid := pid, arrivalTime := a, priority := prio,
    instructions := [⟨InstructionType.CPU, d, c⟩], pc := 0,
    remainingTimeCurrentOp := d - j, state := st, startTime := a, totalCpuTime := j,
    lastReadyTime := lrt, queueLevel := lvl }

/-- The single-process state between dispatch and execution in the tick `a + j`. -/
def runningState (alg : Algorithm) (q : Int) (rm : ResourceManager) (pid : String)
    (a prio d c j b : Int) (lvl : Nat) (lrt : Int) (tr : List Event) : Sim :=
  st1 alg q rm (cpuProc pid a prio d c j ProcessState.RUNNING lrt lvl) (a + j) [] [[], [], []]
    (a + j) 0 (some 0) b tr

/-- The second half of a pass: everything from the deadlock check on. -/
def afterDispatch (s : Sim) : Sim :=
  execute (reapRunning (checkAndResolveDeadlock s))

/-- The workload of scenario 1: one process with program `[CPU d]`. -/
def singleWorkload (alg : Algorithm) (q : Int) (caps : List Int) (pid : String) (a : Nat)
    (prio : Int) (d : Nat) (c : Int) : Sim :=
  Sim.load alg q caps [mkProcess pid a prio [⟨InstructionType.CPU, d, c⟩]]

/-- A record of scenario 2: arrival 0 and the one-instruction program `[CPU d]`. -/
def rrProc (pid : String) (prio d c : Int) (pc : Nat) (rem : Int) (st : ProcessState)
    (startT finishT cpuT lrt : Int) : Process :=
  { pid := pid, arrivalTime := 0, priority := prio,
    instructions := [⟨InstructionType.CPU, d, c⟩], pc := pc, remainingTimeCurrentOp := rem,
    state := st, startTime := startT, finishTime := finishT, totalCpuTime := cpuT,
    lastReadyTime := lrt }

/-- A state of scenario 2: two processes under RR with quantum 2. -/
def rrState (caps : List Int) (x y : Process) (ct : Int) (rq : List Nat) (t : Int) (cc : Nat)
    (r : Option Nat) (b : Int) (tr : List Event) : Sim :=
  { processes := [x, y], rm := ResourceManager.init caps,
    sched := { algorithm := Algorithm.rr, quantum := 2, currentTime := ct, readyQueue := rq },
    time := t, completedCount := cc, runningProcess := r, currentBurstExecuted := b, trace := tr }

/-- Three processes at the MLFQ levels 0, 1 and 2, each in the queue of its level, at time 200. -/
def boostState : Sim :=
  { processes :=
      [cpuProc "A" 0 0 10 0 0 ProcessState.READY 0 0,
       cpuProc "B" 0 0 10 0 0 ProcessState.READY 0 1,
       cpuProc "C" 0 0 10 0 0 ProcessState.READY 0 2],
    rm := ResourceManager.init [1],
    sched := { algorithm := Algorithm.mlfq, quantum := 4, currentTime := 200,
               mlfq := [[0], [1], [2]] },
    time := 200 }

/-- The writes of lines 202-208 to one visited process, as a function of its record. -/
def aged (now : Int) (x : Process) : Process :=
  if now - x.lastReadyTime > 50 ∧ x.priority > 0 then
    { x with priority := x.priority - 1, lastReadyTime := now }
  else x

/-- Scenario 6 of the specification under PRIO: `H` (priority 0, `CPU 200`) and `L`
(priority 5, `CPU 1`), both arriving at 0. -/
def agingWorkload : Sim :=
  Sim.load Algorithm.prio 10 [1]
    [mkProcess "H" 0 0 [⟨InstructionType.CPU, 200, 0⟩],
     mkProcess "L" 0 5 [⟨InstructionType.CPU, 1, 0⟩]]

/-- The state in which `run` calls `applyAging` during a pass that starts in `s`. -/
def beforeAging (s : Sim) : Sim :=
  setTime (ioAdvance (arrivals s))

/-- One process with program `[CPU 4, CPU 1]` under MLFQ with quantum 4. -/
def twoBurstWorkload : Sim :=
  Sim.load Algorithm.mlfq 4 [1]
    [mkProcess "A" 0 0 [⟨InstructionType.CPU, 4, 0⟩, ⟨InstructionType.CPU, 1, 0⟩]]

/-- A single-process MLFQ state with quantum 4: the process runs at level 1, has executed 7
units of its burst and has 991 units of its `CPU 1000` left. -/
def demotionState : Sim :=
  st1 Algorithm.mlfq 4 (ResourceManager.init [1])
    (cpuProc "A" 0 0 1000 0 9 ProcessState.RUNNING 0 1) 8 [] [[], [], []] 9 0 (some 0) 7 []

/-- The times of the `[BOOST]` lines of a trace, in order. -/
def boostTimes : List Event → List Int
  | [] => []
  | Event.boost t :: rest => t :: boostTimes rest
  | _ :: rest => boostTimes rest

/-- Where the single process of scenario 5 (quantum 4) stands when the tick `j` is about to
execute: level 0 with burst `j` up to tick 3, level 1 with burst `j - 4` up to tick 11, level 2
with burst `(j - 12) mod 16` from tick 12 on. -/
def BoostPhase (j : Nat) (b : Int) (lvl : Nat) : Prop :=
  (j < 4 ∧ lvl = 0 ∧ b = j) ∨ (4 ≤ j ∧ j < 12 ∧ lvl = 1 ∧ b = (j : Int) - 4) ∨
  (12 ≤ j ∧ lvl = 2 ∧ b = (((j - 12) % 16 : Nat) : Int))

/-- Scenario 4 in its shortest form: two resources of capacity 1, `A: REQ1 1; REQ2 1` and
`B: REQ2 1; REQ1 1`, both arriving at 0, under RR with quantum 10. -/
def shortCrossWorkload : Sim :=
  Sim.load Algorithm.rr 10 [1, 1]
    [mkProcess "A" 0 0 [⟨InstructionType.REQ, 1, 1⟩, ⟨InstructionType.REQ, 2, 1⟩],
     mkProcess "B" 0 0 [⟨InstructionType.REQ, 2, 1⟩, ⟨InstructionType.REQ, 1, 1⟩]]

/-- The number of processes whose state is `TERMINATED`. -/
def terminatedCount (s : Sim) : Nat :=
  (s.processes.filter (fun x => x.state = ProcessState.TERMINATED)).length

/-- The state of `shortCrossWorkload` once `B` has terminated: both processes are `TERMINATED`,
nothing is ready or running, and one completion has been counted. The clock, the scheduler's
copy of it and the lines printed are the parameters. -/
def stalledState (t ct : Int) (tr : List Event) : Sim :=
  { processes :=
      [{ pid := "A", arrivalTime := 0, priority := 0,
         instructions := [⟨InstructionType.REQ, 1, 1⟩, ⟨InstructionType.REQ, 2, 1⟩],
         pc := 1, state := ProcessState.TERMINATED,
         blockReason := BlockReason.WAITING_RESOURCE, blockedForResourceId := 2,
         startTime := 0, finishTime := 4 },
       { pid := "B", arrivalTime := 0, priority := 0,
         instructions := [⟨InstructionType.REQ, 2, 1⟩, ⟨InstructionType.REQ, 1, 1⟩],
         pc := 2, state := ProcessState.TERMINATED, startTime := 1, finishTime := 5,
         lastReadyTime := 1 }],
    rm := { resources := [⟨1, 1, 0, [("B", 1)]⟩, ⟨2, 1, 0, [("B", 1)]⟩],
            waitingQueues := [(2, [0]), (1, [])] },
    sched := { algorithm := Algorithm.rr, quantum := 10, currentTime := ct },
    time := t, completedCount := 1, trace := tr }

/-- Every record of `procs'` is a record of `procs`, or is `READY`, or is `TERMINATED`: what
the grants of `release` and the abort of the deadlock recovery do to a process table. -/
def Readied (procs procs' : List Process) : Prop :=
  ∀ y ∈ procs', y ∈ procs ∨ y.state = ProcessState.READY ∨ y.state = ProcessState.TERMINATED

/-- The fields a call of `release` leaves alone when it grants waiters: the policy, the MLFQ
queues, the running slot, the clock and the completion count. -/
def SameSlots (s s' : Sim) : Prop :=
  s'.sched.algorithm = s.sched.algorithm ∧ s'.sched.mlfq = s.sched.mlfq ∧
  s'.runningProcess = s.runningProcess ∧ s'.time = s.time ∧
  s'.completedCount = s.completedCount

/-- Scenario 3 of the specification: one resource of capacity 1, `A` (arrival 0) with
`REQ1 1; CPU 5; REL1 1` loaded before `B` (arrival 1) with `REQ1 1; CPU 2; REL1 1`, under RR
with quantum 10. The priorities and the unused `count` fields of the two `CPU` instructions
are arbitrary. -/
def blockingWorkload (pa pb ca cb : Int) : Sim :=
  Sim.load Algorithm.rr 10 [1]
    [mkProcess "A" 0 pa [⟨InstructionType.REQ, 1, 1⟩, ⟨InstructionType.CPU, 5, ca⟩,
                         ⟨InstructionType.REL, 1, 1⟩],
     mkProcess "B" 1 pb [⟨InstructionType.REQ, 1, 1⟩, ⟨InstructionType.CPU, 2, cb⟩,
                         ⟨InstructionType.REL, 1, 1⟩]]

/-- A record of scenario 3: program `REQ1 1; CPU d; REL1 1`. -/
def blockingProc (pid : String) (arrival prio d c : Int) (pc : Nat) (rem : Int)
    (st : ProcessState) (br : BlockReason) (bfr startT finishT cpuT lrt : Int) : Process :=
  { pid := pid, arrivalTime := arrival, priority := prio,
    instructions := [⟨InstructionType.REQ, 1, 1⟩, ⟨InstructionType.CPU, d, c⟩,
                     ⟨InstructionType.REL, 1, 1⟩],
    pc := pc, remainingTimeCurrentOp := rem, state := st, blockReason := br,
    blockedForResourceId := bfr, startTime := startT, finishTime := finishT,
    totalCpuTime := cpuT, lastReadyTime := lrt }

/-- A state of scenario 3: two processes and resource 1 of capacity 1 under RR with
quantum 10. -/
def blockingState (x y : Process) (avail : Int) (alloc : List (String × Int))
    (wq : List (Int × List Nat)) (ct : Int) (rq : List Nat) (t : Int) (cc : Nat)
    (r : Option Nat) (b : Int) (tr : List Event) : Sim :=
  { processes := [x, y],
    rm := { resources := [⟨1, 1, avail, alloc⟩], waitingQueues := wq },
    sched := { algorithm := Algorithm.rr, quantum := 10, currentTime := ct, readyQueue := rq },
    time := t, completedCount := cc, runningProcess := r, currentBurstExecuted := b,
    trace := tr }

/-- Two resources of capacity 1 under PRIO: `A` and `B` (both arrival 0, priority 5) with
`REQ1 1; REQ2 1` and `REQ2 1; REQ1 1`, and `N` (arrival 5, priority 0) with `CPU 1`. -/
def overtakeWorkload : Sim :=
  Sim.load Algorithm.prio 10 [1, 1]
    [mkProcess "A" 0 5 [⟨InstructionType.REQ, 1, 1⟩, ⟨InstructionType.REQ, 2, 1⟩],
     mkProcess "B" 0 5 [⟨InstructionType.REQ, 2, 1⟩, ⟨InstructionType.REQ, 1, 1⟩],
     mkProcess "N" 5 0 [⟨InstructionType.CPU, 1, 0⟩]]

/-- Two resources of capacities 2 and 1 under PRIO: `V` (arrival 1, priority 0) with
`REQ1 2; REQ2 1`, `L` (arrival 0, priority 5) with `REQ2 1; REQ1 1` and `H` (arrival 4,
priority 1) with `REQ1 1`, loaded in this order. -/
def inversionWorkload : Sim :=
  Sim.load Algorithm.prio 10 [2, 1]
    [mkProcess "V" 1 0 [⟨InstructionType.REQ, 1, 2⟩, ⟨InstructionType.REQ, 2, 1⟩],
     mkProcess "L" 0 5 [⟨InstructionType.REQ, 2, 1⟩, ⟨InstructionType.REQ, 1, 1⟩],
     mkProcess "H" 4 1 [⟨InstructionType.REQ, 1, 1⟩]]

/-- One resource under PRIO: `H` (arrival 0, priority 0) with `CPU 60`, `Y` (arrival 0,
priority 2) with `CPU 1` and `X` (arrival 5, priority 1) with `CPU 1`. -/
def agingTieWorkload : Sim :=
  Sim.load Algorithm.prio 10 [1]
    [mkProcess "H" 0 0 [⟨InstructionType.CPU, 60, 0⟩],
     mkProcess "Y" 0 2 [⟨InstructionType.CPU, 1, 0⟩],
     mkProcess "X" 5 1 [⟨InstructionType.CPU, 1, 0⟩]]

/-- Scenario 3 of the specification under MLFQ with quantum 10. -/
def blockingMlfqWorkload : Sim :=
  Sim.load Algorithm.mlfq 10 [1]
    [mkProcess "A" 0 0 [⟨InstructionType.REQ, 1, 1⟩, ⟨InstructionType.CPU, 5, 0⟩,
                        ⟨InstructionType.REL, 1, 1⟩],
     mkProcess "B" 1 0 [⟨InstructionType.REQ, 1, 1⟩, ⟨InstructionType.CPU, 2, 0⟩,
                        ⟨InstructionType.REL, 1, 1⟩]]

/-- The state of `blockingMlfqWorkload` once `A` has terminated: `B`, granted resource 1 by
the release of `A`, is `READY` and sits in `readyQueue`; the three MLFQ queues are empty. The
clock, the scheduler's copy of it and the lines printed are the parameters. -/
def strandedState (t ct : Int) (tr : List Event) : Sim :=
  { processes :=
      [{ pid := "A", arrivalTime := 0, priority := 0,
         instructions := [⟨InstructionType.REQ, 1, 1⟩, ⟨InstructionType.CPU, 5, 0⟩,
                          ⟨InstructionType.REL, 1, 1⟩],
         pc := 3, state := ProcessState.TERMINATED, startTime := 0, finishTime := 8,
         totalCpuTime := 5, lastReadyTime := 7 },
       { pid := "B", arrivalTime := 1, priority := 0,
         instructions := [⟨InstructionType.REQ, 1, 1⟩, ⟨InstructionType.CPU, 2, 0⟩,
                          ⟨InstructionType.REL, 1, 1⟩],
         pc := 1, state := ProcessState.READY, startTime := 6 }],
    rm := { resources := [⟨1, 1, 0, [("B", 1)]⟩], waitingQueues := [(1, [])] },
    sched := { algorithm := Algorithm.mlfq, quantum := 10, currentTime := ct,
               readyQueue := [1] },
    time := t, completedCount := 1, trace := tr }

/-! # Proofs -/

/-! ## Process table and allocation maps -/

theorem getElem?_updateAt_self {α : Type} (l : List α) (i : Nat) (f : α → α) :
    (updateAt l i f)[i]? = l[i]?.map f := by
  induction l generalizing i with
  | nil => simp [updateAt]
  | cons x xs ih =>
    cases i with
    | zero => simp [updateAt]
    | succ i => simpa [updateAt] using ih i

theorem getElem?_updateAt_ne {α : Type} (l : List α) (i j : Nat) (f : α → α) (h : i ≠ j) :
    (updateAt l i f)[j]? = l[j]? := by
  induction l generalizing i j with
  | nil => simp [updateAt]
  | cons x xs ih =>
    cases i with
    | zero =>
      cases j with
      | zero => exact absurd rfl h
      | succ j => simp [updateAt]
    | succ i =>
      cases j with
      | zero => simp [updateAt]
      | succ j =>
        have : i ≠ j := fun e => h (by rw [e])
        simpa [updateAt] using ih i j this

theorem length_updateAt {α : Type} (l : List α) (i : Nat) (f : α → α) :
    (updateAt l i f).length = l.length := by
  induction l generalizing i with
  | nil => simp [updateAt]
  | cons x xs ih =>
    cases i with
    | zero => simp [updateAt]
    | succ i => simpa [updateAt] using ih i

theorem allocSum_allocSet (a : List (String × Int)) (k : String) (v : Int) :
    allocSum (allocSet a k v) = allocSum a - allocGet a k + v := by
  induction a with
  | nil => simp [allocSet, allocSum, allocGet]
  | cons e rest ih =>
    obtain ⟨k', w⟩ := e
    by_cases h : k' = k
    · simp only [allocSet, allocSum, allocGet, h, if_true, List.map_cons, List.sum_cons]
      ring
    · simp only [allocSet, allocGet, h, if_false]
      simp only [allocSum, List.map_cons, List.sum_cons] at ih ⊢
      rw [ih]; ring

theorem allocSum_allocErase (a : List (String × Int)) (k : String) :
    allocSum (allocErase a k) = allocSum a - allocGet a k := by
  induction a with
  | nil => simp [allocErase, allocSum, allocGet]
  | cons e rest ih =>
    obtain ⟨k', w⟩ := e
    by_cases h : k' = k
    · simp [allocErase, allocSum, allocGet, h]
    · simp only [allocErase, allocGet, h, if_false]
      simp only [allocSum, List.map_cons, List.sum_cons] at ih ⊢
      rw [ih]; ring

theorem allocGet_allocSet_self (a : List (String × Int)) (k : String) (v : Int) :
    allocGet (allocSet a k v) k = v := by
  induction a with
  | nil => simp [allocSet, allocGet]
  | cons e rest ih =>
    obtain ⟨k', w⟩ := e
    by_cases h : k' = k
    · simp [allocSet, allocGet, h]
    · simp [allocSet, allocGet, h, ih]

theorem allocGet_allocSet_ne (a : List (String × Int)) (k k2 : String) (v : Int) (hne : k2 ≠ k) :
    allocGet (allocSet a k v) k2 = allocGet a k2 := by
  induction a with
  | nil => simp [allocSet, allocGet, Ne.symm hne]
  | cons e rest ih =>
    obtain ⟨k', w⟩ := e
    by_cases h : k' = k
    · subst h
      simp [allocSet, allocGet, Ne.symm hne]
    · by_cases h2 : k' = k2
      · subst h2
        simp only [allocSet, h, if_false, allocGet, if_true]
      · simp only [allocSet, h, if_false, allocGet, h2, ih]

theorem mem_allocSet (a : List (String × Int)) (k : String) (v : Int) (e : String × Int)
    (he : e ∈ allocSet a k v) : e ∈ a ∨ e = (k, v) := by
  induction a with
  | nil => simpa [allocSet] using he
  | cons e' rest ih =>
    obtain ⟨k', w⟩ := e'
    by_cases h : k' = k
    · simp only [allocSet, h, if_true, List.mem_cons] at he
      rcases he with he | he
      · exact Or.inr he
      · exact Or.inl (List.mem_cons_of_mem _ he)
    · simp only [allocSet, h, if_false, List.mem_cons] at he
      rcases he with he | he
      · exact Or.inl (by rw [he]; exact List.mem_cons_self _ _)
      · rcases ih he with h1 | h1
        · exact Or.inl (List.mem_cons_of_mem _ h1)
        · exact Or.inr h1

theorem mem_allocErase_allocSet (a : List (String × Int)) (k : String) (v : Int)
    (e : String × Int) (he : e ∈ allocErase (allocSet a k v) k) : e ∈ a := by
  induction a with
  | nil => simp [allocSet, allocErase] at he
  | cons e' rest ih =>
    obtain ⟨k', w⟩ := e'
    by_cases h : k' = k
    · simp only [allocSet, h, if_true, allocErase] at he
      exact List.mem_cons_of_mem _ he
    · simp only [allocSet, h, if_false, allocErase, List.mem_cons] at he
      rcases he with he | he
      · rw [he]; exact List.mem_cons_self _ _
      · exact List.mem_cons_of_mem _ (ih he)

theorem allocGet_nonneg (a : List (String × Int)) (k : String) (h : ∀ e ∈ a, 0 < e.2) :
    0 ≤ allocGet a k := by
  induction a with
  | nil => simp [allocGet]
  | cons e rest ih =>
    obtain ⟨k', w⟩ := e
    by_cases hk : k' = k
    · simp only [allocGet, hk, if_true]
      exact le_of_lt (h (k', w) (List.mem_cons_self _ _))
    · simp only [allocGet, hk, if_false]
      exact ih (fun e he => h e (List.mem_cons_of_mem _ he))

theorem allocSum_nonneg (a : List (String × Int)) (h : ∀ e ∈ a, 0 < e.2) :
    0 ≤ allocSum a := by
  induction a with
  | nil => simp [allocSum]
  | cons e rest ih =>
    have h1 := h e (List.mem_cons_self _ _)
    have h2 := ih (fun e he => h e (List.mem_cons_of_mem _ he))
    simp only [allocSum, List.map_cons, List.sum_cons] at h2 ⊢
    omega

theorem grant_ok (r : Resource) (pid : String) (c : Int) (h : ResourceOk r) (hc : 0 < c)
    (hle : c ≤ r.available) :
    ResourceOk { r with available := r.available - c,
                        allocation := allocSet r.allocation pid (allocGet r.allocation pid + c) } := by
  obtain ⟨h0, h1, h2, h3⟩ := h
  have hg := allocGet_nonneg r.allocation pid h2
  refine ⟨?_, ?_, ?_, ?_⟩
  · show 0 ≤ r.available - c
    omega
  · show r.available - c ≤ r.capacity
    omega
  · intro e he
    rcases mem_allocSet _ _ _ _ he with h4 | h4
    · exact h2 e h4
    · rw [h4]; show 0 < allocGet r.allocation pid + c; omega
  · show r.available - c + allocSum (allocSet r.allocation pid (allocGet r.allocation pid + c)) = r.capacity
    rw [allocSum_allocSet]; omega

theorem giveBack_ok (r : Resource) (pid : String) (n : Int) (h : ResourceOk r) (hn : 0 < n)
    (hle : n ≤ allocGet r.allocation pid) : ResourceOk (giveBack r pid n) := by
  obtain ⟨h0, h1, h2, h3⟩ := h
  unfold giveBack
  simp only [allocGet_allocSet_self]
  split
  · rename_i hz
    have hs := allocSum_nonneg (allocErase (allocSet r.allocation pid (allocGet r.allocation pid - n)) pid)
      (fun e he => h2 e (mem_allocErase_allocSet r.allocation pid _ e he))
    have he : allocSum (allocErase (allocSet r.allocation pid (allocGet r.allocation pid - n)) pid)
        = allocSum r.allocation - n := by
      rw [allocSum_allocErase, allocSum_allocSet, allocGet_allocSet_self]; omega
    refine ⟨?_, ?_, ?_, ?_⟩
    · show 0 ≤ r.available + n
      omega
    · show r.available + n ≤ r.capacity
      rw [he] at hs; omega
    · intro e he'
      exact h2 e (mem_allocErase_allocSet r.allocation pid _ e he')
    · show r.available + n + allocSum (allocErase (allocSet r.allocation pid (allocGet r.allocation pid - n)) pid) = r.capacity
      rw [he]; omega
  · rename_i hz
    have hpos : ∀ e ∈ allocSet r.allocation pid (allocGet r.allocation pid - n), 0 < e.2 := by
      intro e he
      rcases mem_allocSet _ _ _ _ he with h4 | h4
      · exact h2 e h4
      · rw [h4]; show 0 < allocGet r.allocation pid - n; omega
    have hs := allocSum_nonneg _ hpos
    have he : allocSum (allocSet r.allocation pid (allocGet r.allocation pid - n))
        = allocSum r.allocation - n := by
      rw [allocSum_allocSet]; omega
    refine ⟨?_, ?_, hpos, ?_⟩
    · show 0 ≤ r.available + n
      omega
    · show r.available + n ≤ r.capacity
      rw [he] at hs; omega
    · show r.available + n + allocSum (allocSet r.allocation pid (allocGet r.allocation pid - n)) = r.capacity
      rw [he]; omega

/-! ## The drain loop of `release` -/

theorem pendingCount_updateAt_ne (procs : List Process) (w w' : Nat) (f : Process → Process)
    (h : w ≠ w') : pendingCount (updateAt procs w f) w' = pendingCount procs w' := by
  unfold pendingCount
  rw [getElem?_updateAt_ne _ _ _ _ h]

theorem map_pendingCount_updateAt (procs : List Process) (w : Nat) (f : Process → Process)
    (q : List Nat) (h : w ∉ q) :
    q.map (pendingCount (updateAt procs w f)) = q.map (pendingCount procs) := by
  apply List.map_congr_left
  intro w' hw'
  exact pendingCount_updateAt_ne procs w w' f (fun e => h (by rw [e]; exact hw'))

theorem getElem?_wakeAll_of_not_mem (ws : List Nat) (procs : List Process) (w : Nat)
    (h : w ∉ ws) : (wakeAll procs ws)[w]? = procs[w]? := by
  induction ws generalizing procs with
  | nil => rfl
  | cons v vs ih =>
    have h1 : v ≠ w := fun e => h (by rw [e]; exact List.mem_cons_self _ _)
    have h2 : w ∉ vs := fun e => h (List.mem_cons_of_mem _ e)
    show (wakeAll (updateAt procs v wake) vs)[w]? = procs[w]?
    rw [ih _ h2, getElem?_updateAt_ne _ _ _ _ h1]

theorem getElem?_wakeAll_of_mem (ws : List Nat) (procs : List Process) (w : Nat)
    (hn : ws.Nodup) (h : w ∈ ws) : (wakeAll procs ws)[w]? = procs[w]?.map wake := by
  induction ws generalizing procs with
  | nil => cases h
  | cons v vs ih =>
    have hv : v ∉ vs := (List.nodup_cons.mp hn).1
    have hvs : vs.Nodup := (List.nodup_cons.mp hn).2
    show (wakeAll (updateAt procs v wake) vs)[w]? = procs[w]?.map wake
    rcases List.mem_cons.mp h with h1 | h1
    · rw [h1, getElem?_wakeAll_of_not_mem vs _ v hv, getElem?_updateAt_self]
    · have hne : v ≠ w := fun e => hv (by rw [e]; exact h1)
      rw [ih _ hvs h1, getElem?_updateAt_ne _ _ _ _ hne]

theorem pendingCount_wakeAll_of_not_mem (ws : List Nat) (procs : List Process) (w : Nat)
    (h : w ∉ ws) : pendingCount (wakeAll procs ws) w = pendingCount procs w := by
  unfold pendingCount
  rw [getElem?_wakeAll_of_not_mem ws procs w h]

theorem drain_spec (rId : Int) (q : List Nat) :
    ∀ (res : Resource) (procs : List Process) (ready : List Nat) (out : List Event), q.Nodup →
      (drainWaiters rId res procs ready out q).queue
          = q.drop (fitCount res.available (q.map (pendingCount procs))) ∧
      (drainWaiters rId res procs ready out q).ready
          = ready ++ q.take (fitCount res.available (q.map (pendingCount procs))) ∧
      (drainWaiters rId res procs ready out q).procs
          = wakeAll procs (q.take (fitCount res.available (q.map (pendingCount procs)))) := by
  induction q with
  | nil => intro res procs ready out _; simp [drainWaiters, fitCount, wakeAll]
  | cons w q ih =>
    intro res procs ready out hn
    have hw : w ∉ q := (List.nodup_cons.mp hn).1
    have hq : q.Nodup := (List.nodup_cons.mp hn).2
    cases hp : pendingCount procs w with
    | none => simp [drainWaiters, fitCount, wakeAll, hp]
    | some c =>
      by_cases hc : res.available ≥ c
      · simp only [drainWaiters, hp, hc, if_true, List.map_cons, fitCount, List.drop_succ_cons,
          List.take_succ_cons]
        rw [← map_pendingCount_updateAt procs w wake q hw]
        have ih' := ih ⟨res.id, res.capacity, res.available - c,
            allocSet res.allocation (pidOf procs w) (allocGet res.allocation (pidOf procs w) + c)⟩
          (updateAt procs w wake) (ready ++ [w]) (out ++ [Event.unblock (pidOf procs w) rId]) hq
        refine ⟨ih'.1, ?_, ?_⟩
        · rw [ih'.2.1]; simp
        · rw [ih'.2.2]; rfl
      · simp [drainWaiters, fitCount, wakeAll, hp, hc]

theorem drain_ok (rId : Int) (q : List Nat) :
    ∀ (res : Resource) (procs : List Process) (ready : List Nat) (out : List Event),
      ResourceOk res → q.Nodup → (∀ w ∈ q, PendingPositive procs w) →
      ResourceOk (drainWaiters rId res procs ready out q).res := by
  induction q with
  | nil => intro res procs ready out h _ _; simpa [drainWaiters] using h
  | cons w q ih =>
    intro res procs ready out h hn hpos
    have hw : w ∉ q := (List.nodup_cons.mp hn).1
    have hq : q.Nodup := (List.nodup_cons.mp hn).2
    obtain ⟨c, hp, hc0⟩ := hpos w (List.mem_cons_self _ _)
    by_cases hc : res.available ≥ c
    · simp only [drainWaiters, hp, hc, if_true]
      apply ih _ _ _ _ (grant_ok res (pidOf procs w) c h hc0 hc) hq
      intro w' hw'
      obtain ⟨c', hp', hc'⟩ := hpos w' (List.mem_cons_of_mem _ hw')
      refine ⟨c', ?_, hc'⟩
      rw [pendingCount_updateAt_ne procs w w' wake (fun e => hw (by rw [e]; exact hw'))]
      exact hp'
    · simpa [drainWaiters, hp, hc] using h

theorem findRes_some (rs : List Resource) (rId : Int) (r : Resource)
    (h : findRes rs rId = some r) : r ∈ rs ∧ r.id = rId := by
  induction rs with
  | nil => simp [findRes] at h
  | cons x xs ih =>
    by_cases hx : x.id = rId
    · simp only [findRes, hx, if_true, Option.some.injEq] at h
      subst h
      exact ⟨List.mem_cons_self _ _, hx⟩
    · simp only [findRes, hx, if_false] at h
      exact ⟨List.mem_cons_of_mem _ (ih h).1, (ih h).2⟩

theorem mem_setRes (rs : List Resource) (rId : Int) (r' x : Resource)
    (h : x ∈ setRes rs rId r') : x ∈ rs ∨ x = r' := by
  induction rs with
  | nil => simp [setRes] at h
  | cons y ys ih =>
    by_cases hy : y.id = rId
    · simp only [setRes, hy, if_true, List.mem_cons] at h
      rcases h with h | h
      · exact Or.inr h
      · exact Or.inl (List.mem_cons_of_mem _ h)
    · simp only [setRes, hy, if_false, List.mem_cons] at h
      rcases h with h | h
      · exact Or.inl (by rw [h]; exact List.mem_cons_self _ _)
      · rcases ih h with h1 | h1
        · exact Or.inl (List.mem_cons_of_mem _ h1)
        · exact Or.inr h1

theorem setRes_ok (rs : List Resource) (rId : Int) (r' : Resource)
    (h : ∀ r ∈ rs, ResourceOk r) (h' : ResourceOk r') : ∀ r ∈ setRes rs rId r', ResourceOk r := by
  intro r hr
  rcases mem_setRes rs rId r' r hr with h1 | h1
  · exact h r h1
  · rw [h1]; exact h'

theorem getQ_sublist (wq : List (Int × List Nat)) (rId : Int) :
    (getQ wq rId).Sublist (allWaiters wq) := by
  induction wq with
  | nil => simp [getQ, allWaiters]
  | cons e rest ih =>
    obtain ⟨k, q⟩ := e
    by_cases hk : k = rId
    · simp only [getQ, hk, if_true, allWaiters]
      exact List.sublist_append_left _ _
    · simp only [getQ, hk, if_false, allWaiters]
      exact ih.trans (List.sublist_append_right _ _)

theorem allWaiters_setQ_perm (wq : List (Int × List Nat)) (rId : Int) (a b : List Nat)
    (h : getQ wq rId = a ++ b) :
    List.Perm (a ++ allWaiters (setQ wq rId b)) (allWaiters wq) := by
  induction wq with
  | nil =>
    simp only [getQ] at h
    have ha : a = [] := (List.append_eq_nil.mp h.symm).1
    have hb : b = [] := (List.append_eq_nil.mp h.symm).2
    subst ha; subst hb
    simp [setQ, allWaiters]
  | cons e rest ih =>
    obtain ⟨k, q⟩ := e
    by_cases hk : k = rId
    · simp only [getQ, hk, if_true] at h
      simp only [setQ, hk, if_true, allWaiters, h]
      rw [List.append_assoc]
    · simp only [getQ, hk, if_false] at h
      simp only [setQ, hk, if_false, allWaiters]
      have h1 : List.Perm (a ++ (q ++ allWaiters (setQ rest rId b)))
          (q ++ (a ++ allWaiters (setQ rest rId b))) := by
        rw [← List.append_assoc, ← List.append_assoc]
        exact List.Perm.append_right _ List.perm_append_comm
      exact h1.trans (List.Perm.append_left q (ih h))

theorem getQ_setQ_self (wq : List (Int × List Nat)) (rId : Int) (q : List Nat) :
    getQ (setQ wq rId q) rId = q := by
  induction wq with
  | nil => simp [setQ, getQ]
  | cons e rest ih =>
    obtain ⟨k, old⟩ := e
    by_cases hk : k = rId
    · simp [setQ, getQ, hk]
    · simp [setQ, getQ, hk, ih]

theorem getQ_setQ_ne (wq : List (Int × List Nat)) (rId r2 : Int) (q : List Nat) (h : r2 ≠ rId) :
    getQ (setQ wq rId q) r2 = getQ wq r2 := by
  induction wq with
  | nil => simp [setQ, getQ, Ne.symm h]
  | cons e rest ih =>
    obtain ⟨k, old⟩ := e
    by_cases hk : k = rId
    · subst hk
      simp [setQ, getQ, Ne.symm h]
    · by_cases hk2 : k = r2
      · subst hk2
        simp [setQ, getQ, hk]
      · simp [setQ, getQ, hk, hk2, ih]

theorem findRes_setRes_self (rs : List Resource) (rId : Int) (r r' : Resource)
    (h : findRes rs rId = some r) (hid : r'.id = rId) :
    findRes (setRes rs rId r') rId = some r' := by
  induction rs with
  | nil => simp [findRes] at h
  | cons x xs ih =>
    by_cases hx : x.id = rId
    · simp [setRes, findRes, hx, hid]
    · simp only [findRes, hx, if_false] at h
      simp [setRes, findRes, hx, ih h]

theorem findRes_setRes_ne (rs : List Resource) (rId r2 : Int) (r' : Resource)
    (hid : r'.id = rId) (h : r2 ≠ rId) :
    findRes (setRes rs rId r') r2 = findRes rs r2 := by
  induction rs with
  | nil => simp [setRes, findRes]
  | cons x xs ih =>
    by_cases hx : x.id = rId
    · have hx2 : ¬ x.id = r2 := fun e => h (by rw [← e, hx])
      have hr2 : ¬ r'.id = r2 := fun e => h (by rw [← e, hid])
      simp only [setRes, findRes, if_pos hx, if_neg hx2, if_neg hr2]
    · by_cases hx2 : x.id = r2
      · simp only [setRes, findRes, if_neg hx, if_pos hx2]
      · simp only [setRes, findRes, if_neg hx, if_neg hx2, ih]

/-! ## Conservation through `init`, `request`, `release` and `releaseAllResourcesOfProcess` -/

theorem initResources_ok (caps : List Int) (h : ∀ c ∈ caps, 0 ≤ c) :
    ∀ i : Nat, ∀ r ∈ initResources i caps, ResourceOk r := by
  induction caps with
  | nil => intro i r hr; simp [initResources] at hr
  | cons c cs ih =>
    intro i r hr
    simp only [initResources, List.mem_cons] at hr
    rcases hr with hr | hr
    · subst hr
      have hc := h c (List.mem_cons_self _ _)
      refine ⟨hc, le_refl _, ?_, ?_⟩
      · intro e he; cases he
      · simp [allocSum]
    · exact ih (fun c hc => h c (List.mem_cons_of_mem _ hc)) (i + 1) r hr

theorem request_conserved (s : Sim) (p : Nat) (rId n : Int) (h : Conserved s.rm) (hn : 0 < n) :
    Conserved (request s p rId n).1.rm := by
  unfold request
  cases hf : findRes s.rm.resources rId with
  | none => exact h
  | some r =>
    by_cases hc : r.available ≥ n
    · simp only [hc, if_true]
      exact setRes_ok _ _ _ h (grant_ok r _ n (h r (findRes_some _ _ _ hf).1) hn hc)
    · simp only [hc, if_false]
      exact h

theorem release_conserved (s : Sim) (p : Nat) (rId n : Int) (h : Conserved s.rm) (hn : 0 < n)
    (hle : ∀ r, findRes s.rm.resources rId = some r → n ≤ allocGet r.allocation (pidOf s.processes p))
    (hq : (getQ s.rm.waitingQueues rId).Nodup)
    (hpos : ∀ w ∈ getQ s.rm.waitingQueues rId, PendingPositive s.processes w) :
    Conserved (release s p rId n).rm := by
  unfold release
  cases hf : findRes s.rm.resources rId with
  | none => exact h
  | some r =>
    exact setRes_ok _ _ _ h (drain_ok rId _ _ _ _ _
      (giveBack_ok r _ n (h r (findRes_some _ _ _ hf).1) hn (hle r hf)) hq hpos)

theorem release_waitersOk (s : Sim) (p : Nat) (rId n : Int)
    (h : WaitersOk s.processes s.rm.waitingQueues) :
    WaitersOk (release s p rId n).processes (release s p rId n).rm.waitingQueues := by
  unfold release
  cases hf : findRes s.rm.resources rId with
  | none => exact h
  | some r =>
    have hq : (getQ s.rm.waitingQueues rId).Nodup := h.1.sublist (getQ_sublist _ _)
    obtain ⟨h1, -, h3⟩ := drain_spec rId (getQ s.rm.waitingQueues rId)
      (giveBack r (pidOf s.processes p) n) s.processes s.sched.readyQueue s.trace hq
    show WaitersOk (drainWaiters rId _ _ _ _ _).procs
      (setQ s.rm.waitingQueues rId (drainWaiters rId _ _ _ _ _).queue)
    rw [h1, h3]
    have hperm := allWaiters_setQ_perm s.rm.waitingQueues rId _ _
      (List.take_append_drop (fitCount (giveBack r (pidOf s.processes p) n).available
        ((getQ s.rm.waitingQueues rId).map (pendingCount s.processes)))
        (getQ s.rm.waitingQueues rId)).symm
    have hnd := (hperm.nodup_iff).mpr h.1
    rw [List.nodup_append] at hnd
    refine ⟨hnd.2.1, ?_⟩
    intro w hw
    have hmem : w ∈ allWaiters s.rm.waitingQueues :=
      hperm.subset (List.mem_append_right _ hw)
    obtain ⟨c, hc, hc0⟩ := h.2 w hmem
    refine ⟨c, ?_, hc0⟩
    rw [pendingCount_wakeAll_of_not_mem _ _ _ (fun hin => hnd.2.2 hin hw)]
    exact hc

theorem releaseAllStep_inv (p : Nat) (s : Sim) (rId : Int)
    (h : Conserved s.rm ∧ WaitersOk s.processes s.rm.waitingQueues) :
    Conserved (releaseAllStep p s rId).rm ∧
      WaitersOk (releaseAllStep p s rId).processes (releaseAllStep p s rId).rm.waitingQueues := by
  unfold releaseAllStep
  cases hf : findRes s.rm.resources rId with
  | none => exact h
  | some r =>
    simp only
    split
    · split
      · rename_i hcount
        refine ⟨?_, ?_⟩
        · apply release_conserved
          · exact h.1
          · exact hcount
          · intro r' hr'
            have : r' = r := by
              have h2 : findRes s.rm.resources rId = some r' := hr'
              rw [hf] at h2
              exact (Option.some.inj h2).symm
            rw [this]
          · exact h.2.1.sublist (getQ_sublist _ _)
          · intro w hw
            exact h.2.2 w ((getQ_sublist _ _).subset hw)
        · exact release_waitersOk _ _ _ _ h.2
      · exact h
    · exact h

theorem releaseAll_inv (p : Nat) (ids : List Int) :
    ∀ s : Sim, Conserved s.rm ∧ WaitersOk s.processes s.rm.waitingQueues →
      Conserved (ids.foldl (releaseAllStep p) s).rm ∧
        WaitersOk (ids.foldl (releaseAllStep p) s).processes
          (ids.foldl (releaseAllStep p) s).rm.waitingQueues := by
  induction ids with
  | nil => intro s h; exact h
  | cons i is ih => intro s h; exact ih _ (releaseAllStep_inv p s i h)

/-! ## The longest fitting prefix of a wait queue -/

theorem fitCount_le (cs : List (Option Int)) : ∀ a : Int, fitCount a cs ≤ cs.length := by
  induction cs with
  | nil => intro a; simp [fitCount]
  | cons c cs ih =>
    intro a
    cases c with
    | none => simp [fitCount]
    | some c =>
      by_cases h : a ≥ c
      · simp only [fitCount, h, if_true, List.length_cons]
        exact Nat.succ_le_succ (ih _)
      · simp [fitCount, h]

theorem fitCount_fits (cs : List (Option Int)) :
    ∀ (a : Int) (i : Nat), i < fitCount a cs →
      ∃ c, cs[i]? = some (some c) ∧ c ≤ a - needSum cs i := by
  induction cs with
  | nil => intro a i h; simp [fitCount] at h
  | cons c cs ih =>
    intro a i h
    cases c with
    | none => simp [fitCount] at h
    | some c =>
      by_cases hc : a ≥ c
      · simp only [fitCount, hc, if_true] at h
        cases i with
        | zero => exact ⟨c, by simp, by simp [needSum]; exact hc⟩
        | succ i =>
          obtain ⟨c', h1, h2⟩ := ih (a - c) i (by omega)
          refine ⟨c', by simpa using h1, ?_⟩
          simp only [needSum, List.take_succ_cons, List.map_cons, List.sum_cons, Option.getD_some]
          simp only [needSum] at h2
          omega
      · simp [fitCount, hc] at h

theorem fitCount_stop (cs : List (Option Int)) :
    ∀ (a c : Int), cs[fitCount a cs]? = some (some c) → a - needSum cs (fitCount a cs) < c := by
  induction cs with
  | nil => intro a c h; simp at h
  | cons c' cs ih =>
    intro a c h
    cases c' with
    | none => simp [fitCount] at h
    | some c' =>
      by_cases hc : a ≥ c'
      · simp only [fitCount, hc, if_true, List.getElem?_cons_succ] at h
        have := ih (a - c') c h
        simp only [fitCount, hc, if_true, needSum, List.take_succ_cons, List.map_cons,
          List.sum_cons, Option.getD_some]
        simp only [needSum] at this
        omega
      · simp only [fitCount, hc, if_false, List.getElem?_cons_zero, Option.some.injEq] at h
        simp only [fitCount, hc, if_false, needSum, List.take_zero, List.map_nil, List.sum_nil]
        omega

theorem giveBack_available (r : Resource) (pid : String) (n : Int) :
    (giveBack r pid n).available = r.available + n := by
  unfold giveBack
  simp only
  split <;> rfl

/-! ## Claims C1 to C3: the resource manager -/

/-- C1, counterexample: `init` with the capacity list `[-1]` produces a resource with
`available = -1`, so `0 ≤ available` fails and the conservation invariant does not hold. -/
theorem init_negative_capacity : ¬ Conserved (ResourceManager.init [-1]) := by
  intro h
  have h1 := (h ⟨1, -1, -1, []⟩ (by simp [ResourceManager.init, initResources])).1
  exact absurd h1 (by decide)

/-- C1, as amended: `init` applied to non-negative capacities establishes, and
`request(p, r, n)` with `n > 0`, `release(p, r, n)` with `0 < n ≤ allocation[r][p]` and
`release_all(p)` each preserve, for every resource: `0 ≤ available ≤ capacity`, every held
count is positive, and `available + Σ allocation = capacity`. For `release` the wait queue of
`r` holds no process twice and every waiter in it has a positive pending `REQ` count; for
`release_all` the same holds of all wait queues together. -/
theorem resource_conservation :
    (∀ caps : List Int, (∀ c ∈ caps, 0 ≤ c) → Conserved (ResourceManager.init caps)) ∧
    (∀ (s : Sim) (p : Nat) (rId n : Int), Conserved s.rm → 0 < n →
      Conserved (request s p rId n).1.rm) ∧
    (∀ (s : Sim) (p : Nat) (rId n : Int), Conserved s.rm → 0 < n →
      (∀ r, findRes s.rm.resources rId = some r →
        n ≤ allocGet r.allocation (pidOf s.processes p)) →
      (getQ s.rm.waitingQueues rId).Nodup →
      (∀ w ∈ getQ s.rm.waitingQueues rId, PendingPositive s.processes w) →
      Conserved (release s p rId n).rm) ∧
    (∀ (s : Sim) (p : Nat), Conserved s.rm → WaitersOk s.processes s.rm.waitingQueues →
      Conserved (releaseAllResourcesOfProcess s p).rm) :=
  ⟨fun caps h => initResources_ok caps h 0,
   request_conserved,
   release_conserved,
   fun s p h hw => (releaseAll_inv p _ s ⟨h, hw⟩).1⟩

theorem heldState_conserved : Conserved heldState.rm := by
  intro r hr
  simp only [heldState, List.mem_singleton] at hr
  subst hr
  refine ⟨by decide, by decide, ?_, by decide⟩
  intro e he
  simp only [List.mem_singleton] at he
  subst he
  decide

theorem heldState_waiters : ∀ w ∈ allWaiters heldState.rm.waitingQueues,
    PendingPositive heldState.processes w := by
  intro w hw
  simp only [heldState, allWaiters, List.append_nil, List.mem_singleton] at hw
  subst hw
  exact ⟨1, rfl, by decide⟩

/-- C1, witness: the four parts at `init [2, 1]` and at a state in which `A` holds the only
unit of resource 1 and `B` waits for it. -/
theorem resource_conservation_witness :
    Conserved (ResourceManager.init [2, 1]) ∧
    Conserved (request heldState 0 1 1).1.rm ∧
    Conserved (release heldState 0 1 1).rm ∧
    Conserved (releaseAllResourcesOfProcess heldState 0).rm :=
  ⟨resource_conservation.1 [2, 1] (by decide),
   resource_conservation.2.1 heldState 0 1 1 heldState_conserved (by decide),
   resource_conservation.2.2.1 heldState 0 1 1 heldState_conserved (by decide)
     (by intro r hr
         simp only [heldState, findRes, if_true, Option.some.injEq] at hr
         subst hr
         decide)
     (by decide) heldState_waiters,
   resource_conservation.2.2.2 heldState 0 heldState_conserved ⟨by decide, heldState_waiters⟩⟩

/-- C2: `request(p, r, n)` returns granted iff `r` exists and `available(r) ≥ n`. On grant,
`available(r)` drops by `n`, `allocation(r)[p]` grows by `n`, the other holders and the other
resources are untouched and the wait queues are unchanged. On refusal with `r` existing, `p`
is appended to the tail of `r`'s wait queue, the other queues and all resources are unchanged.
With an unknown `r` the call returns not-granted and the state is unchanged. -/
theorem request_contract (s : Sim) (p : Nat) (rId n : Int) :
    ((request s p rId n).2 = true ↔
      ∃ r, findRes s.rm.resources rId = some r ∧ n ≤ r.available) ∧
    (∀ r, findRes s.rm.resources rId = some r → n ≤ r.available →
      (∃ r', findRes (request s p rId n).1.rm.resources rId = some r' ∧
        r'.available = r.available - n ∧ r'.capacity = r.capacity ∧
        allocGet r'.allocation (pidOf s.processes p)
          = allocGet r.allocation (pidOf s.processes p) + n ∧
        ∀ pid, pid ≠ pidOf s.processes p →
          allocGet r'.allocation pid = allocGet r.allocation pid) ∧
      (∀ r2, r2 ≠ rId →
        findRes (request s p rId n).1.rm.resources r2 = findRes s.rm.resources r2) ∧
      (request s p rId n).1.rm.waitingQueues = s.rm.waitingQueues ∧
      (request s p rId n).1.processes = s.processes ∧
      (request s p rId n).1.sched = s.sched) ∧
    (∀ r, findRes s.rm.resources rId = some r → r.available < n →
      getQ (request s p rId n).1.rm.waitingQueues rId = getQ s.rm.waitingQueues rId ++ [p] ∧
      (∀ r2, r2 ≠ rId →
        getQ (request s p rId n).1.rm.waitingQueues r2 = getQ s.rm.waitingQueues r2) ∧
      (request s p rId n).1.rm.resources = s.rm.resources ∧
      (request s p rId n).1.processes = s.processes ∧
      (request s p rId n).1.sched = s.sched) ∧
    (findRes s.rm.resources rId = none → request s p rId n = (s, false)) := by
  refine ⟨?_, ?_, ?_, ?_⟩
  · unfold request
    cases hf : findRes s.rm.resources rId with
    | none => simp
    | some r =>
      by_cases hc : r.available ≥ n
      · simp only [hc, if_true, true_iff]
        exact ⟨r, rfl, hc⟩
      · simp only [hc, if_false, Bool.false_eq_true, false_iff]
        rintro ⟨r', hr', hle⟩
        rw [Option.some.inj hr'] at hc
        exact hc hle
  · intro r hf hle
    have hid := (findRes_some _ _ _ hf).2
    have hc : r.available ≥ n := hle
    unfold request
    simp only [hf, hc, if_true]
    refine ⟨⟨_, findRes_setRes_self _ _ r _ hf hid, rfl, rfl, ?_, ?_⟩, ?_, by trivial, by trivial, by trivial⟩
    · exact allocGet_allocSet_self _ _ _
    · intro pid hpid
      exact allocGet_allocSet_ne _ _ _ _ hpid
    · intro r2 hr2
      exact findRes_setRes_ne _ _ _ _ hid hr2
  · intro r hf hlt
    have hc : ¬ r.available ≥ n := not_le.mpr hlt
    unfold request
    simp only [hf, hc, if_false]
    refine ⟨getQ_setQ_self _ _ _, ?_, by trivial, by trivial, by trivial⟩
    intro r2 hr2
    exact getQ_setQ_ne _ _ _ _ hr2
  · intro hf
    unfold request
    simp only [hf]

/-- C2, witness: in a state where resource 1 has no unit left, a request for it is refused and
queued, and a request for the unknown resource 7 changes nothing. -/
theorem request_contract_witness :
    (request heldState 1 1 1).2 = false ∧
    getQ (request heldState 1 1 1).1.rm.waitingQueues 1 = [1, 1] ∧
    request heldState 1 7 1 = (heldState, false) :=
  ⟨by
      have h := (request_contract heldState 1 1 1).1
      cases hb : (request heldState 1 1 1).2 with
      | false => rfl
      | true =>
        obtain ⟨r, hr, hle⟩ := h.mp hb
        simp only [heldState, findRes, if_true, Option.some.injEq] at hr
        subst hr
        exact absurd hle (by decide),
   ((request_contract heldState 1 1 1).2.2.1 ⟨1, 1, 0, [("A", 1)]⟩ rfl (by decide)).1,
   (request_contract heldState 1 7 1).2.2.2 rfl⟩

/-- C3: `release(p, r, n)` on an existing `r` whose wait queue holds no process twice. With
`k` the number of waiters at the head of the queue whose pending `REQ` counts fit one after
another into `available(r) + n`: each of the first `k` waiters fits in what remains after the
ones before it, the waiter at position `k` (if any) does not fit, the queue afterwards is the
old queue without its first `k` entries, the ready sequence is the old one followed by those
`k` waiters in queue order, each of them has `pc` advanced by one, state `READY` and block
reason `NONE`, and no other process record changes. -/
theorem release_fifo_drain (s : Sim) (p : Nat) (rId n : Int) (r : Resource)
    (hr : findRes s.rm.resources rId = some r)
    (hq : (getQ s.rm.waitingQueues rId).Nodup) :
    fitCount (r.available + n) ((getQ s.rm.waitingQueues rId).map (pendingCount s.processes))
      ≤ (getQ s.rm.waitingQueues rId).length ∧
    (∀ i w, i < fitCount (r.available + n)
          ((getQ s.rm.waitingQueues rId).map (pendingCount s.processes)) →
        (getQ s.rm.waitingQueues rId)[i]? = some w →
        ∃ c, pendingCount s.processes w = some c ∧
          c ≤ r.available + n
            - needSum ((getQ s.rm.waitingQueues rId).map (pendingCount s.processes)) i) ∧
    (∀ w c, (getQ s.rm.waitingQueues rId)[fitCount (r.available + n)
          ((getQ s.rm.waitingQueues rId).map (pendingCount s.processes))]? = some w →
        pendingCount s.processes w = some c →
        r.available + n
          - needSum ((getQ s.rm.waitingQueues rId).map (pendingCount s.processes))
              (fitCount (r.available + n)
                ((getQ s.rm.waitingQueues rId).map (pendingCount s.processes))) < c) ∧
    getQ (release s p rId n).rm.waitingQueues rId
      = (getQ s.rm.waitingQueues rId).drop (fitCount (r.available + n)
          ((getQ s.rm.waitingQueues rId).map (pendingCount s.processes))) ∧
    (release s p rId n).sched.readyQueue
      = s.sched.readyQueue ++ (getQ s.rm.waitingQueues rId).take (fitCount (r.available + n)
          ((getQ s.rm.waitingQueues rId).map (pendingCount s.processes))) ∧
    (∀ w x, w ∈ (getQ s.rm.waitingQueues rId).take (fitCount (r.available + n)
          ((getQ s.rm.waitingQueues rId).map (pendingCount s.processes))) →
        s.processes[w]? = some x →
        (release s p rId n).processes[w]? =
          some { x with pc := x.pc + 1, state := ProcessState.READY,
                        blockReason := BlockReason.NONE, blockedForResourceId := -1 }) ∧
    (∀ w, w ∉ (getQ s.rm.waitingQueues rId).take (fitCount (r.available + n)
          ((getQ s.rm.waitingQueues rId).map (pendingCount s.processes))) →
        (release s p rId n).processes[w]? = s.processes[w]?) ∧
    (∀ i, i < fitCount (r.available + n)
          ((getQ s.rm.waitingQueues rId).map (pendingCount s.processes)) →
        (release s p rId n).sched.readyQueue[s.sched.readyQueue.length + i]?
          = (getQ s.rm.waitingQueues rId)[i]?) := by
  obtain ⟨h1, h2, h3⟩ := drain_spec rId (getQ s.rm.waitingQueues rId)
    (giveBack r (pidOf s.processes p) n) s.processes s.sched.readyQueue s.trace hq
  rw [giveBack_available] at h1 h2 h3
  have e1 : getQ (release s p rId n).rm.waitingQueues rId
      = (drainWaiters rId (giveBack r (pidOf s.processes p) n) s.processes s.sched.readyQueue
          s.trace (getQ s.rm.waitingQueues rId)).queue := by
    unfold release
    simp only [hr]
    exact getQ_setQ_self _ _ _
  have e2 : (release s p rId n).sched.readyQueue
      = (drainWaiters rId (giveBack r (pidOf s.processes p) n) s.processes s.sched.readyQueue
          s.trace (getQ s.rm.waitingQueues rId)).ready := by
    unfold release
    simp only [hr]
  have e3 : (release s p rId n).processes
      = (drainWaiters rId (giveBack r (pidOf s.processes p) n) s.processes s.sched.readyQueue
          s.trace (getQ s.rm.waitingQueues rId)).procs := by
    unfold release
    simp only [hr]
  rw [e1, e2, e3, h1, h2, h3]
  refine ⟨?_, ?_, ?_, rfl, rfl, ?_, ?_, ?_⟩
  · have := fitCount_le ((getQ s.rm.waitingQueues rId).map (pendingCount s.processes))
      (r.available + n)
    simpa using this
  · intro i w hi hw
    obtain ⟨c, hc1, hc2⟩ := fitCount_fits _ _ i hi
    refine ⟨c, ?_, hc2⟩
    rw [List.getElem?_map, hw] at hc1
    exact Option.some.inj hc1
  · intro w c hw hc
    apply fitCount_stop
    rw [List.getElem?_map, hw]
    simp only [Option.map_some', hc]
  · intro w x hw hx
    rw [getElem?_wakeAll_of_mem _ _ _ (hq.sublist (List.take_sublist _ _)) hw, hx]
    rfl
  · intro w hw
    exact getElem?_wakeAll_of_not_mem _ _ _ hw
  · intro i hi
    rw [List.getElem?_append_right (Nat.le_add_right _ _), Nat.add_sub_cancel_left,
      List.getElem?_take_of_lt hi]

/-- C3, witness: two units come back to a queue asking for 1, 1 and 2 units; the first two
waiters are granted in order and the third stays queued. -/
theorem release_fifo_drain_witness :
    getQ (release queueState 0 1 2).rm.waitingQueues 1 = [3] ∧
    (release queueState 0 1 2).sched.readyQueue = [1, 2] :=
  have h := release_fifo_drain queueState 0 1 2 ⟨1, 2, 0, [("A", 2)]⟩ rfl (by decide)
  ⟨h.2.2.2.1, h.2.2.2.2.1⟩

/-! ## Claims C4, C6, C7 and C8: evaluations at failing inputs -/

/-- C4, evaluation at the failing input: in the two-resource cross-request workload, `A` is
aborted by deadlock recovery at tick 4 and is `TERMINATED` after pass 5, still sitting in the
wait queue of resource 2; `B`'s release of resource 2 at tick 6 grants it, so after pass 7 `A`
is `READY` in the ready queue, and in the next pass it is dispatched and `RUNNING`. -/
theorem terminated_victim_runs_again :
    (passes 5 crossWorkload).time = 5 ∧
    (passes 5 crossWorkload).processes.map (fun x => (x.pid, x.state, x.finishTime))
      = [("A", ProcessState.TERMINATED, 4), ("B", ProcessState.READY, 0)] ∧
    getQ (passes 5 crossWorkload).rm.waitingQueues 2 = [0] ∧
    (passes 7 crossWorkload).time = 7 ∧
    (passes 7 crossWorkload).processes.map (fun x => (x.pid, x.state))
      = [("A", ProcessState.READY), ("B", ProcessState.READY)] ∧
    (passes 7 crossWorkload).sched.readyQueue = [0, 1] ∧
    (beforeDeadlockCheck (passes 7 crossWorkload)).runningProcess = some 0 ∧
    (beforeDeadlockCheck (passes 7 crossWorkload)).processes.map (fun x => (x.pid, x.state))
      = [("A", ProcessState.RUNNING), ("B", ProcessState.READY)] := by
  decide

/-- C6, evaluation at the failing input: `V` holds one unit of a capacity-2 resource and waits
on the same resource for two more. Recovery releases the unit and the drain of the wait queue
then grants `V` its own pending request: after the step `V` is `TERMINATED` and holds 2 units,
with none available. -/
theorem victim_keeps_units_after_recovery :
    (beforeDeadlockCheck (passes 2 selfWaitWorkload)).time = 2 ∧
    deadlockCond (beforeDeadlockCheck (passes 2 selfWaitWorkload)) = true ∧
    (beforeDeadlockCheck (passes 2 selfWaitWorkload)).rm.resources = [⟨1, 2, 1, [("V", 1)]⟩] ∧
    (checkAndResolveDeadlock (beforeDeadlockCheck (passes 2 selfWaitWorkload))).processes.map
        (fun x => (x.pid, x.state, x.finishTime)) = [("V", ProcessState.TERMINATED, 2)] ∧
    (checkAndResolveDeadlock (beforeDeadlockCheck (passes 2 selfWaitWorkload))).rm.resources
      = [⟨1, 2, 0, [("V", 2)]⟩] := by
  decide

/-- C7, evaluation at the failing input: with `A: IO 4` and `B: REQ1 1; REL1 1`, the run ends
at time 3 with `A` terminated at 3, having arrived at 0 with `totalIoTime = 4`: its turnaround
3 is below its CPU plus I/O time 4. -/
theorem turnaround_below_io_time :
    (run 10 ioWorkload).map (fun s => (s.time, s.processes.map (fun x =>
        (x.pid, x.state, x.arrivalTime, x.finishTime, x.totalCpuTime, x.totalIoTime))))
      = some (3, [("A", ProcessState.TERMINATED, 0, 3, 0, 4),
                  ("B", ProcessState.TERMINATED, 0, 3, 0, 0)]) := by
  rfl

/-- C8, evaluation at the failing input: `A` executes `IO 4` in the tick with `time = 0`. The
pass that terminates `B` at `time = 3` ends in the `continue` of line 394, so the next pass
also runs with `time = 3` and its I/O stage counts `A` down again: `A` is back in the ready
queue at `time = 3`, with `totalIoTime = 4`. -/
theorem io_readmitted_early :
    (passes 1 ioWorkload).trace = [ Event.blockIO 0 "A"] ∧
    (passes 1 ioWorkload).processes.map (fun x => (x.state, x.blockReason, x.remainingTimeCurrentOp, x.totalIoTime))
      = [(ProcessState.BLOCKED, BlockReason.WAITING_IO, 4, 0),
         (ProcessState.READY, BlockReason.NONE, 0, 0)] ∧
    (passes 3 ioWorkload).time = 3 ∧
    (passes 4 ioWorkload).time = 3 ∧
    (passes 3 ioWorkload).processes.map (fun x => (x.state, x.remainingTimeCurrentOp, x.totalIoTime))
      = [(ProcessState.BLOCKED, 2, 2), (ProcessState.READY, 0, 0)] ∧
    (passes 4 ioWorkload).processes.map (fun x => (x.state, x.remainingTimeCurrentOp, x.totalIoTime))
      = [(ProcessState.BLOCKED, 1, 3), (ProcessState.TERMINATED, 0, 0)] ∧
    (ioAdvance (arrivals (passes 4 ioWorkload))).time = 3 ∧
    (ioAdvance (arrivals (passes 4 ioWorkload))).processes.map
        (fun x => (x.state, x.remainingTimeCurrentOp, x.totalIoTime))
      = [(ProcessState.READY, 0, 4), (ProcessState.TERMINATED, 0, 0)] ∧
    (ioAdvance (arrivals (passes 4 ioWorkload))).sched.readyQueue = [0] := by
  decide

/-! ## Claim C5: the deadlock step -/

theorem drain_keeps (rId : Int) (q : List Nat) :
    ∀ (res : Resource) (procs : List Process) (ready : List Nat) (out : List Event),
      (drainWaiters rId res procs ready out q).procs.length = procs.length ∧
      out <+: (drainWaiters rId res procs ready out q).out := by
  induction q with
  | nil => intro res procs ready out; exact ⟨rfl, List.prefix_refl _⟩
  | cons w q ih =>
    intro res procs ready out
    cases hp : pendingCount procs w with
    | none => simp only [drainWaiters, hp]; exact ⟨by trivial, List.prefix_refl _⟩
    | some c =>
      by_cases hc : res.available ≥ c
      · simp only [drainWaiters, hp, hc, if_true]
        obtain ⟨h1, h2⟩ := ih ⟨res.id, res.capacity, res.available - c,
            allocSet res.allocation (pidOf procs w) (allocGet res.allocation (pidOf procs w) + c)⟩
          (updateAt procs w wake) (ready ++ [w]) (out ++ [Event.unblock (pidOf procs w) rId])
        refine ⟨?_, ?_⟩
        · rw [h1, length_updateAt]
        · exact (List.prefix_append _ _).trans h2
      · simp only [drainWaiters, hp, hc, if_false]; exact ⟨by trivial, List.prefix_refl _⟩

theorem release_keeps (s : Sim) (p : Nat) (rId n : Int) : Keeps s (release s p rId n) := by
  unfold release
  cases hf : findRes s.rm.resources rId with
  | none => exact ⟨rfl, rfl, List.prefix_refl _⟩
  | some r =>
    obtain ⟨h1, h2⟩ := drain_keeps rId (getQ s.rm.waitingQueues rId)
      (giveBack r (pidOf s.processes p) n) s.processes s.sched.readyQueue s.trace
    exact ⟨rfl, h1, h2⟩

theorem releaseAllStep_keeps (p : Nat) (s : Sim) (rId : Int) :
    Keeps s (releaseAllStep p s rId) := by
  unfold releaseAllStep
  cases hf : findRes s.rm.resources rId with
  | none => exact ⟨rfl, rfl, List.prefix_refl _⟩
  | some r =>
    simp only
    split
    · split
      · obtain ⟨h1, h2, h3⟩ := release_keeps
          { s with trace := s.trace ++ [Event.recovery (allocGet r.allocation (pidOf s.processes p))
              rId (pidOf s.processes p)] } p rId (allocGet r.allocation (pidOf s.processes p))
        exact ⟨h1, h2, (List.prefix_append _ _).trans h3⟩
      · exact ⟨rfl, rfl, List.prefix_refl _⟩
    · exact ⟨rfl, rfl, List.prefix_refl _⟩

theorem releaseAll_keeps (p : Nat) (ids : List Int) :
    ∀ s : Sim, Keeps s (ids.foldl (releaseAllStep p) s) := by
  induction ids with
  | nil => intro s; exact ⟨rfl, rfl, List.prefix_refl _⟩
  | cons i is ih =>
    intro s
    obtain ⟨a1, a2, a3⟩ := releaseAllStep_keeps p s i
    obtain ⟨b1, b2, b3⟩ := ih (releaseAllStep p s i)
    exact ⟨b1.trans a1, b2.trans a2, a3.trans b3⟩

theorem filter_head_first (P : Nat → Bool) (l : List Nat) (v : Nat) (rest : List Nat)
    (hl : l.Pairwise (fun a b => a < b)) (h : l.filter P = v :: rest) :
    v ∈ l ∧ P v = true ∧ ∀ j ∈ l, j < v → P j = false := by
  induction l with
  | nil => simp at h
  | cons a l ih =>
    have ha := (List.pairwise_cons.mp hl).1
    have hl' := (List.pairwise_cons.mp hl).2
    by_cases hp : P a = true
    · rw [List.filter_cons_of_pos hp] at h
      have hv : a = v := (List.cons.inj h).1
      subst hv
      refine ⟨List.mem_cons_self _ _, hp, ?_⟩
      intro j hj hjv
      rcases List.mem_cons.mp hj with h1 | h1
      · omega
      · have := ha j h1; omega
    · rw [List.filter_cons_of_neg hp] at h
      obtain ⟨h1, h2, h3⟩ := ih hl' h
      refine ⟨List.mem_cons_of_mem _ h1, h2, ?_⟩
      intro j hj hjv
      rcases List.mem_cons.mp hj with h4 | h4
      · rw [h4]; simpa using hp
      · exact h3 j h4 hjv

theorem blockedOnResource_head (procs : List Process) (v : Nat) (rest : List Nat)
    (h : blockedOnResource procs = v :: rest) :
    (∃ x, procs[v]? = some x ∧ isWaitingResource x = true) ∧
    ∀ j y, j < v → procs[j]? = some y → isWaitingResource y = false := by
  obtain ⟨h1, h2, h3⟩ := filter_head_first _ _ v rest (List.pairwise_lt_range _) h
  have hv : v < procs.length := List.mem_range.mp h1
  refine ⟨?_, ?_⟩
  · cases hx : procs[v]? with
    | none => simp [hx] at h2
    | some x => exact ⟨x, rfl, by simpa [hx] using h2⟩
  · intro j y hj hy
    have := h3 j (List.mem_range.mpr (by omega)) hj
    simpa [hy] using this

theorem blockedOnResource_ne_nil_iff (procs : List Process) :
    blockedOnResource procs ≠ [] ↔ ∃ x ∈ procs, isWaitingResource x = true := by
  unfold blockedOnResource
  constructor
  · intro h
    obtain ⟨i, hi⟩ := List.exists_mem_of_ne_nil _ h
    rw [List.mem_filter] at hi
    cases hx : procs[i]? with
    | none => simp [hx] at hi
    | some x =>
      refine ⟨x, ?_, by simpa [hx] using hi.2⟩
      exact List.getElem?_mem hx
  · rintro ⟨x, hx, hw⟩
    obtain ⟨i, hxi⟩ := List.mem_iff_getElem?.mp hx
    have hi : i < procs.length := by
      by_contra hge
      rw [List.getElem?_eq_none (by omega)] at hxi
      cases hxi
    intro hnil
    have : i ∈ (List.range procs.length).filter (fun i =>
        match procs[i]? with
        | some x => isWaitingResource x
        | none => false) := by
      rw [List.mem_filter]
      refine ⟨List.mem_range.mpr hi, ?_⟩
      simp only [hxi]
      exact hw
    rw [hnil] at this
    cases this

theorem deadlockCond_iff (s : Sim) :
    deadlockCond s = true ↔
      s.runningProcess = none ∧ s.sched.readyQueue = [] ∧ (∀ q ∈ s.sched.mlfq, q = []) ∧
      (∃ x ∈ s.processes,
        x.state = ProcessState.BLOCKED ∧ x.blockReason = BlockReason.WAITING_RESOURCE) ∧
      (∀ x ∈ s.processes,
        ¬ (x.state = ProcessState.BLOCKED ∧ x.blockReason = BlockReason.WAITING_IO)) := by
  have hb := blockedOnResource_ne_nil_iff s.processes
  simp only [isWaitingResource, decide_eq_true_eq] at hb
  have hs : s.runningProcess.isSome = false ↔ s.runningProcess = none := by
    cases s.runningProcess <;> simp
  unfold deadlockCond
  simp only [Bool.and_eq_true, Bool.not_eq_true', Bool.or_eq_false_iff, decide_eq_true_eq,
    decide_eq_false_iff_not, not_not, List.any_eq_false, isWaitingIO, hs, hb, ne_eq]
  tauto

/-- C5: the deadlock step acts iff no process is running, the ready sequence and the three
MLFQ queues are empty, some process is `BLOCKED/WAITING_RESOURCE` and none is
`BLOCKED/WAITING_IO`. When it does not act the state is unchanged. When it acts, the victim is
the first process in load order that is `BLOCKED/WAITING_RESOURCE`, the abort of that process
is printed, and after the step the victim is `TERMINATED` with `finishTime = time`. -/
theorem deadlock_step (s : Sim) :
    (deadlockCond s = true ↔
      s.runningProcess = none ∧ s.sched.readyQueue = [] ∧ (∀ q ∈ s.sched.mlfq, q = []) ∧
      (∃ x ∈ s.processes,
        x.state = ProcessState.BLOCKED ∧ x.blockReason = BlockReason.WAITING_RESOURCE) ∧
      (∀ x ∈ s.processes,
        ¬ (x.state = ProcessState.BLOCKED ∧ x.blockReason = BlockReason.WAITING_IO))) ∧
    (deadlockCond s = false → checkAndResolveDeadlock s = s) ∧
    (deadlockCond s = true →
      ∃ (victim : Nat) (x : Process), s.processes[victim]? = some x ∧
        (x.state = ProcessState.BLOCKED ∧ x.blockReason = BlockReason.WAITING_RESOURCE) ∧
        (∀ (j : Nat) (y : Process), j < victim → s.processes[j]? = some y →
          ¬ (y.state = ProcessState.BLOCKED ∧ y.blockReason = BlockReason.WAITING_RESOURCE)) ∧
        (s.trace ++ [Event.deadlockDetected s.time, Event.deadlockRecovery x.pid])
          <+: (checkAndResolveDeadlock s).trace ∧
        ∃ y : Process, (checkAndResolveDeadlock s).processes[victim]? = some y ∧
          y.state = ProcessState.TERMINATED ∧ y.finishTime = s.time) := by
  refine ⟨deadlockCond_iff s, ?_, ?_⟩
  · intro h
    unfold checkAndResolveDeadlock
    simp [h]
  · intro h
    have hne : blockedOnResource s.processes ≠ [] := by
      unfold deadlockCond at h
      simp only [Bool.and_eq_true, decide_eq_true_eq] at h
      exact h.1.2
    cases hb : blockedOnResource s.processes with
    | nil => exact absurd hb hne
    | cons victim rest =>
      obtain ⟨⟨x, hx, hw⟩, hfirst⟩ := blockedOnResource_head s.processes victim rest hb
      refine ⟨victim, x, hx, by simpa [isWaitingResource] using hw, ?_, ?_, ?_⟩
      · intro j y hj hy
        have := hfirst j y hj hy
        simpa [isWaitingResource] using this
      · unfold checkAndResolveDeadlock
        simp only [h, if_true, hb, Sim.modifyProc]
        have hk := releaseAll_keeps victim (s.rm.resources.map Resource.id)
          { s with trace := s.trace ++
            [Event.deadlockDetected s.time, Event.deadlockRecovery (pidOf s.processes victim)] }
        have hpid : pidOf s.processes victim = x.pid := by simp [pidOf, hx]
        rw [← hpid]
        exact hk.2.2
      · unfold checkAndResolveDeadlock
        simp only [h, if_true, hb, Sim.modifyProc]
        have hk := releaseAll_keeps victim (s.rm.resources.map Resource.id)
          { s with trace := s.trace ++
            [Event.deadlockDetected s.time, Event.deadlockRecovery (pidOf s.processes victim)] }
        have hlen : victim < s.processes.length := by
          by_contra hge
          rw [List.getElem?_eq_none (by omega)] at hx
          cases hx
        rw [getElem?_updateAt_self]
        have hv : victim < (releaseAllResourcesOfProcess { s with trace := s.trace ++
            [Event.deadlockDetected s.time, Event.deadlockRecovery (pidOf s.processes victim)] }
              victim).processes.length := lt_of_lt_of_eq hlen hk.2.1.symm
        rw [List.getElem?_eq_getElem hv]
        refine ⟨_, rfl, rfl, ?_⟩
        exact hk.1

/-- C5, witness: scenario 4 of the specification. In the pass at tick 4 both processes are
blocked on a resource, the guard holds, and the victim is `A`, terminated with finish time 4. -/
theorem deadlock_step_witness :
    deadlockCond (beforeDeadlockCheck (passes 4 crossWorkload)) = true ∧
    (beforeDeadlockCheck (passes 4 crossWorkload)).time = 4 ∧
    (beforeDeadlockCheck (passes 4 crossWorkload)).processes.map
        (fun x => (x.pid, x.state, x.blockReason))
      = [("A", ProcessState.BLOCKED, BlockReason.WAITING_RESOURCE),
         ("B", ProcessState.BLOCKED, BlockReason.WAITING_RESOURCE)] ∧
    (checkAndResolveDeadlock (beforeDeadlockCheck (passes 4 crossWorkload))).processes.map
        (fun x => (x.pid, x.state, x.finishTime))
      = [("A", ProcessState.TERMINATED, 4), ("B", ProcessState.READY, 0)] ∧
    (∃ (victim : Nat) (x : Process), (beforeDeadlockCheck (passes 4 crossWorkload)).processes[victim]? = some x ∧
        (x.state = ProcessState.BLOCKED ∧ x.blockReason = BlockReason.WAITING_RESOURCE) ∧
        (∀ (j : Nat) (y : Process), j < victim → (beforeDeadlockCheck (passes 4 crossWorkload)).processes[j]? = some y →
          ¬ (y.state = ProcessState.BLOCKED ∧ y.blockReason = BlockReason.WAITING_RESOURCE)) ∧
        ((beforeDeadlockCheck (passes 4 crossWorkload)).trace ++
            [Event.deadlockDetected (beforeDeadlockCheck (passes 4 crossWorkload)).time,
             Event.deadlockRecovery x.pid])
          <+: (checkAndResolveDeadlock (beforeDeadlockCheck (passes 4 crossWorkload))).trace ∧
        ∃ y : Process, (checkAndResolveDeadlock (beforeDeadlockCheck (passes 4 crossWorkload))).processes[victim]?
              = some y ∧
          y.state = ProcessState.TERMINATED ∧
          y.finishTime = (beforeDeadlockCheck (passes 4 crossWorkload)).time) :=
  ⟨by decide, by decide, by decide, by decide,
   (deadlock_step (beforeDeadlockCheck (passes 4 crossWorkload))).2.2 (by decide)⟩

/-! ## Claim C9: a single CPU-bound process -/

theorem run_add (k : Nat) : ∀ (n : Nat) (s s' : Sim), run n s = some s' → run (n + k) s = some s' := by
  intro n
  induction n with
  | zero =>
    intro s s' h
    simp only [run] at h
    cases hc : loopCond s with
    | true => simp [hc] at h
    | false =>
      simp only [hc] at h
      cases k with
      | zero => simpa [run, hc] using h
      | succ k => simpa [run, hc] using h
  | succ n ih =>
    intro s s' h
    rw [Nat.add_right_comm]
    simp only [run] at h ⊢
    cases hc : loopCond s with
    | true =>
      simp only [hc, if_true] at h ⊢
      exact ih _ _ h
    | false =>
      simpa [hc] using h

theorem run_of_le (n m : Nat) (s s' : Sim) (h : run n s = some s') (hle : n ≤ m) :
    run m s = some s' := by
  obtain ⟨k, rfl⟩ := Nat.exists_eq_add_of_le hle
  exact run_add k n s s' h

theorem front_arrival (alg : Algorithm) (q : Int) (rm : ResourceManager) (pid : String)
    (a prio d c : Int) (ct : Int) (tr : List Event) (ha : 0 ≤ a) (hct : a - ct ≤ 50) :
    beforeDeadlockCheck (st1 alg q rm (mkProcess pid a prio [⟨InstructionType.CPU, d, c⟩]) ct []
        [[], [], []] a 0 none 0 tr)
      = st1 alg q rm (cpuProc pid a prio d c 0 ProcessState.RUNNING ct 0) a [] [[], [], []]
          a 0 (some 0) 0 tr := by
  have h1 : ¬ a = -1 := by omega
  have h2 : ¬ 50 < a - ct := by omega
  cases alg
  · simp [beforeDeadlockCheck, st1, arrivals, arrivalVisit, mkProcess, ioAdvance, ioVisit, setTime,
      applyAging, dispatch, getNextProcess, List.range_succ, addProcess, Sim.modifyProc, updateAt,
      onDispatch, cpuProc, h1]
  · simp [beforeDeadlockCheck, st1, arrivals, arrivalVisit, mkProcess, ioAdvance, ioVisit, setTime,
      applyAging, dispatch, getNextProcess, List.range_succ, addProcess, Sim.modifyProc, updateAt,
      onDispatch, cpuProc, h1, h2, stdSort, insertSorted, agingVisit]
  · by_cases hb : 0 < a ∧ (200 : Int) ∣ a
    · simp [beforeDeadlockCheck, st1, arrivals, arrivalVisit, mkProcess, ioAdvance, ioVisit, setTime,
        applyAging, dispatch, getNextProcess, List.range_succ, addProcess, Sim.modifyProc, updateAt,
        onDispatch, cpuProc, h1, hb, boostLevel]
    · simp [beforeDeadlockCheck, st1, arrivals, arrivalVisit, mkProcess, ioAdvance, ioVisit, setTime,
        applyAging, dispatch, getNextProcess, List.range_succ, addProcess, Sim.modifyProc, updateAt,
        onDispatch, cpuProc, h1, hb]

theorem step_eq (s : Sim) : step s = afterDispatch (beforeDeadlockCheck s) := rfl

theorem int32_le_self (x : Int) (h : -2147483648 ≤ x) : int32 x ≤ x := by
  unfold int32
  omega

theorem back_mlfq_keep (q : Int) (rm : ResourceManager) (pid : String)
    (a prio d c j b : Int) (lvl : Nat) (lrt : Int) (tr : List Event) (hj : ¬ d - j - 1 ≤ 0)
    (hq : ¬ int32 (q * 2 ^ lvl) ≤ b + 1) :
    afterDispatch (runningState Algorithm.mlfq q rm pid a prio d c j b lvl lrt tr)
      = st1 Algorithm.mlfq q rm (cpuProc pid a prio d c (j + 1) ProcessState.RUNNING lrt lvl)
          (a + j) [] [[], [], []] (a + j + 1) 0 (some 0) (b + 1)
          (tr ++ [Event.running (a + j) pid]) := by
  simp [afterDispatch, runningState, st1, cpuProc, checkAndResolveDeadlock, deadlockCond,
    reapRunning, execute, execCPU, Sim.modifyProc, updateAt, hj, checkQuantum, hq]
  ring

theorem back_mlfq_preempt (q : Int) (rm : ResourceManager) (pid : String)
    (a prio d c j b : Int) (lvl : Nat) (lrt : Int) (tr : List Event) (hj : ¬ d - j - 1 ≤ 0)
    (hq : int32 (q * 2 ^ lvl) ≤ b + 1) :
    afterDispatch (runningState Algorithm.mlfq q rm pid a prio d c j b lvl lrt tr)
      = st1 Algorithm.mlfq q rm
          (cpuProc pid a prio d c (j + 1) ProcessState.READY (a + j)
            (if lvl < 2 then lvl + 1 else lvl))
          (a + j) [] (updateAt [[], [], []] (if lvl < 2 then lvl + 1 else lvl) (fun q => q ++ [0]))
          (a + j + 1) 0 none (b + 1) (tr ++ [Event.running (a + j) pid]) := by
  by_cases hl : lvl < 2
  · simp [afterDispatch, runningState, st1, cpuProc, checkAndResolveDeadlock, deadlockCond,
      reapRunning, execute, execCPU, Sim.modifyProc, updateAt, hj, checkQuantum, hq, addProcess, hl]
    ring
  · simp [afterDispatch, runningState, st1, cpuProc, checkAndResolveDeadlock, deadlockCond,
      reapRunning, execute, execCPU, Sim.modifyProc, updateAt, hj, checkQuantum, hq, addProcess, hl]
    ring

theorem front_running (alg : Algorithm) (q : Int) (rm : ResourceManager) (pid : String)
    (a prio d c j b : Int) (lvl : Nat) (lrt ct : Int) (tr : List Event) :
    beforeDeadlockCheck (st1 alg q rm (cpuProc pid a prio d c j ProcessState.RUNNING lrt lvl)
        ct [] [[], [], []] (a + j) 0 (some 0) b tr)
      = runningState alg q rm pid a prio d c j b lvl lrt tr := by
  cases alg
  · simp [beforeDeadlockCheck, runningState, st1, cpuProc, arrivals, arrivalVisit, ioAdvance,
      ioVisit, setTime, applyAging, dispatch, List.range_succ]
  · simp [beforeDeadlockCheck, runningState, st1, cpuProc, arrivals, arrivalVisit, ioAdvance,
      ioVisit, setTime, applyAging, dispatch, List.range_succ]
  · by_cases hb : 0 < a + j ∧ (200 : Int) ∣ a + j
    · simp [beforeDeadlockCheck, runningState, st1, cpuProc, arrivals, arrivalVisit, ioAdvance,
        ioVisit, setTime, applyAging, dispatch, List.range_succ, hb, boostLevel]
    · simp [beforeDeadlockCheck, runningState, st1, cpuProc, arrivals, arrivalVisit, ioAdvance,
        ioVisit, setTime, applyAging, dispatch, List.range_succ, hb]

theorem rrWorkload_eq (caps : List Int) (pa pb ca cb : Int) :
    rrWorkload caps pa pb ca cb
      = rrState caps
        (rrProc "A" pa 5 ca 0 0 ProcessState.NEW (-1) 0 0 0)
        (rrProc "B" pb 3 cb 0 0 ProcessState.NEW (-1) 0 0 0)
        0 [] 0 0 none 0
        [] := rfl

theorem rr_step1 (caps : List Int) (pa pb ca cb : Int) :
    step (rrState caps
        (rrProc "A" pa 5 ca 0 0 ProcessState.NEW (-1) 0 0 0)
        (rrProc "B" pb 3 cb 0 0 ProcessState.NEW (-1) 0 0 0)
        0 [] 0 0 none 0
        [])
      = rrState caps
        (rrProc "A" pa 5 ca 0 4 ProcessState.RUNNING 0 0 1 0)
        (rrProc "B" pb 3 cb 0 0 ProcessState.READY (-1) 0 0 0)
        0 [1] 1 0 (some 0) 1
        [Event.running 0 "A"] := by
  rw [step_eq]
  simp [rrState, rrProc, beforeDeadlockCheck, arrivals, arrivalVisit, ioAdvance, ioVisit, setTime,
    applyAging, dispatch, getNextProcess, onDispatch, addProcess, Sim.modifyProc, updateAt,
    List.range_succ]
  simp [afterDispatch, checkAndResolveDeadlock, deadlockCond, reapRunning, execute, execCPU,
    checkQuantum, addProcess, Sim.modifyProc, updateAt]

theorem rr_step2 (caps : List Int) (pa pb ca cb : Int) :
    step (rrState caps
        (rrProc "A" pa 5 ca 0 4 ProcessState.RUNNING 0 0 1 0)
        (rrProc "B" pb 3 cb 0 0 ProcessState.READY (-1) 0 0 0)
        0 [1] 1 0 (some 0) 1
        [Event.running 0 "A"])
      = rrState caps
        (rrProc "A" pa 5 ca 0 3 ProcessState.READY 0 0 2 1)
        (rrProc "B" pb 3 cb 0 0 ProcessState.READY (-1) 0 0 0)
        1 [1, 0] 2 0 none 2
        [Event.running 0 "A", Event.running 1 "A"] := by
  rw [step_eq]
  simp [rrState, rrProc, beforeDeadlockCheck, arrivals, arrivalVisit, ioAdvance, ioVisit, setTime,
    applyAging, dispatch, getNextProcess, onDispatch, addProcess, Sim.modifyProc, updateAt,
    List.range_succ]
  simp [afterDispatch, checkAndResolveDeadlock, deadlockCond, reapRunning, execute, execCPU,
    checkQuantum, addProcess, Sim.modifyProc, updateAt]

theorem rr_step3 (caps : List Int) (pa pb ca cb : Int) :
    step (rrState caps
        (rrProc "A" pa 5 ca 0 3 ProcessState.READY 0 0 2 1)
        (rrProc "B" pb 3 cb 0 0 ProcessState.READY (-1) 0 0 0)
        1 [1, 0] 2 0 none 2
        [Event.running 0 "A", Event.running 1 "A"])
      = rrState caps
        (rrProc "A" pa 5 ca 0 3 ProcessState.READY 0 0 2 1)
        (rrProc "B" pb 3 cb 0 2 ProcessState.RUNNING 2 0 1 0)
        2 [0] 3 0 (some 1) 1
        [Event.running 0 "A", Event.running 1 "A", Event.running 2 "B"] := by
  rw [step_eq]
  simp [rrState, rrProc, beforeDeadlockCheck, arrivals, arrivalVisit, ioAdvance, ioVisit, setTime,
    applyAging, dispatch, getNextProcess, onDispatch, addProcess, Sim.modifyProc, updateAt,
    List.range_succ]
  simp [afterDispatch, checkAndResolveDeadlock, deadlockCond, reapRunning, execute, execCPU,
    checkQuantum, addProcess, Sim.modifyProc, updateAt]

theorem rr_step4 (caps : List Int) (pa pb ca cb : Int) :
    step (rrState caps
        (rrProc "A" pa 5 ca 0 3 ProcessState.READY 0 0 2 1)
        (rrProc "B" pb 3 cb 0 2 ProcessState.RUNNING 2 0 1 0)
        2 [0] 3 0 (some 1) 1
        [Event.running 0 "A", Event.running 1 "A", Event.running 2 "B"])
      = rrState caps
        (rrProc "A" pa 5 ca 0 3 ProcessState.READY 0 0 2 1)
        (rrProc "B" pb 3 cb 0 1 ProcessState.READY 2 0 2 3)
        3 [0, 1] 4 0 none 2
        [Event.running 0 "A", Event.running 1 "A", Event.running 2 "B", Event.running 3 "B"] := by
  rw [step_eq]
  simp [rrState, rrProc, beforeDeadlockCheck, arrivals, arrivalVisit, ioAdvance, ioVisit, setTime,
    applyAging, dispatch, getNextProcess, onDispatch, addProcess, Sim.modifyProc, updateAt,
    List.range_succ]
  simp [afterDispatch, checkAndResolveDeadlock, deadlockCond, reapRunning, execute, execCPU,
    checkQuantum, addProcess, Sim.modifyProc, updateAt]

theorem rr_step5 (caps : List Int) (pa pb ca cb : Int) :
    step (rrState caps
        (rrProc "A" pa 5 ca 0 3 ProcessState.READY 0 0 2 1)
        (rrProc "B" pb 3 cb 0 1 ProcessState.READY 2 0 2 3)
        3 [0, 1] 4 0 none 2
        [Event.running 0 "A", Event.running 1 "A", Event.running 2 "B", Event.running 3 "B"])
      = rrState caps
        (rrProc "A" pa 5 ca 0 2 ProcessState.RUNNING 0 0 3 1)
        (rrProc "B" pb 3 cb 0 1 ProcessState.READY 2 0 2 3)
        4 [1] 5 0 (some 0) 1
        [Event.running 0 "A", Event.running 1 "A", Event.running 2 "B", Event.running 3 "B", Event.running 4 "A"] := by
  rw [step_eq]
  simp [rrState, rrProc, beforeDeadlockCheck, arrivals, arrivalVisit, ioAdvance, ioVisit, setTime,
    applyAging, dispatch, getNextProcess, onDispatch, addProcess, Sim.modifyProc, updateAt,
    List.range_succ]
  simp [afterDispatch, checkAndResolveDeadlock, deadlockCond, reapRunning, execute, execCPU,
    checkQuantum, addProcess, Sim.modifyProc, updateAt]

theorem rr_step6 (caps : List Int) (pa pb ca cb : Int) :
    step (rrState caps
        (rrProc "A" pa 5 ca 0 2 ProcessState.RUNNING 0 0 3 1)
        (rrProc "B" pb 3 cb 0 1 ProcessState.READY 2 0 2 3)
        4 [1] 5 0 (some 0) 1
        [Event.running 0 "A", Event.running 1 "A", Event.running 2 "B", Event.running 3 "B", Event.running 4 "A"])
      = rrState caps
        (rrProc "A" pa 5 ca 0 1 ProcessState.READY 0 0 4 5)
        (rrProc "B" pb 3 cb 0 1 ProcessState.READY 2 0 2 3)
        5 [1, 0] 6 0 none 2
        [Event.running 0 "A", Event.running 1 "A", Event.running 2 "B", Event.running 3 "B", Event.running 4 "A", Event.running 5 "A"] := by
  rw [step_eq]
  simp [rrState, rrProc, beforeDeadlockCheck, arrivals, arrivalVisit, ioAdvance, ioVisit, setTime,
    applyAging, dispatch, getNextProcess, onDispatch, addProcess, Sim.modifyProc, updateAt,
    List.range_succ]
  simp [afterDispatch, checkAndResolveDeadlock, deadlockCond, reapRunning, execute, execCPU,
    checkQuantum, addProcess, Sim.modifyProc, updateAt]

theorem rr_step7 (caps : List Int) (pa pb ca cb : Int) :
    step (rrState caps
        (rrProc "A" pa 5 ca 0 1 ProcessState.READY 0 0 4 5)
        (rrProc "B" pb 3 cb 0 1 ProcessState.READY 2 0 2 3)
        5 [1, 0] 6 0 none 2
        [Event.running 0 "A", Event.running 1 "A", Event.running 2 "B", Event.running 3 "B", Event.running 4 "A", Event.running 5 "A"])
      = rrState caps
        (rrProc "A" pa 5 ca 0 1 ProcessState.READY 0 0 4 5)
        (rrProc "B" pb 3 cb 1 0 ProcessState.TERMINATED 2 7 3 3)
        6 [0] 7 1 none 1
        [Event.running 0 "A", Event.running 1 "A", Event.running 2 "B", Event.running 3 "B", Event.running 4 "A", Event.running 5 "A", Event.running 6 "B"] := by
  rw [step_eq]
  simp [rrState, rrProc, beforeDeadlockCheck, arrivals, arrivalVisit, ioAdvance, ioVisit, setTime,
    applyAging, dispatch, getNextProcess, onDispatch, addProcess, Sim.modifyProc, updateAt,
    List.range_succ]
  simp [afterDispatch, checkAndResolveDeadlock, deadlockCond, reapRunning, execute, execCPU,
    checkQuantum, addProcess, Sim.modifyProc, updateAt]

theorem rr_step8 (caps : List Int) (pa pb ca cb : Int) :
    step (rrState caps
        (rrProc "A" pa 5 ca 0 1 ProcessState.READY 0 0 4 5)
        (rrProc "B" pb 3 cb 1 0 ProcessState.TERMINATED 2 7 3 3)
        6 [0] 7 1 none 1
        [Event.running 0 "A", Event.running 1 "A", Event.running 2 "B", Event.running 3 "B", Event.running 4 "A", Event.running 5 "A", Event.running 6 "B"])
      = rrState caps
        (rrProc "A" pa 5 ca 1 0 ProcessState.TERMINATED 0 8 5 5)
        (rrProc "B" pb 3 cb 1 0 ProcessState.TERMINATED 2 7 3 3)
        7 [] 8 2 none 1
        [Event.running 0 "A", Event.running 1 "A", Event.running 2 "B", Event.running 3 "B", Event.running 4 "A", Event.running 5 "A", Event.running 6 "B", Event.running 7 "A"] := by
  rw [step_eq]
  simp [rrState, rrProc, beforeDeadlockCheck, arrivals, arrivalVisit, ioAdvance, ioVisit, setTime,
    applyAging, dispatch, getNextProcess, onDispatch, addProcess, Sim.modifyProc, updateAt,
    List.range_succ]
  simp [afterDispatch, checkAndResolveDeadlock, deadlockCond, reapRunning, execute, execCPU,
    checkQuantum, addProcess, Sim.modifyProc, updateAt]

theorem run_chain (n : Nat) (s s' : Sim) (r : Option Sim) (hl : loopCond s = true)
    (hstep : step s = s') (hrest : run n s' = r) : run (n + 1) s = r := by
  rw [run]
  simp only [hl, if_true, hstep, hrest]

theorem run_done (n : Nat) (s : Sim) (hl : loopCond s = false) : run n s = some s := by
  cases n <;> simp [run, hl]

theorem rr_run8 (caps : List Int) (pa pb ca cb : Int) :
    run 8 (rrWorkload caps pa pb ca cb)
      = some (rrState caps
        (rrProc "A" pa 5 ca 1 0 ProcessState.TERMINATED 0 8 5 5)
        (rrProc "B" pb 3 cb 1 0 ProcessState.TERMINATED 2 7 3 3)
        7 [] 8 2 none 1
        [Event.running 0 "A", Event.running 1 "A", Event.running 2 "B", Event.running 3 "B",
         Event.running 4 "A", Event.running 5 "A", Event.running 6 "B", Event.running 7 "A"]) := by
  rw [rrWorkload_eq]
  exact run_chain 7 _ _ _ (by simp [loopCond, rrState]) (rr_step1 caps pa pb ca cb)
    (run_chain 6 _ _ _ (by simp [loopCond, rrState]) (rr_step2 caps pa pb ca cb)
    (run_chain 5 _ _ _ (by simp [loopCond, rrState]) (rr_step3 caps pa pb ca cb)
    (run_chain 4 _ _ _ (by simp [loopCond, rrState]) (rr_step4 caps pa pb ca cb)
    (run_chain 3 _ _ _ (by simp [loopCond, rrState]) (rr_step5 caps pa pb ca cb)
    (run_chain 2 _ _ _ (by simp [loopCond, rrState]) (rr_step6 caps pa pb ca cb)
    (run_chain 1 _ _ _ (by simp [loopCond, rrState]) (rr_step7 caps pa pb ca cb)
    (run_chain 0 _ _ _ (by simp [loopCond, rrState]) (rr_step8 caps pa pb ca cb)
    (run_done 0 _ (by simp [loopCond, rrState])))))))))

/-- C10, counterexample: for scenario 2 the run does not produce the nine-tick order
`A,A,B,B,A,A,B,A,A` with finish times 9 and 7. -/
theorem rr_interleaving_claimed_order_fails :
    ¬ ((run 20 (rrWorkload [1] 0 0 0 0)).map (fun s =>
          ((cpuTicks s.trace).map Prod.snd, s.processes.map (fun x => x.finishTime)))
        = some (["A", "A", "B", "B", "A", "A", "B", "A", "A"], [9, 7])) := by
  decide

/-- C10, as amended: under RR with quantum 2, for `A` (arrival 0, `CPU 5`) loaded before `B`
(arrival 0, `CPU 3`), whatever the priorities and resource capacities, the loop exits at
`time = 8`, the process executing at the ticks 0 to 7 is `A,A,B,B,A,A,B,A`, and
`A.finishTime = 8`, `B.finishTime = 7`. -/
theorem rr_interleaving (caps : List Int) (pa pb ca cb : Int) (fuel : Nat) (h : 8 ≤ fuel) :
    (run fuel (rrWorkload caps pa pb ca cb)).map (fun s =>
        (s.time, cpuTicks s.trace, s.processes.map (fun x => (x.pid, x.state, x.finishTime))))
      = some (8,
          [(0, "A"), (1, "A"), (2, "B"), (3, "B"), (4, "A"), (5, "A"), (6, "B"), (7, "A")],
          [("A", ProcessState.TERMINATED, 8), ("B", ProcessState.TERMINATED, 7)]) := by
  rw [run_of_le 8 fuel _ _ (rr_run8 caps pa pb ca cb) h, Option.map_some']
  simp [rrState, rrProc, cpuTicks]

/-- C10, witness: priorities 0, one resource of capacity 1, fuel 20. -/
theorem rr_interleaving_witness :
    (run 20 (rrWorkload [1] 0 0 0 0)).map (fun s =>
        (s.time, cpuTicks s.trace, s.processes.map (fun x => (x.pid, x.state, x.finishTime))))
      = some (8,
          [(0, "A"), (1, "A"), (2, "B"), (3, "B"), (4, "A"), (5, "A"), (6, "B"), (7, "A")],
          [("A", ProcessState.TERMINATED, 8), ("B", ProcessState.TERMINATED, 7)]) :=
  rr_interleaving [1] 0 0 0 0 20 (by decide)

/-! ## Claim C13: the quantum check -/

theorem updateAt_id_of {α : Type} (l : List α) (i : Nat) (f : α → α) (x : α)
    (hx : l[i]? = some x) (hf : f x = x) : updateAt l i f = l := by
  induction l generalizing i with
  | nil => rfl
  | cons y ys ih =>
    cases i with
    | zero =>
      simp only [List.getElem?_cons_zero, Option.some.injEq] at hx
      subst hx
      simp [updateAt, hf]
    | succ i =>
      simp only [List.getElem?_cons_succ] at hx
      simp [updateAt, ih i hx]

theorem boostLevel_snd (q : List Nat) :
    ∀ (procs : List Process) (q0 : List Nat), (boostLevel procs q0 q).2 = q0 ++ q := by
  induction q with
  | nil => intro procs q0; simp [boostLevel]
  | cons a q ih => intro procs q0; simp [boostLevel, ih]

theorem boostLevel_fst (q : List Nat) :
    ∀ (procs : List Process) (q0 : List Nat) (p : Nat),
      (boostLevel procs q0 q).1[p]?
        = if p ∈ q then procs[p]?.map (fun x => { x with queueLevel := 0 }) else procs[p]? := by
  induction q with
  | nil => intro procs q0 p; simp [boostLevel]
  | cons a q ih =>
    intro procs q0 p
    simp only [boostLevel, ih]
    by_cases hpa : p = a
    · subst hpa
      rw [getElem?_updateAt_self]
      by_cases hq : p ∈ q
      · simp only [hq, if_true, List.mem_cons, true_or, Option.map_map]
        rfl
      · simp [hq]
    · rw [getElem?_updateAt_ne _ _ _ _ (Ne.symm hpa)]
      simp [hpa]

/-- C15: under MLFQ, with `Q[0] = q0`, `Q[1] = q1`, `Q[2] = q2` and `now` the scheduler's
current time: when `now > 0` and `now mod 200 = 0`, `applyAging` leaves
`Q[0] = q0 ++ q1 ++ q2`, `Q[1] = Q[2] = []`, sets `queueLevel := 0` in every process of `q1`
and `q2` and changes no other process record; at any other `now` it changes nothing. -/
theorem applyAging_boost (s : Sim) (q0 q1 q2 : List Nat)
    (halg : s.sched.algorithm = Algorithm.mlfq) (hm : s.sched.mlfq = [q0, q1, q2]) :
    (0 < s.sched.currentTime ∧ s.sched.currentTime % 200 = 0 →
      (applyAging s).sched.mlfq = [q0 ++ q1 ++ q2, [], []] ∧
      (∀ (p : Nat) (x : Process), p ∈ q1 ++ q2 → s.processes[p]? = some x →
        (applyAging s).processes[p]? = some { x with queueLevel := 0 }) ∧
      (∀ p : Nat, p ∉ q1 ++ q2 → (applyAging s).processes[p]? = s.processes[p]?)) ∧
    (¬ (0 < s.sched.currentTime ∧ s.sched.currentTime % 200 = 0) → applyAging s = s) := by
  refine ⟨?_, ?_⟩
  · intro hb
    have hproc : ∀ p : Nat, (applyAging s).processes[p]?
        = if p ∈ q2 then (if p ∈ q1 then s.processes[p]?.map (fun x => { x with queueLevel := 0 })
            else s.processes[p]?).map (fun x => { x with queueLevel := 0 })
          else (if p ∈ q1 then s.processes[p]?.map (fun x => { x with queueLevel := 0 })
            else s.processes[p]?) := by
      intro p
      simp only [applyAging, halg, hb, hm, and_self, if_true, List.getD_cons_zero,
        List.getD_cons_succ, boostLevel_fst]
    refine ⟨?_, ?_, ?_⟩
    · simp only [applyAging, halg, hb, hm, and_self, if_true, List.getD_cons_zero,
        List.getD_cons_succ, boostLevel_snd]
    · intro p x hp hx
      rw [hproc, hx]
      rw [List.mem_append] at hp
      by_cases h2 : p ∈ q2
      · by_cases h1 : p ∈ q1
        · simp [h1, h2]
        · simp [h1, h2]
      · have h1 : p ∈ q1 := hp.resolve_right h2
        simp [h1, h2]
    · intro p hp
      rw [List.mem_append, not_or] at hp
      rw [hproc]
      simp [hp.1, hp.2]
  · intro hb
    simp only [applyAging, halg, hb, if_false]

/-- C15, witness: a boost at time 200 with `Q[0] = [0]`, `Q[1] = [1]`, `Q[2] = [2]`. -/
theorem applyAging_boost_witness :
    (applyAging boostState).sched.mlfq = [[0, 1, 2], [], []] ∧
    (applyAging boostState).processes.map (fun x => x.queueLevel) = [0, 0, 0] ∧
    applyAging { boostState with sched := { boostState.sched with currentTime := 199 } }
      = { boostState with sched := { boostState.sched with currentTime := 199 } } :=
  ⟨((applyAging_boost boostState [0] [1] [2] rfl rfl).1 (by decide)).1,
   by decide,
   (applyAging_boost { boostState with sched := { boostState.sched with currentTime := 199 } }
     [0] [1] [2] rfl rfl).2 (by decide)⟩

/-! ## Claim C16: PRIO aging -/

theorem updateAt_none {α : Type} (l : List α) (i : Nat) (f : α → α) (h : l[i]? = none) :
    updateAt l i f = l := by
  induction l generalizing i with
  | nil => rfl
  | cons y ys ih =>
    cases i with
    | zero => simp at h
    | succ i =>
      simp only [List.getElem?_cons_succ] at h
      simp [updateAt, ih i h]

theorem updateAt_congr {α : Type} (l : List α) (i : Nat) (f g : α → α) (x : α)
    (hx : l[i]? = some x) (hfg : f x = g x) : updateAt l i f = updateAt l i g := by
  induction l generalizing i with
  | nil => rfl
  | cons y ys ih =>
    cases i with
    | zero =>
      simp only [List.getElem?_cons_zero, Option.some.injEq] at hx
      subst hx
      simp [updateAt, hfg]
    | succ i =>
      simp only [List.getElem?_cons_succ] at hx
      simp [updateAt, ih i hx]

theorem aged_aged (now : Int) (x : Process) : aged now (aged now x) = aged now x := by
  unfold aged
  by_cases h : now - x.lastReadyTime > 50 ∧ x.priority > 0
  · simp [h]
  · simp [h]

theorem agingVisit_fst (now : Int) (acc : List Process × Bool) (a : Nat) :
    (agingVisit now acc a).1 = updateAt acc.1 a (aged now) := by
  unfold agingVisit
  cases hx : acc.1[a]? with
  | none => simp only; rw [updateAt_none _ _ _ hx]
  | some x =>
    simp only
    by_cases h1 : now - x.lastReadyTime > 50
    · by_cases h2 : x.priority > 0
      · simp only [h1, h2, if_true]
        exact updateAt_congr _ _ _ _ x hx (by simp [aged, h1, h2])
      · simp only [h1, h2, if_true, if_false]
        rw [updateAt_id_of _ _ _ x hx (by simp [aged, h2])]
    · simp only [h1, if_false]
      rw [updateAt_id_of _ _ _ x hx (by simp [aged, h1])]

theorem aging_fold (now : Int) (l : List Nat) :
    ∀ (acc : List Process × Bool) (p : Nat),
      (l.foldl (agingVisit now) acc).1[p]?
        = if p ∈ l then acc.1[p]?.map (aged now) else acc.1[p]? := by
  induction l with
  | nil => intro acc p; simp
  | cons a l ih =>
    intro acc p
    rw [List.foldl_cons, ih, agingVisit_fst]
    by_cases hpa : p = a
    · subst hpa
      rw [getElem?_updateAt_self]
      by_cases hl : p ∈ l
      · simp only [hl, if_true, List.mem_cons, true_or, Option.map_map]
        congr 1
        funext x
        exact aged_aged now x
      · simp [hl]
    · rw [getElem?_updateAt_ne _ _ _ _ (Ne.symm hpa)]
      simp [hpa]

theorem perm_insertSorted (lt : Nat → Nat → Bool) (x : Nat) (l : List Nat) :
    List.Perm (insertSorted lt x l) (x :: l) := by
  induction l with
  | nil => exact List.Perm.refl _
  | cons y ys ih =>
    by_cases h : lt y x = true
    · simp only [insertSorted, h, if_true]
      exact (List.Perm.cons y ih).trans (List.Perm.swap x y ys)
    · simp only [insertSorted, h]
      exact List.Perm.refl _

theorem perm_stdSort (lt : Nat → Nat → Bool) (l : List Nat) : List.Perm (stdSort lt l) l := by
  induction l with
  | nil => exact List.Perm.refl _
  | cons x xs ih =>
    exact (perm_insertSorted lt x (stdSort lt xs)).trans (List.Perm.cons x ih)

theorem applyAging_prio_processes (s : Sim) (halg : s.sched.algorithm = Algorithm.prio)
    (p : Nat) :
    (applyAging s).processes[p]?
      = if p ∈ s.sched.readyQueue then s.processes[p]?.map (aged s.sched.currentTime)
        else s.processes[p]? := by
  have h := aging_fold s.sched.currentTime s.sched.readyQueue (s.processes, false) p
  simp only [applyAging, halg]
  split <;> exact h

/-- C16: under PRIO, `applyAging` at `now` (the scheduler's current time) gives a process
priority `priority - 1` and `last_ready_time = now` exactly when it is in the ready sequence
with `now - last_ready_time > 50` and `priority > 0`, and leaves every other process record
as it is; so no priority grows, no priority `≥ 0` drops below 0, and the ready sequence
afterwards is a permutation of the one before. -/
theorem applyAging_prio (s : Sim) (halg : s.sched.algorithm = Algorithm.prio) :
    (∀ (p : Nat) (x : Process), s.processes[p]? = some x →
      (applyAging s).processes[p]? = some
        (if p ∈ s.sched.readyQueue ∧ s.sched.currentTime - x.lastReadyTime > 50 ∧ x.priority > 0
          then { x with priority := x.priority - 1, lastReadyTime := s.sched.currentTime }
          else x)) ∧
    (∀ (p : Nat) (x y : Process), s.processes[p]? = some x →
      (applyAging s).processes[p]? = some y →
      y.priority ≤ x.priority ∧ (0 ≤ x.priority → 0 ≤ y.priority)) ∧
    List.Perm (applyAging s).sched.readyQueue s.sched.readyQueue := by
  have hmain : ∀ (p : Nat) (x : Process), s.processes[p]? = some x →
      (applyAging s).processes[p]? = some
        (if p ∈ s.sched.readyQueue ∧ s.sched.currentTime - x.lastReadyTime > 50 ∧ x.priority > 0
          then { x with priority := x.priority - 1, lastReadyTime := s.sched.currentTime }
          else x) := by
    intro p x hx
    rw [applyAging_prio_processes s halg, hx]
    by_cases hp : p ∈ s.sched.readyQueue
    · by_cases hc : s.sched.currentTime - x.lastReadyTime > 50 ∧ x.priority > 0
      · simp [hp, hc, aged]
      · simp [hp, hc, aged]
    · simp [hp]
  refine ⟨hmain, ?_, ?_⟩
  · intro p x y hx hy
    rw [hmain p x hx] at hy
    have hy' := Option.some.inj hy
    subst hy'
    split
    · rename_i hc
      refine ⟨?_, ?_⟩
      · show x.priority - 1 ≤ x.priority
        omega
      · intro _
        show 0 ≤ x.priority - 1
        have := hc.2.2
        omega
    · exact ⟨le_refl _, fun h => h⟩
  · simp only [applyAging, halg]
    split
    · exact perm_stdSort _ _
    · exact List.Perm.refl _

/-- C16, witness: scenario 6. `L`, admitted at tick 0 with priority 5 and never dispatched,
has priority 5 up to tick 50, priority 4 once the aging stage of tick 51 has run and up to
tick 101, and priority 3 once the aging stage of tick 102 has run. -/
theorem applyAging_prio_witness :
    (beforeAging (passes 51 agingWorkload)).sched.currentTime = 51 ∧
    (beforeAging (passes 51 agingWorkload)).processes.map (fun x => x.priority) = [0, 5] ∧
    (applyAging (beforeAging (passes 51 agingWorkload))).processes[1]?.map (fun x => x.priority)
      = some 4 ∧
    (beforeAging (passes 102 agingWorkload)).sched.currentTime = 102 ∧
    (beforeAging (passes 102 agingWorkload)).processes.map (fun x => x.priority) = [0, 4] ∧
    (applyAging (beforeAging (passes 102 agingWorkload))).processes[1]?.map (fun x => x.priority)
      = some 3 :=
  ⟨by decide, by decide,
   by
    obtain ⟨x, hx⟩ : ∃ x, (beforeAging (passes 51 agingWorkload)).processes[1]? = some x :=
      ⟨_, rfl⟩
    have h := (applyAging_prio (beforeAging (passes 51 agingWorkload)) rfl).1 1 x hx
    rw [h]
    have hx' := Option.some.inj hx
    subst hx'
    decide,
   by decide, by decide,
   by
    obtain ⟨x, hx⟩ : ∃ x, (beforeAging (passes 102 agingWorkload)).processes[1]? = some x :=
      ⟨_, rfl⟩
    have h := (applyAging_prio (beforeAging (passes 102 agingWorkload)) rfl).1 1 x hx
    rw [h]
    have hx' := Option.some.inj hx
    subst hx'
    decide⟩

/-! ## Claim C14: MLFQ demotion -/

theorem addProcess_processes (s : Sim) (p : Nat) :
    (addProcess s p).processes
      = updateAt s.processes p (fun x =>
          { x with state := ProcessState.READY, lastReadyTime := s.sched.currentTime }) := by
  unfold addProcess
  cases h : s.sched.algorithm <;> simp [Sim.modifyProc, h]

/-- C14, counterexample: with program `[CPU 4, CPU 1]` under MLFQ with quantum 4, the tick 3
raises the burst to `4 = quantum * 2 ^ 0` and finishes the first instruction; the queue level
of `A` is still 0 afterwards, not 1. -/
theorem no_demotion_when_instruction_finishes :
    (beforeDeadlockCheck (passes 3 twoBurstWorkload)).time = 3 ∧
    (beforeDeadlockCheck (passes 3 twoBurstWorkload)).runningProcess = some 0 ∧
    (beforeDeadlockCheck (passes 3 twoBurstWorkload)).currentBurstExecuted = 3 ∧
    (beforeDeadlockCheck (passes 3 twoBurstWorkload)).processes.map
        (fun x => (x.pc, x.remainingTimeCurrentOp, x.totalCpuTime, x.queueLevel))
      = [(0, 1, 3, 0)] ∧
    (passes 4 twoBurstWorkload).currentBurstExecuted = 4 ∧
    (passes 4 twoBurstWorkload).processes.map
        (fun x => (x.pc, x.remainingTimeCurrentOp, x.totalCpuTime, x.queueLevel))
      = [(1, 0, 4, 0)] ∧
    ¬ ((passes 4 twoBurstWorkload).processes.map (fun x => x.queueLevel) = [min (0 + 1) 2]) := by
  decide

/-- C14, as amended: under MLFQ, in a tick in which the running process executes a CPU unit:
when the burst thereby reaches `quantum * 2 ^ level`, the quantum being positive, and the CPU
instruction has not finished, the queue level becomes `min (level + 1) 2`; when the CPU
instruction finishes on that tick, the queue level is unchanged, whatever the burst. -/
theorem mlfq_demotion (s : Sim) (p : Nat) (x : Process) (inst : Instruction)
    (halg : s.sched.algorithm = Algorithm.mlfq) (hrun : s.runningProcess = some p)
    (hx : s.processes[p]? = some x) (hi : x.instructions[x.pc]? = some inst)
    (hcpu : inst.type = InstructionType.CPU) (hlvl : x.queueLevel ≤ 2) :
    (0 < s.sched.quantum →
      s.sched.quantum * 2 ^ x.queueLevel ≤ s.currentBurstExecuted + 1 →
      0 < x.remainingTimeCurrentOp - 1 →
      ∃ y : Process, (execute s).processes[p]? = some y ∧
        y.queueLevel = min (x.queueLevel + 1) 2) ∧
    (x.remainingTimeCurrentOp - 1 ≤ 0 →
      ∃ y : Process, (execute s).processes[p]? = some y ∧ y.queueLevel = x.queueLevel) := by
  have hex : (execute s).processes = (execCPU s p x).processes := by
    simp only [execute, hrun, hx, hi, hcpu]
  refine ⟨?_, ?_⟩
  · intro hpos hq0 hrem
    have hnot : ¬ x.remainingTimeCurrentOp - 1 ≤ 0 := by omega
    have hq : int32 (s.sched.quantum * 2 ^ x.queueLevel) ≤ s.currentBurstExecuted + 1 := by
      have h0 : (0 : Int) ≤ s.sched.quantum * 2 ^ x.queueLevel :=
        mul_nonneg (le_of_lt hpos) (pow_nonneg (by decide) _)
      exact le_trans (int32_le_self _ (by omega)) hq0
    have hx2 : (updateAt s.processes p (fun y =>
        { y with remainingTimeCurrentOp := y.remainingTimeCurrentOp - 1,
                 totalCpuTime := y.totalCpuTime + 1 }))[p]?
        = some { x with remainingTimeCurrentOp := x.remainingTimeCurrentOp - 1,
                        totalCpuTime := x.totalCpuTime + 1 } := by
      rw [getElem?_updateAt_self, hx]; rfl
    rw [hex]
    simp only [execCPU, hnot, if_false, checkQuantum, halg, Sim.modifyProc, hx2, ge_iff_le, hq,
      if_true, addProcess_processes, getElem?_updateAt_self, hx, Option.map_some']
    refine ⟨_, rfl, ?_⟩
    by_cases h2 : x.queueLevel < 2
    · simp only [h2, if_true]
      omega
    · simp only [h2, if_false]
      omega
  · intro hrem
    rw [hex]
    by_cases hend : x.pc + 1 ≥ x.instructions.length
    · simp only [execCPU, hrem, if_true, hend, Sim.modifyProc, getElem?_updateAt_self, hx,
        Option.map_some']
      exact ⟨_, rfl, rfl⟩
    · simp only [execCPU, hrem, if_true, hend, if_false, Sim.modifyProc, addProcess_processes,
        getElem?_updateAt_self, hx, Option.map_some']
      exact ⟨_, rfl, rfl⟩

/-- C14, witness: at level 1 with quantum 4, a CPU unit that raises the burst to 8 with 990
units of the instruction left moves the process to level 2. -/
theorem mlfq_demotion_witness :
    ∃ y : Process, (execute demotionState).processes[0]? = some y ∧ y.queueLevel = min (1 + 1) 2 :=
  (mlfq_demotion demotionState 0 _ _ rfl rfl rfl rfl rfl (by decide)).1
    (by decide) (by decide) (by decide)

/-! ## Scenario 5, tick by tick -/

theorem boostTimes_append (l1 l2 : List Event) :
    boostTimes (l1 ++ l2) = boostTimes l1 ++ boostTimes l2 := by
  induction l1 with
  | nil => rfl
  | cons e l ih => cases e <;> simp [boostTimes, ih]

theorem passes_succ (n : Nat) : ∀ s : Sim,
    passes (n + 1) s = if loopCond (passes n s) then step (passes n s) else passes n s := by
  induction n with
  | zero => intro s; simp [passes]
  | succ n ih =>
    intro s
    by_cases hl : loopCond s = true
    · have h1 : passes (n + 1 + 1) s = passes (n + 1) (step s) := by
        rw [passes]; simp [hl]
      have h2 : passes (n + 1) s = passes n (step s) := by
        rw [passes]; simp [hl]
      rw [h1, h2, ih (step s)]
    · have hf : loopCond s = false := by simpa using hl
      have h1 : ∀ m, passes m s = s := by
        intro m
        cases m with
        | zero => rfl
        | succ m => rw [passes]; simp [hf]
      rw [h1, h1, hf]
      simp

theorem front_queued_mlfq_plain (q : Int) (rm : ResourceManager) (pid : String)
    (a prio d c j b : Int) (lvl : Nat) (lrt ct : Int) (tr : List Event) (ha : 0 ≤ a)
    (hj : ¬ d - j ≤ 0) (hl : lvl ≤ 2) (hb : ¬ (0 < a + j ∧ (200 : Int) ∣ a + j)) :
    beforeDeadlockCheck (st1 Algorithm.mlfq q rm
        (cpuProc pid a prio d c j ProcessState.READY lrt lvl)
        ct [] (updateAt [[], [], []] lvl (fun q => q ++ [0])) (a + j) 0 none b tr)
      = runningState Algorithm.mlfq q rm pid a prio d c j 0 lvl lrt tr := by
  have h1 : ¬ a = -1 := by omega
  have hcases : lvl = 0 ∨ lvl = 1 ∨ lvl = 2 := by omega
  rcases hcases with h | h | h <;> subst h <;>
  simp [beforeDeadlockCheck, runningState, st1, cpuProc, arrivals, arrivalVisit, ioAdvance,
    ioVisit, setTime, applyAging, dispatch, List.range_succ, getNextProcess, Sim.modifyProc,
    updateAt, onDispatch, h1, hj, hb]

theorem aging_running (alg : Algorithm) (q : Int) (rm : ResourceManager) (pid : String)
    (a prio d c j b : Int) (lvl : Nat) (lrt ct t : Int) (tr : List Event) :
    applyAging (beforeAging (st1 alg q rm (cpuProc pid a prio d c j ProcessState.RUNNING lrt lvl)
        ct [] [[], [], []] t 0 (some 0) b tr))
      = st1 alg q rm (cpuProc pid a prio d c j ProcessState.RUNNING lrt lvl)
          t [] [[], [], []] t 0 (some 0) b tr := by
  cases alg
  · simp [beforeAging, st1, cpuProc, arrivals, arrivalVisit, ioAdvance, ioVisit, setTime,
      applyAging, List.range_succ]
  · simp [beforeAging, st1, cpuProc, arrivals, arrivalVisit, ioAdvance, ioVisit, setTime,
      applyAging, List.range_succ]
  · by_cases hb : 0 < t ∧ (200 : Int) ∣ t
    · simp [beforeAging, st1, cpuProc, arrivals, arrivalVisit, ioAdvance, ioVisit, setTime,
        applyAging, List.range_succ, hb, boostLevel]
    · simp [beforeAging, st1, cpuProc, arrivals, arrivalVisit, ioAdvance, ioVisit, setTime,
        applyAging, List.range_succ, hb]

theorem mlfq_phase_step (rm : ResourceManager) (pid : String) (prio c : Int) (j : Nat) (b : Int)
    (lvl : Nat) (lrt : Int) (tr : List Event) (hj : j + 1 ≤ 199) (hp : BoostPhase j b lvl)
    (hb : boostTimes tr = []) :
    ∃ (b' : Int) (lvl' : Nat) (lrt' : Int) (tr' : List Event),
      loopCond (afterDispatch
        (runningState Algorithm.mlfq 4 rm pid 0 prio 1000 c j b lvl lrt tr)) = true ∧
      beforeDeadlockCheck (afterDispatch
        (runningState Algorithm.mlfq 4 rm pid 0 prio 1000 c j b lvl lrt tr))
        = runningState Algorithm.mlfq 4 rm pid 0 prio 1000 c ((j : Int) + 1) b' lvl' lrt' tr' ∧
      BoostPhase (j + 1) b' lvl' ∧ boostTimes tr' = [] := by
  have hnl : ¬ (1000 : Int) - (j : Int) - 1 ≤ 0 := by omega
  have hnl' : ¬ (1000 : Int) - ((j : Int) + 1) ≤ 0 := by omega
  have e : (0 : Int) + (j : Int) + 1 = 0 + ((j : Int) + 1) := by ring
  have htr : boostTimes (tr ++ [Event.running (0 + (j : Int)) pid]) = [] := by
    rw [boostTimes_append, hb]; rfl
  have hlvl : lvl ≤ 2 := by
    rcases hp with ⟨_, h, _⟩ | ⟨_, _, h, _⟩ | ⟨_, h, _⟩ <;> omega
  have hfit : int32 ((4 : Int) * 2 ^ lvl) = 4 * 2 ^ lvl := by
    have hcases : lvl = 0 ∨ lvl = 1 ∨ lvl = 2 := by omega
    rcases hcases with h | h | h <;> rw [h] <;> norm_num [int32]
  by_cases hq : (4 : Int) * 2 ^ lvl ≤ b + 1
  · have hback := back_mlfq_preempt 4 rm pid 0 prio 1000 c j b lvl lrt tr hnl
      (by rw [hfit]; exact hq)
    rw [hback, e]
    have hnb : ¬ (0 < (0 : Int) + ((j : Int) + 1) ∧ (200 : Int) ∣ 0 + ((j : Int) + 1)) := by
      omega
    have hl' : (if lvl < 2 then lvl + 1 else lvl) ≤ 2 := by split <;> omega
    refine ⟨0, _, _, _, by simp [loopCond, st1], front_queued_mlfq_plain 4 rm pid 0 prio 1000 c
      ((j : Int) + 1) (b + 1) _ _ _ _ (le_refl _) hnl' hl' hnb, ?_, htr⟩
    rcases hp with ⟨h1, h2, h3⟩ | ⟨h1, h2, h3, h4⟩ | ⟨h1, h2, h3⟩
    · subst h2
      norm_num at hq
      right; left
      simp
      omega
    · subst h3
      norm_num at hq
      right; right
      simp
      omega
    · subst h2
      norm_num at hq
      right; right
      simp
      omega
  · have hback := back_mlfq_keep 4 rm pid 0 prio 1000 c j b lvl lrt tr hnl
      (by rw [hfit]; exact hq)
    rw [hback, e]
    refine ⟨b + 1, lvl, lrt, _, by simp [loopCond, st1], front_running Algorithm.mlfq 4 rm pid 0
      prio 1000 c ((j : Int) + 1) (b + 1) lvl lrt _ _, ?_, htr⟩
    rcases hp with ⟨h1, h2, h3⟩ | ⟨h1, h2, h3, h4⟩ | ⟨h1, h2, h3⟩
    · subst h2
      norm_num at hq
      left
      refine ⟨by omega, rfl, by push_cast; omega⟩
    · subst h3
      norm_num at hq
      right; left
      refine ⟨by omega, by omega, rfl, by push_cast; omega⟩
    · subst h2
      norm_num at hq
      right; right
      refine ⟨by omega, rfl, by push_cast; omega⟩

theorem mlfq_phase (rm : ResourceManager) (pid : String) (prio c : Int) :
    ∀ j : Nat, j ≤ 199 →
      ∃ (b : Int) (lvl : Nat) (lrt : Int) (tr : List Event),
        loopCond (passes j (st1 Algorithm.mlfq 4 rm
          (mkProcess pid 0 prio [⟨InstructionType.CPU, 1000, c⟩]) 0 [] [[], [], []] 0 0 none 0 []))
          = true ∧
        beforeDeadlockCheck (passes j (st1 Algorithm.mlfq 4 rm
          (mkProcess pid 0 prio [⟨InstructionType.CPU, 1000, c⟩]) 0 [] [[], [], []] 0 0 none 0 []))
          = runningState Algorithm.mlfq 4 rm pid 0 prio 1000 c (j : Int) b lvl lrt tr ∧
        BoostPhase j b lvl ∧ boostTimes tr = [] := by
  intro j
  induction j with
  | zero =>
    intro _
    refine ⟨0, 0, 0, [], by simp [passes, loopCond, st1], ?_, Or.inl ⟨by decide, rfl, rfl⟩, rfl⟩
    have h := front_arrival Algorithm.mlfq 4 rm pid 0 prio 1000 c 0 [] (le_refl _) (by decide)
    simp only [passes]
    rw [h]
    simp [runningState]
  | succ j ih =>
    intro hj
    obtain ⟨b, lvl, lrt, tr, hl, hfront, hp, hb⟩ := ih (by omega)
    obtain ⟨b', lvl', lrt', tr', h1, h2, h3, h4⟩ :=
      mlfq_phase_step rm pid prio c j b lvl lrt tr hj hp hb
    have hstep : passes (j + 1) (st1 Algorithm.mlfq 4 rm
        (mkProcess pid 0 prio [⟨InstructionType.CPU, 1000, c⟩]) 0 [] [[], [], []] 0 0 none 0 [])
        = afterDispatch (runningState Algorithm.mlfq 4 rm pid 0 prio 1000 c j b lvl lrt tr) := by
      rw [passes_succ, hl, if_pos rfl, step_eq, hfront]
    have hcast : ((j + 1 : Nat) : Int) = (j : Int) + 1 := by push_cast; ring
    rw [hstep, hcast]
    exact ⟨b', lvl', lrt', tr', h1, h2, h3, h4⟩

theorem mlfq_tick200 (caps : List Int) (pid : String) (prio c : Int) :
    ∃ (lrt : Int) (tr : List Event),
      applyAging (beforeAging (passes 200
          (singleWorkload Algorithm.mlfq 4 caps pid 0 prio 1000 c)))
        = st1 Algorithm.mlfq 4 (ResourceManager.init caps)
            (cpuProc pid 0 prio 1000 c 200 ProcessState.RUNNING lrt 2)
            200 [] [[], [], []] 200 0 (some 0) 12 tr ∧
      boostTimes tr = [] := by
  obtain ⟨b, lvl, lrt, tr, hl, hfront, hp, hb⟩ :=
    mlfq_phase (ResourceManager.init caps) pid prio c 199 (le_refl _)
  have hw : singleWorkload Algorithm.mlfq 4 caps pid 0 prio 1000 c
      = st1 Algorithm.mlfq 4 (ResourceManager.init caps)
          (mkProcess pid 0 prio [⟨InstructionType.CPU, 1000, c⟩]) 0 [] [[], [], []] 0 0 none 0
          [] := by
    simp [singleWorkload, Sim.load, st1]
  have hphase : lvl = 2 ∧ b = 11 := by
    rcases hp with ⟨h1, _⟩ | ⟨_, h1, _⟩ | ⟨_, h2, h3⟩
    · omega
    · omega
    · exact ⟨h2, by rw [h3]; rfl⟩
  obtain ⟨h2, h3⟩ := hphase
  subst h2
  subst h3
  have hstep : passes 200 (singleWorkload Algorithm.mlfq 4 caps pid 0 prio 1000 c)
      = afterDispatch (runningState Algorithm.mlfq 4 (ResourceManager.init caps) pid 0 prio 1000 c
          ((199 : Nat) : Int) 11 2 lrt tr) := by
    rw [hw, passes_succ, hl, if_pos rfl, step_eq, hfront]
  have hback := back_mlfq_keep 4 (ResourceManager.init caps) pid 0 prio 1000 c ((199 : Nat) : Int)
    11 2 lrt tr (by norm_num) (by norm_num [int32])
  rw [hstep, hback, aging_running]
  refine ⟨lrt, tr ++ [Event.running (0 + ((199 : Nat) : Int)) pid], ?_, ?_⟩
  · norm_num
  · rw [boostTimes_append, hb]; rfl

/-! ## Claim C12: the MLFQ boost scenario -/

/-- C12, counterexample: in scenario 5 (MLFQ, quantum 4, `A` with arrival 0 and `CPU 1000`),
once the aging stage of tick 200 has run, `A` is `RUNNING` with queue level 2, not 0, and the
trace holds no `[BOOST]` line for time 200. -/
theorem no_boost_for_running_process :
    (applyAging (beforeAging (passes 200
        (singleWorkload Algorithm.mlfq 4 [1] "A" 0 0 1000 0)))).processes.map
        (fun x => (x.pid, x.state, x.queueLevel)) = [("A", ProcessState.RUNNING, 2)] ∧
    ¬ (200 ∈ boostTimes (applyAging (beforeAging (passes 200
        (singleWorkload Algorithm.mlfq 4 [1] "A" 0 0 1000 0)))).trace) := by
  obtain ⟨lrt, tr, h, hb⟩ := mlfq_tick200 [1] "A" 0 0
  rw [h]
  simp [st1, cpuProc, hb]

/-- C12, as amended: under MLFQ with quantum 4 and the single process `A` (arrival 0, program
`CPU 1000`), whatever its priority and the resource capacities, once the aging stage of tick
200 has run the clock is 200, `A` is the running process, twelve units into its burst, with
`queueLevel = 2` and 200 CPU units executed, the three queues are empty, and no `[BOOST]`
line has been emitted. -/
theorem mlfq_boost_scenario (caps : List Int) (prio c : Int) :
    (applyAging (beforeAging (passes 200
        (singleWorkload Algorithm.mlfq 4 caps "A" 0 prio 1000 c)))).time = 200 ∧
    (applyAging (beforeAging (passes 200
        (singleWorkload Algorithm.mlfq 4 caps "A" 0 prio 1000 c)))).runningProcess = some 0 ∧
    (applyAging (beforeAging (passes 200
        (singleWorkload Algorithm.mlfq 4 caps "A" 0 prio 1000 c)))).currentBurstExecuted = 12 ∧
    (applyAging (beforeAging (passes 200
        (singleWorkload Algorithm.mlfq 4 caps "A" 0 prio 1000 c)))).sched.mlfq = [[], [], []] ∧
    (applyAging (beforeAging (passes 200
        (singleWorkload Algorithm.mlfq 4 caps "A" 0 prio 1000 c)))).processes.map
        (fun x => (x.pid, x.state, x.queueLevel, x.totalCpuTime))
      = [("A", ProcessState.RUNNING, 2, 200)] ∧
    boostTimes (applyAging (beforeAging (passes 200
        (singleWorkload Algorithm.mlfq 4 caps "A" 0 prio 1000 c)))).trace = [] := by
  obtain ⟨lrt, tr, h, hb⟩ := mlfq_tick200 caps "A" prio c
  rw [h]
  simp [st1, cpuProc, hb]

/-! ## The short deadlock workload after the recovery -/

theorem stalled_start :
    passes 6 shortCrossWorkload
      = stalledState 5 5
          [Event.request 0 "A" 1 1, Event.request 1 "B" 2 1, Event.request 2 "A" 2 1,
           Event.blockedResource 2 "A" 2, Event.request 3 "B" 1 1,
           Event.blockedResource 3 "B" 1, Event.deadlockDetected 4, Event.deadlockRecovery "A",
           Event.recovery 1 1 "A", Event.unblock "B" 1, Event.idle 4] := by
  decide

theorem stalled_step (t ct : Int) (tr : List Event) :
    step (stalledState t ct tr) = stalledState (t + 1) t (tr ++ [Event.idle t]) := by
  have h1 : beforeDeadlockCheck (stalledState t ct tr) = stalledState t t tr := by
    simp [beforeDeadlockCheck, stalledState, arrivals, arrivalVisit, ioAdvance, ioVisit, setTime,
      applyAging, dispatch, getNextProcess, List.range_succ]
  rw [step_eq, h1]
  simp [afterDispatch, stalledState, checkAndResolveDeadlock, deadlockCond, blockedOnResource,
    isWaitingResource, isWaitingIO, reapRunning, execute, List.range_succ]

theorem stalled_forever : ∀ (fuel : Nat) (t ct : Int) (tr : List Event),
    run fuel (stalledState t ct tr) = none := by
  intro fuel
  induction fuel with
  | zero => intro t ct tr; simp [run, loopCond, stalledState]
  | succ n ih =>
    intro t ct tr
    exact run_chain n _ _ _ (by simp [loopCond, stalledState]) (stalled_step t ct tr) (ih _ _ _)

theorem run_passes (n : Nat) : ∀ (fuel : Nat) (s : Sim),
    loopCond (passes n s) = true → run (n + fuel) s = run fuel (passes n s) := by
  induction n with
  | zero => intro fuel s _; simp [passes]
  | succ n ih =>
    intro fuel s h
    by_cases hl : loopCond s = true
    · have hp : passes (n + 1) s = passes n (step s) := by rw [passes]; simp [hl]
      rw [hp] at h ⊢
      have hf : n + 1 + fuel = (n + fuel) + 1 := by omega
      rw [hf, run]
      simp only [hl, if_true]
      exact ih fuel (step s) h
    · have hf : loopCond s = false := by simpa using hl
      have hp : passes (n + 1) s = s := by rw [passes]; simp [hf]
      rw [hp] at h
      rw [hf] at h
      exact absurd h (by decide)

theorem run_none_mono (n : Nat) : ∀ (m : Nat) (s : Sim), run (n + m) s = none → run n s = none := by
  intro m s h
  cases hr : run n s with
  | none => rfl
  | some s' =>
    rw [run_add m n s s' hr] at h
    exact absurd h (by simp)

/-! ## Claim C19: completion counting -/

/-- C19, evaluation at the failing input: for `A: REQ1 1; REQ2 1` and `B: REQ2 1; REQ1 1`
(two resources of capacity 1, RR, quantum 10) the deadlock is resolved at tick 4 by aborting
`A`. When the loop condition is evaluated after that pass, one process is `TERMINATED` and
`completed` is 0; after the next pass both processes are `TERMINATED`, `completed` is 1 and
the loop condition still holds; and the loop never exits, whatever the fuel. -/
theorem victim_not_counted :
    (terminatedCount (passes 5 shortCrossWorkload) = 1 ∧
      (passes 5 shortCrossWorkload).completedCount = 0) ∧
    ((passes 6 shortCrossWorkload).processes.map (fun x => (x.pid, x.state, x.finishTime))
        = [("A", ProcessState.TERMINATED, 4), ("B", ProcessState.TERMINATED, 5)] ∧
      (passes 6 shortCrossWorkload).completedCount = 1 ∧
      loopCond (passes 6 shortCrossWorkload) = true) ∧
    ∀ fuel : Nat, run fuel shortCrossWorkload = none := by
  refine ⟨by decide, by decide, ?_⟩
  intro fuel
  apply run_none_mono fuel 6
  have hf : fuel + 6 = 6 + fuel := by omega
  rw [hf, run_passes 6 fuel _ (by decide), stalled_start]
  exact stalled_forever _ _ _ _

/-! ## What `release` and the deadlock recovery grant -/

theorem mem_updateAt {α : Type} (f : α → α) : ∀ (l : List α) (i : Nat) (y : α),
    y ∈ updateAt l i f → y ∈ l ∨ ∃ x ∈ l, y = f x := by
  intro l
  induction l with
  | nil => intro i y h; simp [updateAt] at h
  | cons a l ih =>
    intro i y h
    cases i with
    | zero =>
      simp only [updateAt, List.mem_cons] at h
      rcases h with h | h
      · exact Or.inr ⟨a, List.mem_cons_self _ _, h⟩
      · exact Or.inl (List.mem_cons_of_mem _ h)
    | succ i =>
      simp only [updateAt, List.mem_cons] at h
      rcases h with h | h
      · exact Or.inl (by rw [h]; exact List.mem_cons_self _ _)
      · rcases ih i y h with h1 | ⟨x, hx, hy⟩
        · exact Or.inl (List.mem_cons_of_mem _ h1)
        · exact Or.inr ⟨x, List.mem_cons_of_mem _ hx, hy⟩

theorem readied_refl (procs : List Process) : Readied procs procs :=
  fun _ hy => Or.inl hy

theorem readied_trans {a b c : List Process} (h1 : Readied a b) (h2 : Readied b c) :
    Readied a c := by
  intro y hy
  rcases h2 y hy with h | h
  · exact h1 y h
  · exact Or.inr h

theorem readied_updateAt (procs : List Process) (i : Nat) (f : Process → Process)
    (hf : ∀ x, (f x).state = ProcessState.READY ∨ (f x).state = ProcessState.TERMINATED) :
    Readied procs (updateAt procs i f) := by
  intro y hy
  rcases mem_updateAt f procs i y hy with h | ⟨x, _, hx⟩
  · exact Or.inl h
  · rw [hx]; exact Or.inr (hf x)

theorem sameSlots_refl (s : Sim) : SameSlots s s := ⟨rfl, rfl, rfl, rfl, rfl⟩

theorem sameSlots_trans {a b c : Sim} (h1 : SameSlots a b) (h2 : SameSlots b c) :
    SameSlots a c :=
  ⟨h2.1.trans h1.1, h2.2.1.trans h1.2.1, h2.2.2.1.trans h1.2.2.1, h2.2.2.2.1.trans h1.2.2.2.1,
    h2.2.2.2.2.trans h1.2.2.2.2⟩

theorem drain_index (rId : Int) (q : List Nat) :
    ∀ (res : Resource) (procs : List Process) (ready : List Nat) (out : List Event) (i : Nat)
      (x : Process), procs[i]? = some x →
      ∃ y, (drainWaiters rId res procs ready out q).procs[i]? = some y ∧
        (y = x ∨ y.state = ProcessState.READY) := by
  induction q with
  | nil => intro res procs ready out i x hx; exact ⟨x, hx, Or.inl rfl⟩
  | cons w q ih =>
    intro res procs ready out i x hx
    cases hp : pendingCount procs w with
    | none => simp only [drainWaiters, hp]; exact ⟨x, hx, Or.inl rfl⟩
    | some c =>
      by_cases hc : res.available ≥ c
      · simp only [drainWaiters, hp, hc, if_true]
        by_cases hi : w = i
        · subst hi
          have h1 : (updateAt procs w wake)[w]? = some (wake x) := by
            rw [getElem?_updateAt_self, hx]; rfl
          obtain ⟨y, hy, hy2⟩ := ih ⟨res.id, res.capacity, res.available - c,
              allocSet res.allocation (pidOf procs w) (allocGet res.allocation (pidOf procs w) + c)⟩
            (updateAt procs w wake) (ready ++ [w]) (out ++ [Event.unblock (pidOf procs w) rId])
            w (wake x) h1
          refine ⟨y, hy, Or.inr ?_⟩
          rcases hy2 with h | h
          · rw [h]; rfl
          · exact h
        · have h1 : (updateAt procs w wake)[i]? = some x := by
            rw [getElem?_updateAt_ne _ _ _ _ hi, hx]
          exact ih _ _ _ _ i x h1
      · simp only [drainWaiters, hp, hc, if_false]
        exact ⟨x, hx, Or.inl rfl⟩

theorem drain_grants (rId : Int) (q : List Nat) :
    ∀ (res : Resource) (procs : List Process) (ready : List Nat) (out : List Event),
      Readied procs (drainWaiters rId res procs ready out q).procs ∧
      ∃ g, (drainWaiters rId res procs ready out q).ready = ready ++ g ∧
        q = g ++ (drainWaiters rId res procs ready out q).queue ∧
        ∀ w ∈ g, ∃ y, (drainWaiters rId res procs ready out q).procs[w]? = some y ∧
          y.state = ProcessState.READY := by
  induction q with
  | nil =>
    intro res procs ready out
    exact ⟨readied_refl _, [], by simp [drainWaiters], by simp [drainWaiters], by simp⟩
  | cons w q ih =>
    intro res procs ready out
    cases hp : pendingCount procs w with
    | none =>
      simp only [drainWaiters, hp]
      exact ⟨readied_refl _, [], by simp, by simp, by simp⟩
    | some c =>
      by_cases hc : res.available ≥ c
      · simp only [drainWaiters, hp, hc, if_true]
        obtain ⟨h1, g, h2, h3, h4⟩ := ih ⟨res.id, res.capacity, res.available - c,
            allocSet res.allocation (pidOf procs w) (allocGet res.allocation (pidOf procs w) + c)⟩
          (updateAt procs w wake) (ready ++ [w]) (out ++ [Event.unblock (pidOf procs w) rId])
        refine ⟨readied_trans (readied_updateAt procs w wake (fun x => Or.inl rfl)) h1,
          w :: g, ?_, ?_, ?_⟩
        · rw [h2]; simp
        · rw [List.cons_append, ← h3]
        · intro v hv
          rcases List.mem_cons.mp hv with hv | hv
          · subst hv
            obtain ⟨x, hx⟩ : ∃ x, procs[v]? = some x := by
              unfold pendingCount at hp
              cases hx : procs[v]? with
              | none => rw [hx] at hp; simp at hp
              | some x => exact ⟨x, rfl⟩
            have hw1 : (updateAt procs v wake)[v]? = some (wake x) := by
              rw [getElem?_updateAt_self, hx]; rfl
            obtain ⟨y, hy, hy2⟩ := drain_index rId q ⟨res.id, res.capacity, res.available - c,
                allocSet res.allocation (pidOf procs v)
                  (allocGet res.allocation (pidOf procs v) + c)⟩
              (updateAt procs v wake) (ready ++ [v]) (out ++ [Event.unblock (pidOf procs v) rId])
              v (wake x) hw1
            refine ⟨y, hy, ?_⟩
            rcases hy2 with h | h
            · rw [h]; rfl
            · exact h
          · exact h4 v hv
      · simp only [drainWaiters, hp, hc, if_false]
        exact ⟨readied_refl _, [], by simp, by simp, by simp⟩

theorem release_grants (s : Sim) (p : Nat) (rId n : Int) :
    SameSlots s (release s p rId n) ∧
    Readied s.processes (release s p rId n).processes ∧
    ∃ g, (release s p rId n).sched.readyQueue = s.sched.readyQueue ++ g ∧
      getQ s.rm.waitingQueues rId = g ++ getQ (release s p rId n).rm.waitingQueues rId ∧
      ∀ w ∈ g, ∃ y, (release s p rId n).processes[w]? = some y ∧
        y.state = ProcessState.READY := by
  unfold release
  cases hf : findRes s.rm.resources rId with
  | none => exact ⟨sameSlots_refl s, readied_refl _, [], by simp, by simp, by simp⟩
  | some r =>
    obtain ⟨h1, g, h2, h3, h4⟩ := drain_grants rId (getQ s.rm.waitingQueues rId)
      (giveBack r (pidOf s.processes p) n) s.processes s.sched.readyQueue s.trace
    refine ⟨⟨rfl, rfl, rfl, rfl, rfl⟩, h1, g, h2, ?_, h4⟩
    simp only [getQ_setQ_self]
    exact h3

theorem releaseAllStep_grants (p : Nat) (s : Sim) (rId : Int) :
    SameSlots s (releaseAllStep p s rId) ∧
    Readied s.processes (releaseAllStep p s rId).processes ∧
    ∃ g, (releaseAllStep p s rId).sched.readyQueue = s.sched.readyQueue ++ g := by
  unfold releaseAllStep
  cases hf : findRes s.rm.resources rId with
  | none => exact ⟨sameSlots_refl s, readied_refl _, [], by simp⟩
  | some r =>
    simp only
    split
    · split
      · obtain ⟨h1, h2, g, h3, _⟩ := release_grants
          { s with trace := s.trace ++ [Event.recovery (allocGet r.allocation (pidOf s.processes p))
              rId (pidOf s.processes p)] } p rId (allocGet r.allocation (pidOf s.processes p))
        exact ⟨h1, h2, g, h3⟩
      · exact ⟨sameSlots_refl s, readied_refl _, [], by simp⟩
    · exact ⟨sameSlots_refl s, readied_refl _, [], by simp⟩

theorem releaseAll_grants (p : Nat) (ids : List Int) :
    ∀ s : Sim, SameSlots s (ids.foldl (releaseAllStep p) s) ∧
      Readied s.processes (ids.foldl (releaseAllStep p) s).processes ∧
      ∃ g, (ids.foldl (releaseAllStep p) s).sched.readyQueue = s.sched.readyQueue ++ g := by
  induction ids with
  | nil => intro s; exact ⟨sameSlots_refl s, readied_refl _, [], by simp⟩
  | cons i is ih =>
    intro s
    obtain ⟨a1, a2, g1, a3⟩ := releaseAllStep_grants p s i
    obtain ⟨b1, b2, g2, b3⟩ := ih (releaseAllStep p s i)
    refine ⟨sameSlots_trans a1 b1, readied_trans a2 b2, g1 ++ g2, ?_⟩
    simp only [List.foldl_cons]
    rw [b3, a3, List.append_assoc]

theorem recovery_grants (s : Sim) :
    SameSlots s (checkAndResolveDeadlock s) ∧
    Readied s.processes (checkAndResolveDeadlock s).processes ∧
    ∃ g, (checkAndResolveDeadlock s).sched.readyQueue = s.sched.readyQueue ++ g := by
  unfold checkAndResolveDeadlock
  split
  · split
    · exact ⟨sameSlots_refl s, readied_refl _, [], by simp⟩
    · rename_i victim rest hb
      obtain ⟨h1, h2, g, h3⟩ := releaseAll_grants victim (s.rm.resources.map Resource.id)
        { s with trace := s.trace ++
          [Event.deadlockDetected s.time, Event.deadlockRecovery (pidOf s.processes victim)] }
      refine ⟨h1, ?_, g, h3⟩
      exact readied_trans h2 (readied_updateAt _ victim _ (fun x => Or.inr rfl))
  · exact ⟨sameSlots_refl s, readied_refl _, [], by simp⟩

theorem arrivals_none (s : Sim)
    (h : ∀ x ∈ s.processes, ¬ (x.state = ProcessState.NEW ∧ x.arrivalTime = s.time)) :
    arrivals s = s := by
  have hv : ∀ p, arrivalVisit s p = s := by
    intro p
    unfold arrivalVisit
    cases hx : s.processes[p]? with
    | none => rfl
    | some x => simp only [h x (List.getElem?_mem hx), if_false]
  have hf : ∀ l : List Nat, l.foldl arrivalVisit s = s := by
    intro l
    induction l with
    | nil => rfl
    | cons a l ih => rw [List.foldl_cons, hv, ih]
  exact hf _

theorem ioAdvance_none (s : Sim) (h : ∀ x ∈ s.processes, isWaitingIO x = false) :
    ioAdvance s = s := by
  have hv : ∀ p, ioVisit s p = s := by
    intro p
    unfold ioVisit
    cases hx : s.processes[p]? with
    | none => rfl
    | some x =>
      have hio := h x (List.getElem?_mem hx)
      simp only [ isWaitingIO, decide_eq_false_iff_not] at hio
      simp only [hio, if_false]
  have hf : ∀ l : List Nat, l.foldl ioVisit s = s := by
    intro l
    induction l with
    | nil => rfl
    | cons a l ih => rw [List.foldl_cons, hv, ih]
  exact hf _

theorem addProcess_rr (s : Sim) (p : Nat) (halg : s.sched.algorithm = Algorithm.rr) :
    SameSlots s (addProcess s p) ∧ Readied s.processes (addProcess s p).processes ∧
    (addProcess s p).sched.readyQueue = s.sched.readyQueue ++ [p] := by
  refine ⟨?_, ?_, ?_⟩
  · simp [addProcess, Sim.modifyProc, halg, SameSlots]
  · rw [addProcess_processes]
    exact readied_updateAt _ _ _ (fun x => Or.inl rfl)
  · simp [addProcess, Sim.modifyProc, halg]

theorem arrivals_rr_fold (l : List Nat) :
    ∀ s : Sim, s.sched.algorithm = Algorithm.rr →
      SameSlots s (l.foldl arrivalVisit s) ∧
      Readied s.processes (l.foldl arrivalVisit s).processes ∧
      ∃ g, (l.foldl arrivalVisit s).sched.readyQueue = s.sched.readyQueue ++ g := by
  induction l with
  | nil => intro s _; exact ⟨sameSlots_refl s, readied_refl _, [], by simp⟩
  | cons a l ih =>
    intro s halg
    have hv : SameSlots s (arrivalVisit s a) ∧ Readied s.processes (arrivalVisit s a).processes ∧
        ∃ g, (arrivalVisit s a).sched.readyQueue = s.sched.readyQueue ++ g := by
      unfold arrivalVisit
      cases hx : s.processes[a]? with
      | none => exact ⟨sameSlots_refl s, readied_refl _, [], by simp⟩
      | some x =>
        simp only
        split
        · obtain ⟨h1, h2, h3⟩ := addProcess_rr s a halg
          exact ⟨h1, h2, [a], h3⟩
        · exact ⟨sameSlots_refl s, readied_refl _, [], by simp⟩
    obtain ⟨a1, a2, g1, a3⟩ := hv
    obtain ⟨b1, b2, g2, b3⟩ := ih (arrivalVisit s a) (a1.1.trans halg)
    refine ⟨sameSlots_trans a1 b1, readied_trans a2 b2, g1 ++ g2, ?_⟩
    rw [List.foldl_cons, b3, a3, List.append_assoc]

theorem no_io_of_readied {procs procs' : List Process} (h : Readied procs procs')
    (hio : ∀ x ∈ procs, isWaitingIO x = false) : ∀ y ∈ procs', isWaitingIO y = false := by
  intro y hy
  rcases h y hy with h1 | h1 | h1
  · exact hio y h1
  · simp [ isWaitingIO, h1]
  · simp [ isWaitingIO, h1]

theorem dispatch_head (s : Sim) (w : Nat) (q : List Nat) (hrun : s.runningProcess = none)
    (halg : s.sched.algorithm ≠ Algorithm.mlfq) (hq : s.sched.readyQueue = w :: q) :
    (dispatch s).runningProcess = some w ∧ (dispatch s).sched.readyQueue = q := by
  unfold dispatch
  cases ha : s.sched.algorithm with
  | mlfq => exact absurd ha halg
  | rr => simp [hrun, getNextProcess, ha, hq, Sim.modifyProc]
  | prio => simp [hrun, getNextProcess, ha, hq, Sim.modifyProc]

theorem applyAging_slots (s : Sim) (halg : s.sched.algorithm ≠ Algorithm.mlfq) :
    (applyAging s).runningProcess = s.runningProcess ∧
    (applyAging s).sched.algorithm = s.sched.algorithm ∧
    List.Perm (applyAging s).sched.readyQueue s.sched.readyQueue ∧
    (s.sched.algorithm = Algorithm.rr → (applyAging s).sched.readyQueue = s.sched.readyQueue) := by
  unfold applyAging
  cases ha : s.sched.algorithm with
  | mlfq => exact absurd ha halg
  | rr => exact ⟨rfl, ha, List.Perm.refl _, fun _ => rfl⟩
  | prio =>
    simp only
    split
    · exact ⟨rfl, ha, perm_stdSort _ _, fun h => by cases h⟩
    · exact ⟨rfl, ha, List.Perm.refl _, fun h => by cases h⟩

theorem idle_after_recovery (s : Sim) (hrun : s.runningProcess = none) :
    afterDispatch s
      = { checkAndResolveDeadlock s with
          trace := (checkAndResolveDeadlock s).trace ++ [Event.idle (checkAndResolveDeadlock s).time],
          time := (checkAndResolveDeadlock s).time + 1 } := by
  have h : (checkAndResolveDeadlock s).runningProcess = none :=
    (recovery_grants s).1.2.2.1.trans hrun
  simp only [afterDispatch, reapRunning, h, execute]

theorem deadlockCond_parts (s : Sim) (hd : deadlockCond s = true) :
    s.runningProcess = none ∧ s.sched.readyQueue = [] ∧
    ∀ x ∈ s.processes, isWaitingIO x = false := by
  simp only [deadlockCond, Bool.and_eq_true, Bool.not_eq_true', Bool.or_eq_false_iff,
    decide_eq_false_iff_not, ne_eq, not_not, List.any_eq_false] at hd
  obtain ⟨⟨⟨h1, h2, _⟩, _⟩, h4⟩ := hd
  refine ⟨?_, h2, ?_⟩
  · cases hr : s.runningProcess with
    | none => rfl
    | some p => rw [hr] at h1; simp at h1
  · intro x hx
    simpa using h4 x hx

theorem recovery_next_dispatch (s : Sim) (hd : deadlockCond s = true)
    (halg : s.sched.algorithm ≠ Algorithm.mlfq)
    (hg : (checkAndResolveDeadlock s).sched.readyQueue ≠ []) :
    (s.sched.algorithm = Algorithm.rr →
      (beforeDeadlockCheck (afterDispatch s)).runningProcess
        = (checkAndResolveDeadlock s).sched.readyQueue.head?) ∧
    (s.sched.algorithm = Algorithm.prio →
      (∀ x ∈ s.processes, x.state = ProcessState.NEW → x.arrivalTime ≠ s.time + 1) →
      ∃ w ∈ (checkAndResolveDeadlock s).sched.readyQueue,
        (beforeDeadlockCheck (afterDispatch s)).runningProcess = some w) := by
  obtain ⟨hrun, _, hio⟩ := deadlockCond_parts s hd
  obtain ⟨hslots, hready, _⟩ := recovery_grants s
  have hs1 := idle_after_recovery s hrun
  have hio1 : ∀ x ∈ (afterDispatch s).processes, isWaitingIO x = false := by
    rw [hs1]; exact no_io_of_readied hready hio
  have halg1 : (afterDispatch s).sched.algorithm = s.sched.algorithm := by
    rw [hs1]; exact hslots.1
  have hrun1 : (afterDispatch s).runningProcess = none := by
    rw [hs1]; exact hslots.2.2.1.trans hrun
  have hq1 : (afterDispatch s).sched.readyQueue = (checkAndResolveDeadlock s).sched.readyQueue := by
    rw [hs1]
  have htime1 : (afterDispatch s).time = s.time + 1 := by
    rw [hs1]; show (checkAndResolveDeadlock s).time + 1 = s.time + 1
    rw [hslots.2.2.2.1]
  have hproc1 : (afterDispatch s).processes = (checkAndResolveDeadlock s).processes := by
    rw [hs1]
  refine ⟨?_, ?_⟩
  · intro hrr
    obtain ⟨a1, a2, g, a3⟩ := arrivals_rr_fold (List.range (afterDispatch s).processes.length)
      (afterDispatch s) (halg1.trans hrr)
    have hio2 : ∀ x ∈ (arrivals (afterDispatch s)).processes, isWaitingIO x = false :=
      no_io_of_readied a2 hio1
    have hbd : beforeDeadlockCheck (afterDispatch s)
        = dispatch (applyAging (setTime (arrivals (afterDispatch s)))) := by
      show dispatch (applyAging (setTime (ioAdvance (arrivals (afterDispatch s))))) = _
      rw [ioAdvance_none _ hio2]
    have halg2 : (setTime (arrivals (afterDispatch s))).sched.algorithm = Algorithm.rr :=
      (a1.1.trans halg1).trans hrr
    have hne : (setTime (arrivals (afterDispatch s))).sched.algorithm ≠ Algorithm.mlfq := by
      rw [halg2]; decide
    obtain ⟨b1, b2, _, b4⟩ := applyAging_slots (setTime (arrivals (afterDispatch s))) hne
    cases hG : (checkAndResolveDeadlock s).sched.readyQueue with
    | nil => exact absurd hG hg
    | cons w q =>
      have hq : (applyAging (setTime (arrivals (afterDispatch s)))).sched.readyQueue
          = w :: (q ++ g) := by
        rw [b4 halg2]
        show (arrivals (afterDispatch s)).sched.readyQueue = _
        exact a3.trans (by rw [hq1, hG]; rfl)
      have hr : (applyAging (setTime (arrivals (afterDispatch s)))).runningProcess = none := by
        rw [b1]
        show (arrivals (afterDispatch s)).runningProcess = none
        exact a1.2.2.1.trans hrun1
      rw [hbd, (dispatch_head _ w (q ++ g) hr (by rw [b2]; exact hne) hq).1]
      rfl
  · intro hprio hnew
    have harr : arrivals (afterDispatch s) = afterDispatch s := by
      apply arrivals_none
      intro x hx hc
      rw [hproc1] at hx
      rcases hready x hx with h | h | h
      · exact hnew x h hc.1 (hc.2.trans htime1)
      · rw [hc.1] at h; exact absurd h (by decide)
      · rw [hc.1] at h; exact absurd h (by decide)
    have hbd : beforeDeadlockCheck (afterDispatch s)
        = dispatch (applyAging (setTime (afterDispatch s))) := by
      show dispatch (applyAging (setTime (ioAdvance (arrivals (afterDispatch s))))) = _
      rw [harr, ioAdvance_none _ hio1]
    have hne : (setTime (afterDispatch s)).sched.algorithm ≠ Algorithm.mlfq := by
      show (afterDispatch s).sched.algorithm ≠ Algorithm.mlfq
      rw [halg1]; exact halg
    obtain ⟨b1, b2, b3, _⟩ := applyAging_slots (setTime (afterDispatch s)) hne
    have hperm : List.Perm (applyAging (setTime (afterDispatch s))).sched.readyQueue
        (checkAndResolveDeadlock s).sched.readyQueue := by
      rw [← hq1]; exact b3
    cases hQ : (applyAging (setTime (afterDispatch s))).sched.readyQueue with
    | nil =>
      rw [hQ] at hperm
      exact absurd (List.Perm.eq_nil (List.Perm.symm hperm)) hg
    | cons w q =>
      have hr : (applyAging (setTime (afterDispatch s))).runningProcess = none := by
        rw [b1]; exact hrun1
      refine ⟨w, ?_, ?_⟩
      · exact (List.Perm.mem_iff hperm).mp (by rw [hQ]; exact List.mem_cons_self _ _)
      · rw [hbd]
        exact (dispatch_head _ w q hr (by rw [b2]; exact hne) hQ).1

theorem release_waiters (s : Sim) (p : Nat) (rId n : Int) :
    ∃ g, (release s p rId n).sched.readyQueue = s.sched.readyQueue ++ g ∧
      List.Perm (g ++ allWaiters (release s p rId n).rm.waitingQueues)
        (allWaiters s.rm.waitingQueues) := by
  unfold release
  cases hf : findRes s.rm.resources rId with
  | none => exact ⟨[], by simp, by simp⟩
  | some r =>
    obtain ⟨_, g, h2, h3, _⟩ := drain_grants rId (getQ s.rm.waitingQueues rId)
      (giveBack r (pidOf s.processes p) n) s.processes s.sched.readyQueue s.trace
    exact ⟨g, h2, allWaiters_setQ_perm s.rm.waitingQueues rId g _ h3⟩

theorem releaseAllStep_waiters (p : Nat) (s : Sim) (rId : Int) :
    ∃ g, (releaseAllStep p s rId).sched.readyQueue = s.sched.readyQueue ++ g ∧
      List.Perm (g ++ allWaiters (releaseAllStep p s rId).rm.waitingQueues)
        (allWaiters s.rm.waitingQueues) := by
  unfold releaseAllStep
  cases hf : findRes s.rm.resources rId with
  | none => exact ⟨[], by simp, by simp⟩
  | some r =>
    simp only
    split
    · split
      · exact release_waiters
          { s with trace := s.trace ++ [Event.recovery (allocGet r.allocation (pidOf s.processes p))
              rId (pidOf s.processes p)] } p rId (allocGet r.allocation (pidOf s.processes p))
      · exact ⟨[], by simp, by simp⟩
    · exact ⟨[], by simp, by simp⟩

theorem releaseAll_waiters (p : Nat) (ids : List Int) :
    ∀ s : Sim, ∃ g, (ids.foldl (releaseAllStep p) s).sched.readyQueue = s.sched.readyQueue ++ g ∧
      List.Perm (g ++ allWaiters (ids.foldl (releaseAllStep p) s).rm.waitingQueues)
        (allWaiters s.rm.waitingQueues) := by
  induction ids with
  | nil => intro s; exact ⟨[], by simp, by simp⟩
  | cons i is ih =>
    intro s
    obtain ⟨g1, a1, a2⟩ := releaseAllStep_waiters p s i
    obtain ⟨g2, b1, b2⟩ := ih (releaseAllStep p s i)
    refine ⟨g1 ++ g2, ?_, ?_⟩
    · simp only [List.foldl_cons]
      rw [b1, a1, List.append_assoc]
    · simp only [List.foldl_cons]
      rw [List.append_assoc]
      exact (List.Perm.append_left g1 b2).trans a2

theorem recovery_waiters (s : Sim) :
    ∃ g, (checkAndResolveDeadlock s).sched.readyQueue = s.sched.readyQueue ++ g ∧
      List.Perm (g ++ allWaiters (checkAndResolveDeadlock s).rm.waitingQueues)
        (allWaiters s.rm.waitingQueues) := by
  unfold checkAndResolveDeadlock
  split
  · split
    · exact ⟨[], by simp, by simp⟩
    · rename_i victim rest hb
      exact releaseAll_waiters victim (s.rm.resources.map Resource.id)
        { s with trace := s.trace ++
          [Event.deadlockDetected s.time, Event.deadlockRecovery (pidOf s.processes victim)] }
  · exact ⟨[], by simp, by simp⟩

theorem recovery_queue (s : Sim) (hd : deadlockCond s = true) :
    List.Perm ((checkAndResolveDeadlock s).sched.readyQueue
        ++ allWaiters (checkAndResolveDeadlock s).rm.waitingQueues)
      (allWaiters s.rm.waitingQueues) := by
  obtain ⟨g, h1, h2⟩ := recovery_waiters s
  rw [h1, (deadlockCond_parts s hd).2.1]
  exact h2

/-! ## Scenario 3, pass by pass -/

theorem blockingWorkload_eq (pa pb ca cb : Int) :
    blockingWorkload pa pb ca cb
      = blockingState
        (blockingProc "A" 0 pa 5 ca 0 0 ProcessState.NEW BlockReason.NONE (-1) (-1) 0 0 0)
        (blockingProc "B" 1 pb 2 cb 0 0 ProcessState.NEW BlockReason.NONE (-1) (-1) 0 0 0)
        1 [] [] 0 [] 0 0 none 0
        [] := rfl

theorem blocking_step1 (pa pb ca cb : Int) :
    step (blockingState
        (blockingProc "A" 0 pa 5 ca 0 0 ProcessState.NEW BlockReason.NONE (-1) (-1) 0 0 0)
        (blockingProc "B" 1 pb 2 cb 0 0 ProcessState.NEW BlockReason.NONE (-1) (-1) 0 0 0)
        1 [] [] 0 [] 0 0 none 0
        [])
      = blockingState
        (blockingProc "A" 0 pa 5 ca 1 0 ProcessState.READY BlockReason.NONE (-1) 0 0 0 0)
        (blockingProc "B" 1 pb 2 cb 0 0 ProcessState.NEW BlockReason.NONE (-1) (-1) 0 0 0)
        0 [("A", 1)] [] 0 [0] 1 0 none 0
        [Event.request 0 "A" 1 1] := by
  rw [step_eq]
  simp [blockingState, blockingProc, beforeDeadlockCheck, arrivals, arrivalVisit, ioAdvance, ioVisit, setTime,
    applyAging, dispatch, getNextProcess, onDispatch, addProcess, Sim.modifyProc, updateAt,
    List.range_succ]
  simp [afterDispatch, checkAndResolveDeadlock, deadlockCond, blockedOnResource, isWaitingResource,
    isWaitingIO, reapRunning, execute, execCPU, execREQ, execREL, checkQuantum, addProcess,
    Sim.modifyProc, updateAt, request, release, findRes, setRes, getQ, setQ, pidOf, allocSet,
    allocGet, allocErase, giveBack, drainWaiters, pendingCount, wake, List.range_succ]

theorem blocking_step2 (pa pb ca cb : Int) :
    step (blockingState
        (blockingProc "A" 0 pa 5 ca 1 0 ProcessState.READY BlockReason.NONE (-1) 0 0 0 0)
        (blockingProc "B" 1 pb 2 cb 0 0 ProcessState.NEW BlockReason.NONE (-1) (-1) 0 0 0)
        0 [("A", 1)] [] 0 [0] 1 0 none 0
        [Event.request 0 "A" 1 1])
      = blockingState
        (blockingProc "A" 0 pa 5 ca 1 4 ProcessState.RUNNING BlockReason.NONE (-1) 0 0 1 0)
        (blockingProc "B" 1 pb 2 cb 0 0 ProcessState.READY BlockReason.NONE (-1) (-1) 0 0 0)
        0 [("A", 1)] [] 1 [1] 2 0 (some 0) 1
        [Event.request 0 "A" 1 1, Event.running 1 "A"] := by
  rw [step_eq]
  simp [blockingState, blockingProc, beforeDeadlockCheck, arrivals, arrivalVisit, ioAdvance, ioVisit, setTime,
    applyAging, dispatch, getNextProcess, onDispatch, addProcess, Sim.modifyProc, updateAt,
    List.range_succ]
  simp [afterDispatch, checkAndResolveDeadlock, deadlockCond, blockedOnResource, isWaitingResource,
    isWaitingIO, reapRunning, execute, execCPU, execREQ, execREL, checkQuantum, addProcess,
    Sim.modifyProc, updateAt, request, release, findRes, setRes, getQ, setQ, pidOf, allocSet,
    allocGet, allocErase, giveBack, drainWaiters, pendingCount, wake, List.range_succ]

theorem blocking_step3 (pa pb ca cb : Int) :
    step (blockingState
        (blockingProc "A" 0 pa 5 ca 1 4 ProcessState.RUNNING BlockReason.NONE (-1) 0 0 1 0)
        (blockingProc "B" 1 pb 2 cb 0 0 ProcessState.READY BlockReason.NONE (-1) (-1) 0 0 0)
        0 [("A", 1)] [] 1 [1] 2 0 (some 0) 1
        [Event.request 0 "A" 1 1, Event.running 1 "A"])
      = blockingState
        (blockingProc "A" 0 pa 5 ca 1 3 ProcessState.RUNNING BlockReason.NONE (-1) 0 0 2 0)
        (blockingProc "B" 1 pb 2 cb 0 0 ProcessState.READY BlockReason.NONE (-1) (-1) 0 0 0)
        0 [("A", 1)] [] 2 [1] 3 0 (some 0) 2
        [Event.request 0 "A" 1 1, Event.running 1 "A", Event.running 2 "A"] := by
  rw [step_eq]
  simp [blockingState, blockingProc, beforeDeadlockCheck, arrivals, arrivalVisit, ioAdvance, ioVisit, setTime,
    applyAging, dispatch, getNextProcess, onDispatch, addProcess, Sim.modifyProc, updateAt,
    List.range_succ]
  simp [afterDispatch, checkAndResolveDeadlock, deadlockCond, blockedOnResource, isWaitingResource,
    isWaitingIO, reapRunning, execute, execCPU, execREQ, execREL, checkQuantum, addProcess,
    Sim.modifyProc, updateAt, request, release, findRes, setRes, getQ, setQ, pidOf, allocSet,
    allocGet, allocErase, giveBack, drainWaiters, pendingCount, wake, List.range_succ]

theorem blocking_step4 (pa pb ca cb : Int) :
    step (blockingState
        (blockingProc "A" 0 pa 5 ca 1 3 ProcessState.RUNNING BlockReason.NONE (-1) 0 0 2 0)
        (blockingProc "B" 1 pb 2 cb 0 0 ProcessState.READY BlockReason.NONE (-1) (-1) 0 0 0)
        0 [("A", 1)] [] 2 [1] 3 0 (some 0) 2
        [Event.request 0 "A" 1 1, Event.running 1 "A", Event.running 2 "A"])
      = blockingState
        (blockingProc "A" 0 pa 5 ca 1 2 ProcessState.RUNNING BlockReason.NONE (-1) 0 0 3 0)
        (blockingProc "B" 1 pb 2 cb 0 0 ProcessState.READY BlockReason.NONE (-1) (-1) 0 0 0)
        0 [("A", 1)] [] 3 [1] 4 0 (some 0) 3
        [Event.request 0 "A" 1 1, Event.running 1 "A", Event.running 2 "A", Event.running 3 "A"] := by
  rw [step_eq]
  simp [blockingState, blockingProc, beforeDeadlockCheck, arrivals, arrivalVisit, ioAdvance, ioVisit, setTime,
    applyAging, dispatch, getNextProcess, onDispatch, addProcess, Sim.modifyProc, updateAt,
    List.range_succ]
  simp [afterDispatch, checkAndResolveDeadlock, deadlockCond, blockedOnResource, isWaitingResource,
    isWaitingIO, reapRunning, execute, execCPU, execREQ, execREL, checkQuantum, addProcess,
    Sim.modifyProc, updateAt, request, release, findRes, setRes, getQ, setQ, pidOf, allocSet,
    allocGet, allocErase, giveBack, drainWaiters, pendingCount, wake, List.range_succ]

theorem blocking_step5 (pa pb ca cb : Int) :
    step (blockingState
        (blockingProc "A" 0 pa 5 ca 1 2 ProcessState.RUNNING BlockReason.NONE (-1) 0 0 3 0)
        (blockingProc "B" 1 pb 2 cb 0 0 ProcessState.READY BlockReason.NONE (-1) (-1) 0 0 0)
        0 [("A", 1)] [] 3 [1] 4 0 (some 0) 3
        [Event.request 0 "A" 1 1, Event.running 1 "A", Event.running 2 "A", Event.running 3 "A"])
      = blockingState
        (blockingProc "A" 0 pa 5 ca 1 1 ProcessState.RUNNING BlockReason.NONE (-1) 0 0 4 0)
        (blockingProc "B" 1 pb 2 cb 0 0 ProcessState.READY BlockReason.NONE (-1) (-1) 0 0 0)
        0 [("A", 1)] [] 4 [1] 5 0 (some 0) 4
        [Event.request 0 "A" 1 1, Event.running 1 "A", Event.running 2 "A", Event.running 3 "A",
         Event.running 4 "A"] := by
  rw [step_eq]
  simp [blockingState, blockingProc, beforeDeadlockCheck, arrivals, arrivalVisit, ioAdvance, ioVisit, setTime,
    applyAging, dispatch, getNextProcess, onDispatch, addProcess, Sim.modifyProc, updateAt,
    List.range_succ]
  simp [afterDispatch, checkAndResolveDeadlock, deadlockCond, blockedOnResource, isWaitingResource,
    isWaitingIO, reapRunning, execute, execCPU, execREQ, execREL, checkQuantum, addProcess,
    Sim.modifyProc, updateAt, request, release, findRes, setRes, getQ, setQ, pidOf, allocSet,
    allocGet, allocErase, giveBack, drainWaiters, pendingCount, wake, List.range_succ]

theorem blocking_step6 (pa pb ca cb : Int) :
    step (blockingState
        (blockingProc "A" 0 pa 5 ca 1 1 ProcessState.RUNNING BlockReason.NONE (-1) 0 0 4 0)
        (blockingProc "B" 1 pb 2 cb 0 0 ProcessState.READY BlockReason.NONE (-1) (-1) 0 0 0)
        0 [("A", 1)] [] 4 [1] 5 0 (some 0) 4
        [Event.request 0 "A" 1 1, Event.running 1 "A", Event.running 2 "A", Event.running 3 "A",
         Event.running 4 "A"])
      = blockingState
        (blockingProc "A" 0 pa 5 ca 2 0 ProcessState.READY BlockReason.NONE (-1) 0 0 5 5)
        (blockingProc "B" 1 pb 2 cb 0 0 ProcessState.READY BlockReason.NONE (-1) (-1) 0 0 0)
        0 [("A", 1)] [] 5 [1, 0] 6 0 none 5
        [Event.request 0 "A" 1 1, Event.running 1 "A", Event.running 2 "A", Event.running 3 "A",
         Event.running 4 "A", Event.running 5 "A"] := by
  rw [step_eq]
  simp [blockingState, blockingProc, beforeDeadlockCheck, arrivals, arrivalVisit, ioAdvance, ioVisit, setTime,
    applyAging, dispatch, getNextProcess, onDispatch, addProcess, Sim.modifyProc, updateAt,
    List.range_succ]
  simp [afterDispatch, checkAndResolveDeadlock, deadlockCond, blockedOnResource, isWaitingResource,
    isWaitingIO, reapRunning, execute, execCPU, execREQ, execREL, checkQuantum, addProcess,
    Sim.modifyProc, updateAt, request, release, findRes, setRes, getQ, setQ, pidOf, allocSet,
    allocGet, allocErase, giveBack, drainWaiters, pendingCount, wake, List.range_succ]

theorem blocking_step7 (pa pb ca cb : Int) :
    step (blockingState
        (blockingProc "A" 0 pa 5 ca 2 0 ProcessState.READY BlockReason.NONE (-1) 0 0 5 5)
        (blockingProc "B" 1 pb 2 cb 0 0 ProcessState.READY BlockReason.NONE (-1) (-1) 0 0 0)
        0 [("A", 1)] [] 5 [1, 0] 6 0 none 5
        [Event.request 0 "A" 1 1, Event.running 1 "A", Event.running 2 "A", Event.running 3 "A",
         Event.running 4 "A", Event.running 5 "A"])
      = blockingState
        (blockingProc "A" 0 pa 5 ca 2 0 ProcessState.READY BlockReason.NONE (-1) 0 0 5 5)
        (blockingProc "B" 1 pb 2 cb 0 0 ProcessState.BLOCKED BlockReason.WAITING_RESOURCE 1 6 0 0 0)
        0 [("A", 1)] [(1, [1])] 6 [0] 7 0 none 0
        [Event.request 0 "A" 1 1, Event.running 1 "A", Event.running 2 "A", Event.running 3 "A",
         Event.running 4 "A", Event.running 5 "A", Event.request 6 "B" 1 1,
         Event.blockedResource 6 "B" 1] := by
  rw [step_eq]
  simp [blockingState, blockingProc, beforeDeadlockCheck, arrivals, arrivalVisit, ioAdvance, ioVisit, setTime,
    applyAging, dispatch, getNextProcess, onDispatch, addProcess, Sim.modifyProc, updateAt,
    List.range_succ]
  simp [afterDispatch, checkAndResolveDeadlock, deadlockCond, blockedOnResource, isWaitingResource,
    isWaitingIO, reapRunning, execute, execCPU, execREQ, execREL, checkQuantum, addProcess,
    Sim.modifyProc, updateAt, request, release, findRes, setRes, getQ, setQ, pidOf, allocSet,
    allocGet, allocErase, giveBack, drainWaiters, pendingCount, wake, List.range_succ]

theorem blocking_step8 (pa pb ca cb : Int) :
    step (blockingState
        (blockingProc "A" 0 pa 5 ca 2 0 ProcessState.READY BlockReason.NONE (-1) 0 0 5 5)
        (blockingProc "B" 1 pb 2 cb 0 0 ProcessState.BLOCKED BlockReason.WAITING_RESOURCE 1 6 0 0 0)
        0 [("A", 1)] [(1, [1])] 6 [0] 7 0 none 0
        [Event.request 0 "A" 1 1, Event.running 1 "A", Event.running 2 "A", Event.running 3 "A",
         Event.running 4 "A", Event.running 5 "A", Event.request 6 "B" 1 1,
         Event.blockedResource 6 "B" 1])
      = blockingState
        (blockingProc "A" 0 pa 5 ca 3 0 ProcessState.READY BlockReason.NONE (-1) 0 0 5 7)
        (blockingProc "B" 1 pb 2 cb 1 0 ProcessState.READY BlockReason.NONE (-1) 6 0 0 0)
        0 [("B", 1)] [(1, [])] 7 [1, 0] 8 0 none 0
        [Event.request 0 "A" 1 1, Event.running 1 "A", Event.running 2 "A", Event.running 3 "A",
         Event.running 4 "A", Event.running 5 "A", Event.request 6 "B" 1 1,
         Event.blockedResource 6 "B" 1, Event.release 7 "A" 1 1, Event.unblock "B" 1] := by
  rw [step_eq]
  simp [blockingState, blockingProc, beforeDeadlockCheck, arrivals, arrivalVisit, ioAdvance, ioVisit, setTime,
    applyAging, dispatch, getNextProcess, onDispatch, addProcess, Sim.modifyProc, updateAt,
    List.range_succ]
  simp [afterDispatch, checkAndResolveDeadlock, deadlockCond, blockedOnResource, isWaitingResource,
    isWaitingIO, reapRunning, execute, execCPU, execREQ, execREL, checkQuantum, addProcess,
    Sim.modifyProc, updateAt, request, release, findRes, setRes, getQ, setQ, pidOf, allocSet,
    allocGet, allocErase, giveBack, drainWaiters, pendingCount, wake, List.range_succ]

theorem blocking_step9 (pa pb ca cb : Int) :
    step (blockingState
        (blockingProc "A" 0 pa 5 ca 3 0 ProcessState.READY BlockReason.NONE (-1) 0 0 5 7)
        (blockingProc "B" 1 pb 2 cb 1 0 ProcessState.READY BlockReason.NONE (-1) 6 0 0 0)
        0 [("B", 1)] [(1, [])] 7 [1, 0] 8 0 none 0
        [Event.request 0 "A" 1 1, Event.running 1 "A", Event.running 2 "A", Event.running 3 "A",
         Event.running 4 "A", Event.running 5 "A", Event.request 6 "B" 1 1,
         Event.blockedResource 6 "B" 1, Event.release 7 "A" 1 1, Event.unblock "B" 1])
      = blockingState
        (blockingProc "A" 0 pa 5 ca 3 0 ProcessState.READY BlockReason.NONE (-1) 0 0 5 7)
        (blockingProc "B" 1 pb 2 cb 1 1 ProcessState.RUNNING BlockReason.NONE (-1) 6 0 1 0)
        0 [("B", 1)] [(1, [])] 8 [0] 9 0 (some 1) 1
        [Event.request 0 "A" 1 1, Event.running 1 "A", Event.running 2 "A", Event.running 3 "A",
         Event.running 4 "A", Event.running 5 "A", Event.request 6 "B" 1 1,
         Event.blockedResource 6 "B" 1, Event.release 7 "A" 1 1, Event.unblock "B" 1,
         Event.running 8 "B"] := by
  rw [step_eq]
  simp [blockingState, blockingProc, beforeDeadlockCheck, arrivals, arrivalVisit, ioAdvance, ioVisit, setTime,
    applyAging, dispatch, getNextProcess, onDispatch, addProcess, Sim.modifyProc, updateAt,
    List.range_succ]
  simp [afterDispatch, checkAndResolveDeadlock, deadlockCond, blockedOnResource, isWaitingResource,
    isWaitingIO, reapRunning, execute, execCPU, execREQ, execREL, checkQuantum, addProcess,
    Sim.modifyProc, updateAt, request, release, findRes, setRes, getQ, setQ, pidOf, allocSet,
    allocGet, allocErase, giveBack, drainWaiters, pendingCount, wake, List.range_succ]

theorem blocking_step10 (pa pb ca cb : Int) :
    step (blockingState
        (blockingProc "A" 0 pa 5 ca 3 0 ProcessState.READY BlockReason.NONE (-1) 0 0 5 7)
        (blockingProc "B" 1 pb 2 cb 1 1 ProcessState.RUNNING BlockReason.NONE (-1) 6 0 1 0)
        0 [("B", 1)] [(1, [])] 8 [0] 9 0 (some 1) 1
        [Event.request 0 "A" 1 1, Event.running 1 "A", Event.running 2 "A", Event.running 3 "A",
         Event.running 4 "A", Event.running 5 "A", Event.request 6 "B" 1 1,
         Event.blockedResource 6 "B" 1, Event.release 7 "A" 1 1, Event.unblock "B" 1,
         Event.running 8 "B"])
      = blockingState
        (blockingProc "A" 0 pa 5 ca 3 0 ProcessState.READY BlockReason.NONE (-1) 0 0 5 7)
        (blockingProc "B" 1 pb 2 cb 2 0 ProcessState.READY BlockReason.NONE (-1) 6 0 2 9)
        0 [("B", 1)] [(1, [])] 9 [0, 1] 10 0 none 2
        [Event.request 0 "A" 1 1, Event.running 1 "A", Event.running 2 "A", Event.running 3 "A",
         Event.running 4 "A", Event.running 5 "A", Event.request 6 "B" 1 1,
         Event.blockedResource 6 "B" 1, Event.release 7 "A" 1 1, Event.unblock "B" 1,
         Event.running 8 "B", Event.running 9 "B"] := by
  rw [step_eq]
  simp [blockingState, blockingProc, beforeDeadlockCheck, arrivals, arrivalVisit, ioAdvance, ioVisit, setTime,
    applyAging, dispatch, getNextProcess, onDispatch, addProcess, Sim.modifyProc, updateAt,
    List.range_succ]
  simp [afterDispatch, checkAndResolveDeadlock, deadlockCond, blockedOnResource, isWaitingResource,
    isWaitingIO, reapRunning, execute, execCPU, execREQ, execREL, checkQuantum, addProcess,
    Sim.modifyProc, updateAt, request, release, findRes, setRes, getQ, setQ, pidOf, allocSet,
    allocGet, allocErase, giveBack, drainWaiters, pendingCount, wake, List.range_succ]

theorem blocking_step11 (pa pb ca cb : Int) :
    step (blockingState
        (blockingProc "A" 0 pa 5 ca 3 0 ProcessState.READY BlockReason.NONE (-1) 0 0 5 7)
        (blockingProc "B" 1 pb 2 cb 2 0 ProcessState.READY BlockReason.NONE (-1) 6 0 2 9)
        0 [("B", 1)] [(1, [])] 9 [0, 1] 10 0 none 2
        [Event.request 0 "A" 1 1, Event.running 1 "A", Event.running 2 "A", Event.running 3 "A",
         Event.running 4 "A", Event.running 5 "A", Event.request 6 "B" 1 1,
         Event.blockedResource 6 "B" 1, Event.release 7 "A" 1 1, Event.unblock "B" 1,
         Event.running 8 "B", Event.running 9 "B"])
      = blockingState
        (blockingProc "A" 0 pa 5 ca 3 0 ProcessState.TERMINATED BlockReason.NONE (-1) 0 10 5 7)
        (blockingProc "B" 1 pb 2 cb 2 0 ProcessState.READY BlockReason.NONE (-1) 6 0 2 9)
        0 [("B", 1)] [(1, [])] 10 [1] 10 1 none 0
        [Event.request 0 "A" 1 1, Event.running 1 "A", Event.running 2 "A", Event.running 3 "A",
         Event.running 4 "A", Event.running 5 "A", Event.request 6 "B" 1 1,
         Event.blockedResource 6 "B" 1, Event.release 7 "A" 1 1, Event.unblock "B" 1,
         Event.running 8 "B", Event.running 9 "B"] := by
  rw [step_eq]
  simp [blockingState, blockingProc, beforeDeadlockCheck, arrivals, arrivalVisit, ioAdvance, ioVisit, setTime,
    applyAging, dispatch, getNextProcess, onDispatch, addProcess, Sim.modifyProc, updateAt,
    List.range_succ]
  simp [afterDispatch, checkAndResolveDeadlock, deadlockCond, blockedOnResource, isWaitingResource,
    isWaitingIO, reapRunning, execute, execCPU, execREQ, execREL, checkQuantum, addProcess,
    Sim.modifyProc, updateAt, request, release, findRes, setRes, getQ, setQ, pidOf, allocSet,
    allocGet, allocErase, giveBack, drainWaiters, pendingCount, wake, List.range_succ]

theorem blocking_step12 (pa pb ca cb : Int) :
    step (blockingState
        (blockingProc "A" 0 pa 5 ca 3 0 ProcessState.TERMINATED BlockReason.NONE (-1) 0 10 5 7)
        (blockingProc "B" 1 pb 2 cb 2 0 ProcessState.READY BlockReason.NONE (-1) 6 0 2 9)
        0 [("B", 1)] [(1, [])] 10 [1] 10 1 none 0
        [Event.request 0 "A" 1 1, Event.running 1 "A", Event.running 2 "A", Event.running 3 "A",
         Event.running 4 "A", Event.running 5 "A", Event.request 6 "B" 1 1,
         Event.blockedResource 6 "B" 1, Event.release 7 "A" 1 1, Event.unblock "B" 1,
         Event.running 8 "B", Event.running 9 "B"])
      = blockingState
        (blockingProc "A" 0 pa 5 ca 3 0 ProcessState.TERMINATED BlockReason.NONE (-1) 0 10 5 7)
        (blockingProc "B" 1 pb 2 cb 3 0 ProcessState.READY BlockReason.NONE (-1) 6 0 2 10)
        1 [] [(1, [])] 10 [1] 11 1 none 0
        [Event.request 0 "A" 1 1, Event.running 1 "A", Event.running 2 "A", Event.running 3 "A",
         Event.running 4 "A", Event.running 5 "A", Event.request 6 "B" 1 1,
         Event.blockedResource 6 "B" 1, Event.release 7 "A" 1 1, Event.unblock "B" 1,
         Event.running 8 "B", Event.running 9 "B", Event.release 10 "B" 1 1] := by
  rw [step_eq]
  simp [blockingState, blockingProc, beforeDeadlockCheck, arrivals, arrivalVisit, ioAdvance, ioVisit, setTime,
    applyAging, dispatch, getNextProcess, onDispatch, addProcess, Sim.modifyProc, updateAt,
    List.range_succ]
  simp [afterDispatch, checkAndResolveDeadlock, deadlockCond, blockedOnResource, isWaitingResource,
    isWaitingIO, reapRunning, execute, execCPU, execREQ, execREL, checkQuantum, addProcess,
    Sim.modifyProc, updateAt, request, release, findRes, setRes, getQ, setQ, pidOf, allocSet,
    allocGet, allocErase, giveBack, drainWaiters, pendingCount, wake, List.range_succ]

theorem blocking_step13 (pa pb ca cb : Int) :
    step (blockingState
        (blockingProc "A" 0 pa 5 ca 3 0 ProcessState.TERMINATED BlockReason.NONE (-1) 0 10 5 7)
        (blockingProc "B" 1 pb 2 cb 3 0 ProcessState.READY BlockReason.NONE (-1) 6 0 2 10)
        1 [] [(1, [])] 10 [1] 11 1 none 0
        [Event.request 0 "A" 1 1, Event.running 1 "A", Event.running 2 "A", Event.running 3 "A",
         Event.running 4 "A", Event.running 5 "A", Event.request 6 "B" 1 1,
         Event.blockedResource 6 "B" 1, Event.release 7 "A" 1 1, Event.unblock "B" 1,
         Event.running 8 "B", Event.running 9 "B", Event.release 10 "B" 1 1])
      = blockingState
        (blockingProc "A" 0 pa 5 ca 3 0 ProcessState.TERMINATED BlockReason.NONE (-1) 0 10 5 7)
        (blockingProc "B" 1 pb 2 cb 3 0 ProcessState.TERMINATED BlockReason.NONE (-1) 6 11 2 10)
        1 [] [(1, [])] 11 [] 11 2 none 0
        [Event.request 0 "A" 1 1, Event.running 1 "A", Event.running 2 "A", Event.running 3 "A",
         Event.running 4 "A", Event.running 5 "A", Event.request 6 "B" 1 1,
         Event.blockedResource 6 "B" 1, Event.release 7 "A" 1 1, Event.unblock "B" 1,
         Event.running 8 "B", Event.running 9 "B", Event.release 10 "B" 1 1] := by
  rw [step_eq]
  simp [blockingState, blockingProc, beforeDeadlockCheck, arrivals, arrivalVisit, ioAdvance, ioVisit, setTime,
    applyAging, dispatch, getNextProcess, onDispatch, addProcess, Sim.modifyProc, updateAt,
    List.range_succ]
  simp [afterDispatch, checkAndResolveDeadlock, deadlockCond, blockedOnResource, isWaitingResource,
    isWaitingIO, reapRunning, execute, execCPU, execREQ, execREL, checkQuantum, addProcess,
    Sim.modifyProc, updateAt, request, release, findRes, setRes, getQ, setQ, pidOf, allocSet,
    allocGet, allocErase, giveBack, drainWaiters, pendingCount, wake, List.range_succ]

theorem blocking_run13 (pa pb ca cb : Int) :
    run 13 (blockingWorkload pa pb ca cb)
      = some (blockingState
        (blockingProc "A" 0 pa 5 ca 3 0 ProcessState.TERMINATED BlockReason.NONE (-1) 0 10 5 7)
        (blockingProc "B" 1 pb 2 cb 3 0 ProcessState.TERMINATED BlockReason.NONE (-1) 6 11 2 10)
        1 [] [(1, [])] 11 [] 11 2 none 0
        [Event.request 0 "A" 1 1, Event.running 1 "A", Event.running 2 "A", Event.running 3 "A",
         Event.running 4 "A", Event.running 5 "A", Event.request 6 "B" 1 1,
         Event.blockedResource 6 "B" 1, Event.release 7 "A" 1 1, Event.unblock "B" 1,
         Event.running 8 "B", Event.running 9 "B", Event.release 10 "B" 1 1]) := by
  rw [blockingWorkload_eq]
  exact
    (run_chain 12 _ _ _ (by simp [loopCond, blockingState]) (blocking_step1 pa pb ca cb)
    (run_chain 11 _ _ _ (by simp [loopCond, blockingState]) (blocking_step2 pa pb ca cb)
    (run_chain 10 _ _ _ (by simp [loopCond, blockingState]) (blocking_step3 pa pb ca cb)
    (run_chain 9 _ _ _ (by simp [loopCond, blockingState]) (blocking_step4 pa pb ca cb)
    (run_chain 8 _ _ _ (by simp [loopCond, blockingState]) (blocking_step5 pa pb ca cb)
    (run_chain 7 _ _ _ (by simp [loopCond, blockingState]) (blocking_step6 pa pb ca cb)
    (run_chain 6 _ _ _ (by simp [loopCond, blockingState]) (blocking_step7 pa pb ca cb)
    (run_chain 5 _ _ _ (by simp [loopCond, blockingState]) (blocking_step8 pa pb ca cb)
    (run_chain 4 _ _ _ (by simp [loopCond, blockingState]) (blocking_step9 pa pb ca cb)
    (run_chain 3 _ _ _ (by simp [loopCond, blockingState]) (blocking_step10 pa pb ca cb)
    (run_chain 2 _ _ _ (by simp [loopCond, blockingState]) (blocking_step11 pa pb ca cb)
    (run_chain 1 _ _ _ (by simp [loopCond, blockingState]) (blocking_step12 pa pb ca cb)
    (run_chain 0 _ _ _ (by simp [loopCond, blockingState]) (blocking_step13 pa pb ca cb)
    (run_done 0 _ (by simp [loopCond, blockingState])))))))))))))))

/-! ## Claim C11: the resource blocking scenario -/

/-- C11, counterexample: in scenario 3 under RR with quantum 10 the run does not block `B` at
tick 1, does not release for `A` at tick 6, does not execute `B` at tick 7, does not release
for `B` at tick 9, and does not end with the finish times 7 and 10. -/
theorem blocking_claimed_times_fail :
    ∃ s, run 20 (blockingWorkload 0 0 0 0) = some s ∧
      Event.blockedResource 1 "B" 1 ∉ s.trace ∧ Event.release 6 "A" 1 1 ∉ s.trace ∧
      Event.running 7 "B" ∉ s.trace ∧ Event.release 9 "B" 1 1 ∉ s.trace ∧
      s.processes.map (fun x => x.finishTime) ≠ [7, 10] :=
  ⟨_, run_of_le 13 20 _ _ (blocking_run13 0 0 0 0) (by decide),
    by decide, by decide, by decide, by decide, by decide⟩

/-- C11, as amended: with one resource of capacity 1, `A` (arrival 0: `REQ1 1; CPU 5; REL1 1`)
and `B` (arrival 1: `REQ1 1; CPU 2; REL1 1`) under RR with quantum 10, whatever the
priorities, the loop exits after 13 passes at `time = 11` and has printed exactly: `A` is
granted R1 at tick 0 and executes CPU at the ticks 1 to 5; `B` requests R1 and blocks at
tick 6; `A` releases at tick 7, which unblocks `B`; `B` executes CPU at the ticks 8 and 9 and
releases at tick 10; and `A.finishTime = 10`, `B.finishTime = 11`. -/
theorem blocking_scenario (pa pb ca cb : Int) (fuel : Nat) (h : 13 ≤ fuel) :
    (run fuel (blockingWorkload pa pb ca cb)).map (fun s =>
        (s.time, s.trace, s.processes.map (fun x => (x.pid, x.state, x.finishTime))))
      = some (11,
          [Event.request 0 "A" 1 1, Event.running 1 "A", Event.running 2 "A",
           Event.running 3 "A", Event.running 4 "A", Event.running 5 "A",
           Event.request 6 "B" 1 1, Event.blockedResource 6 "B" 1, Event.release 7 "A" 1 1,
           Event.unblock "B" 1, Event.running 8 "B", Event.running 9 "B",
           Event.release 10 "B" 1 1],
          [("A", ProcessState.TERMINATED, 10), ("B", ProcessState.TERMINATED, 11)]) := by
  rw [run_of_le 13 fuel _ _ (blocking_run13 pa pb ca cb) h, Option.map_some']
  simp [blockingState, blockingProc]

/-- C11, witness: priorities 0 and fuel 20. -/
theorem blocking_scenario_witness :
    (run 20 (blockingWorkload 0 0 0 0)).map (fun s =>
        (s.time, s.trace, s.processes.map (fun x => (x.pid, x.state, x.finishTime))))
      = some (11,
          [Event.request 0 "A" 1 1, Event.running 1 "A", Event.running 2 "A",
           Event.running 3 "A", Event.running 4 "A", Event.running 5 "A",
           Event.request 6 "B" 1 1, Event.blockedResource 6 "B" 1, Event.release 7 "A" 1 1,
           Event.unblock "B" 1, Event.running 8 "B", Event.running 9 "B",
           Event.release 10 "B" 1 1],
          [("A", ProcessState.TERMINATED, 10), ("B", ProcessState.TERMINATED, 11)]) :=
  blocking_scenario 0 0 0 0 20 (by decide)

/-! ## A granted waiter under MLFQ -/

theorem stranded_start :
    passes 9 blockingMlfqWorkload
      = strandedState 8 8
          [Event.request 0 "A" 1 1, Event.running 1 "A", Event.running 2 "A",
           Event.running 3 "A", Event.running 4 "A", Event.running 5 "A",
           Event.request 6 "B" 1 1, Event.blockedResource 6 "B" 1, Event.release 7 "A" 1 1,
           Event.unblock "B" 1] := by
  decide

theorem stranded_step (t ct : Int) (tr : List Event) :
    step (strandedState t ct tr) = strandedState (t + 1) t (tr ++ [Event.idle t]) := by
  have h1 : beforeDeadlockCheck (strandedState t ct tr) = strandedState t t tr := by
    by_cases hb : 0 < t ∧ (200 : Int) ∣ t
    · simp [beforeDeadlockCheck, strandedState, arrivals, arrivalVisit, ioAdvance, ioVisit,
        setTime, applyAging, dispatch, getNextProcess, List.range_succ, hb, boostLevel]
    · simp [beforeDeadlockCheck, strandedState, arrivals, arrivalVisit, ioAdvance, ioVisit,
        setTime, applyAging, dispatch, getNextProcess, List.range_succ, hb]
  rw [step_eq, h1]
  simp [afterDispatch, strandedState, checkAndResolveDeadlock, deadlockCond, blockedOnResource,
    isWaitingResource, isWaitingIO, reapRunning, execute, List.range_succ]

theorem stranded_forever : ∀ (fuel : Nat) (t ct : Int) (tr : List Event),
    run fuel (strandedState t ct tr) = none := by
  intro fuel
  induction fuel with
  | zero => intro t ct tr; simp [run, loopCond, strandedState]
  | succ n ih =>
    intro t ct tr
    exact run_chain n _ _ _ (by simp [loopCond, strandedState]) (stranded_step t ct tr) (ih _ _ _)

/-! ## Claim C17: the order of the PRIO ready sequence -/

/-- C17, evaluation at the failing input: under PRIO with `H` (arrival 0, priority 0,
`CPU 60`), `Y` (arrival 0, priority 2) and `X` (arrival 5, priority 1), the ready sequence
in the aging stage of tick 51 is `X, Y` with priorities 1 and 2; `applyAging` lowers `Y` to
priority 1 and re-sorts by priority alone, so afterwards the sequence is still `X, Y`: equal
priorities with arrival 5 ahead of arrival 0, while `(priority, arrival_time)` puts `Y`
first. The sort of `addProcess` applied to the same sequence gives `Y, X`. -/
theorem aging_sort_ignores_arrival :
    (beforeAging (passes 51 agingTieWorkload)).sched.currentTime = 51 ∧
    (beforeAging (passes 51 agingTieWorkload)).sched.readyQueue = [2, 1] ∧
    (beforeAging (passes 51 agingTieWorkload)).processes.map
        (fun x => (x.pid, x.priority, x.arrivalTime)) = [("H", 0, 0), ("Y", 2, 0), ("X", 1, 5)] ∧
    (applyAging (beforeAging (passes 51 agingTieWorkload))).sched.readyQueue = [2, 1] ∧
    (applyAging (beforeAging (passes 51 agingTieWorkload))).processes.map
        (fun x => (x.pid, x.priority, x.arrivalTime)) = [("H", 0, 0), ("Y", 1, 0), ("X", 1, 5)] ∧
    prioLess (applyAging (beforeAging (passes 51 agingTieWorkload))).processes 1 2 = true ∧
    stdSort (prioLess (applyAging (beforeAging (passes 51 agingTieWorkload))).processes)
        (applyAging (beforeAging (passes 51 agingTieWorkload))).sched.readyQueue = [1, 2] := by
  decide

/-! ## Claim C20: the process PRIO dispatches -/

/-- C20, evaluation at the failing input: under PRIO with `V` (arrival 1, priority 0,
`REQ1 2; REQ2 1`), `L` (arrival 0, priority 5, `REQ2 1; REQ1 1`) and `H` (arrival 4,
priority 1, `REQ1 1`) on resources of capacities 2 and 1, the three processes are blocked at
tick 5, the recovery aborts `V` and its release of resource 1 grants `L` and then `H`, in
wait-queue order; at the dispatch of tick 6 the ready sequence is `L, H` and
`getNextProcess` returns `L`, priority 5, while `H`, priority 1, is in the sequence. -/
theorem low_priority_dispatched_first :
    deadlockCond (beforeDeadlockCheck (passes 5 inversionWorkload)) = true ∧
    (beforeDeadlockCheck (passes 5 inversionWorkload)).time = 5 ∧
    getQ (beforeDeadlockCheck (passes 5 inversionWorkload)).rm.waitingQueues 1 = [1, 2] ∧
    (applyAging (beforeAging (passes 6 inversionWorkload))).time = 6 ∧
    (applyAging (beforeAging (passes 6 inversionWorkload))).runningProcess = none ∧
    (applyAging (beforeAging (passes 6 inversionWorkload))).sched.readyQueue = [1, 2] ∧
    (applyAging (beforeAging (passes 6 inversionWorkload))).processes.map
        (fun x => (x.pid, x.state, x.priority))
      = [("V", ProcessState.TERMINATED, 0), ("L", ProcessState.READY, 5),
         ("H", ProcessState.READY, 1)] ∧
    (getNextProcess (applyAging (beforeAging (passes 6 inversionWorkload))).sched).1 = some 1 ∧
    (beforeDeadlockCheck (passes 6 inversionWorkload)).runningProcess = some 1 ∧
    (beforeDeadlockCheck (passes 6 inversionWorkload)).sched.readyQueue = [2] := by
  decide

/-! ## Claim C18: waiters granted by `release` -/

/-- C18, evaluation at the failing input: in scenario 3 under MLFQ with quantum 10, `B`
blocks on resource 1 at tick 6 and the release of `A` at tick 7 grants it. After that tick
`B` is `READY` at level 0 and sits in `readyQueue`, while `Q[0]` holds only `A`;
`addProcess` applied to `B` in that state would append it to `Q[0]`. `getNextProcess` reads
only the MLFQ queues: once `A` has terminated it returns nothing, `B` is never dispatched and
the loop never exits, whatever the fuel. -/
theorem mlfq_granted_waiter_stranded :
    (passes 7 blockingMlfqWorkload).processes.map (fun x => (x.pid, x.state, x.queueLevel))
      = [("A", ProcessState.READY, 0), ("B", ProcessState.BLOCKED, 0)] ∧
    getQ (passes 7 blockingMlfqWorkload).rm.waitingQueues 1 = [1] ∧
    (passes 8 blockingMlfqWorkload).time = 8 ∧
    Event.unblock "B" 1 ∈ (passes 8 blockingMlfqWorkload).trace ∧
    (passes 8 blockingMlfqWorkload).sched.readyQueue = [1] ∧
    (passes 8 blockingMlfqWorkload).sched.mlfq = [[0], [], []] ∧
    (passes 8 blockingMlfqWorkload).processes.map (fun x => (x.pid, x.state, x.queueLevel))
      = [("A", ProcessState.READY, 0), ("B", ProcessState.READY, 0)] ∧
    (addProcess (passes 8 blockingMlfqWorkload) 1).sched.mlfq = [[0, 1], [], []] ∧
    (passes 9 blockingMlfqWorkload).processes.map (fun x => (x.pid, x.state))
      = [("A", ProcessState.TERMINATED), ("B", ProcessState.READY)] ∧
    (getNextProcess (passes 9 blockingMlfqWorkload).sched).1 = none ∧
    ∀ fuel : Nat, run fuel blockingMlfqWorkload = none := by
  refine ⟨by decide, by decide, by decide, by decide, by decide, by decide, by decide,
    by decide, by decide, by decide, ?_⟩
  intro fuel
  apply run_none_mono fuel 9
  have hf : fuel + 9 = 9 + fuel := by omega
  rw [hf, run_passes 9 fuel _ (by decide), stranded_start]
  exact stranded_forever _ _ _ _

/-! ## Granted waiters under RR and PRIO -/

/-- Under PRIO with `A` and `B` (priority 5) deadlocked at tick 4 and `N` (priority 0)
arriving at tick 5, the recovery of tick 4 grants `B` and puts it in the ready sequence, and
the process dispatched at tick 5 is `N`: the admission of `N` sorts it ahead of `B`. -/
theorem arrival_overtakes_granted_waiter :
    deadlockCond (beforeDeadlockCheck (passes 4 overtakeWorkload)) = true ∧
    (beforeDeadlockCheck (passes 4 overtakeWorkload)).time = 4 ∧
    (checkAndResolveDeadlock (beforeDeadlockCheck (passes 4 overtakeWorkload))).sched.readyQueue
      = [1] ∧
    (beforeDeadlockCheck (passes 5 overtakeWorkload)).time = 5 ∧
    (beforeDeadlockCheck (passes 5 overtakeWorkload)).runningProcess = some 2 ∧
    (beforeDeadlockCheck (passes 5 overtakeWorkload)).sched.readyQueue = [1] ∧
    (beforeDeadlockCheck (passes 5 overtakeWorkload)).processes.map
        (fun x => (x.pid, x.state, x.priority))
      = [("A", ProcessState.TERMINATED, 5), ("B", ProcessState.READY, 5),
         ("N", ProcessState.RUNNING, 0)] := by
  decide

/-- What `release` does with the waiters it grants, whatever the policy: `release` (called
from a `REL` instruction or from the deadlock recovery) takes the waiters it grants from the
head of the wait queue of the resource, leaves each of them `READY` and appends them, in
that order, to `readyQueue`, the sequence `getNextProcess` reads under RR and PRIO; under RR
and PRIO `getNextProcess` returns the head of the ready sequence, so a later call can return
a granted waiter. After a deadlock recovery that grants at least one waiter the ready
sequence holds exactly the granted waiters (together with the waiters still queued they are
the waiters queued before), and the process dispatched at the next tick is, under RR, the
first of them and, under PRIO when no process arrives at that tick, one of them. -/
theorem granted_waiters_dispatch :
    (∀ (s : Sim) (p : Nat) (rId n : Int), ∃ g,
      (release s p rId n).sched.readyQueue = s.sched.readyQueue ++ g ∧
      getQ s.rm.waitingQueues rId = g ++ getQ (release s p rId n).rm.waitingQueues rId ∧
      ∀ w ∈ g, ∃ y, (release s p rId n).processes[w]? = some y ∧
        y.state = ProcessState.READY) ∧
    (∀ (sc : Scheduler) (w : Nat) (q : List Nat), sc.algorithm ≠ Algorithm.mlfq →
      sc.readyQueue = w :: q → getNextProcess sc = (some w, { sc with readyQueue := q })) ∧
    (∀ s : Sim, deadlockCond s = true → s.sched.algorithm ≠ Algorithm.mlfq →
      (checkAndResolveDeadlock s).sched.readyQueue ≠ [] →
      s.sched.readyQueue = [] ∧
      List.Perm ((checkAndResolveDeadlock s).sched.readyQueue
          ++ allWaiters (checkAndResolveDeadlock s).rm.waitingQueues)
        (allWaiters s.rm.waitingQueues) ∧
      (s.sched.algorithm = Algorithm.rr →
        (beforeDeadlockCheck (afterDispatch s)).runningProcess
          = (checkAndResolveDeadlock s).sched.readyQueue.head?) ∧
      (s.sched.algorithm = Algorithm.prio →
        (∀ x ∈ s.processes, x.state = ProcessState.NEW → x.arrivalTime ≠ s.time + 1) →
        ∃ w ∈ (checkAndResolveDeadlock s).sched.readyQueue,
          (beforeDeadlockCheck (afterDispatch s)).runningProcess = some w)) := by
  refine ⟨?_, ?_, ?_⟩
  · intro s p rId n
    obtain ⟨_, _, g, h1, h2, h3⟩ := release_grants s p rId n
    exact ⟨g, h1, h2, h3⟩
  · intro sc w q halg hq
    unfold getNextProcess
    cases ha : sc.algorithm with
    | mlfq => exact absurd ha halg
    | rr => simp [hq]
    | prio => simp [hq]
  · intro s hd halg hg
    obtain ⟨h1, h2⟩ := recovery_next_dispatch s hd halg hg
    exact ⟨(deadlockCond_parts s hd).2.1, recovery_queue s hd, h1, h2⟩

/-- Instances of `granted_waiters_dispatch`: the deadlock of `crossWorkload` at tick 4 under
RR, where the recovery grants `B` and `B` is dispatched at tick 5; and the deadlock of `inversionWorkload` at tick 5 under
PRIO, where the recovery grants `L` and `H`, no process arrives at tick 6, and one of the two
is dispatched at tick 6. -/
theorem granted_waiters_dispatch_witness :
    (deadlockCond (beforeDeadlockCheck (passes 4 crossWorkload)) = true ∧
      (checkAndResolveDeadlock (beforeDeadlockCheck (passes 4 crossWorkload))).sched.readyQueue
        = [1] ∧
      (beforeDeadlockCheck (afterDispatch (beforeDeadlockCheck (passes 4 crossWorkload)))).runningProcess
        = some 1) ∧
    (deadlockCond (beforeDeadlockCheck (passes 5 inversionWorkload)) = true ∧
      (checkAndResolveDeadlock (beforeDeadlockCheck (passes 5 inversionWorkload))).sched.readyQueue
        = [1, 2] ∧
      ∃ w ∈ (checkAndResolveDeadlock
          (beforeDeadlockCheck (passes 5 inversionWorkload))).sched.readyQueue,
        (beforeDeadlockCheck (afterDispatch
          (beforeDeadlockCheck (passes 5 inversionWorkload)))).runningProcess = some w) :=
  ⟨⟨by decide, by decide,
     ((granted_waiters_dispatch.2.2 (beforeDeadlockCheck (passes 4 crossWorkload))
        (by decide) (by decide) (by decide)).2.2.1 (by decide)).trans (by decide)⟩,
   ⟨by decide, by decide,
     (granted_waiters_dispatch.2.2 (beforeDeadlockCheck (passes 5 inversionWorkload))
        (by decide) (by decide) (by decide)).2.2.2 (by decide) (by decide)⟩⟩

end CpuSched
